import Mathlib

/-!
# Smart Digital Contract: the server's ledger and approval state machine

A shallow embedding of `src/server.js`.  The MySQL tables are lists of rows, the two
storage directories are one association list from absolute paths to file contents, and
every route handler is a function from the state before the request to the response and
the state after it.  Requests are handled one at a time.

Library calls whose code is not part of the repository (`decodeURIComponent`,
`path.basename`, `path.join`, the image embedders of pdf-lib) are fields of `Lib`.
-/

namespace SmartContract

/-! ## JavaScript values -/

/-- A thrown JavaScript error: `err.code` (empty when the error has none) and `err.message`. -/
structure JsError where
  code : String
  message : String
deriving DecidableEq, Repr

/-- A JavaScript number as far as the routes tell numbers apart: an integral value, or any
other number (a fraction, `NaN`, an infinity). -/
inductive JsNum where
  | int (i : Int)
  | other
deriving DecidableEq, Repr

/-- Truthiness of a nullable string: `null`, `undefined` and `""` are falsy. -/
def truthy : Option String → Bool
  | none => false
  | some v => v != ""

/-- The operand of `String(v || "")` for a nullable string. -/
def orEmpty : Option String → String
  | none => ""
  | some v => v

/-- White space and line terminators, the characters `String.prototype.trim` strips. -/
def isJsSpace (c : Char) : Bool :=
  let n := c.toNat
  n == 0x09 || n == 0x0A || n == 0x0B || n == 0x0C || n == 0x0D || n == 0x20 ||
  n == 0xA0 || n == 0x1680 || (0x2000 ≤ n && n ≤ 0x200A) || n == 0x2028 || n == 0x2029 ||
  n == 0x202F || n == 0x205F || n == 0x3000 || n == 0xFEFF

/-- The method `String.prototype.trim`. -/
def jsTrim (v : String) : String :=
  String.mk (((v.data.dropWhile isJsSpace).reverse.dropWhile isJsSpace).reverse)

/-- The expression `String(notes || "").trim() || null`. -/
def trimOrNull (notes : Option String) : Option String :=
  let t := jsTrim (orEmpty notes)
  if t = "" then none else some t

/-- Replace the first occurrence of `pat`, as `String.prototype.replace` does for a string
pattern, by the empty string (on character lists). -/
def dropFirstOccurrence (pat : List Char) : List Char → List Char
  | [] => []
  | c :: cs =>
    if pat.isPrefixOf (c :: cs) then (c :: cs).drop pat.length
    else c :: dropFirstOccurrence pat cs

/-- The call `v.replace(pat, "")` for a non-empty string pattern `pat`. -/
def jsRemoveFirst (v pat : String) : String :=
  String.mk (dropFirstOccurrence pat.data v.data)

/-! ## Configuration and library functions -/

/-- The constants of the CONFIG block. -/
structure Config where
  UPLOADS_DIR : String
  STORAGE_DIR : String
  MAX_FILE_SIZE_MB : Nat
deriving DecidableEq, Repr

/-- Library functions the server calls.  `decodeURIComponent` throws on a malformed escape;
`basenameNoExt p` is `path.basename(p, path.extname(p))`;
`embedPng`/`embedJpg` stand for `pdfDoc.embedPng(Buffer.from(payload, "base64"))` and its
JPEG twin, which throw when the bytes are not an image of that kind. -/
structure Lib where
  decodeURIComponent : String → Except JsError String
  encodeURIComponent : String → String
  basename : String → String
  basenameNoExt : String → String
  join : String → String → String
  embedPng : String → Except JsError Unit
  embedJpg : String → Except JsError Unit

/-! ## Files -/

/-- The kind of raster image a data URI announces. -/
inductive ImageKind where
  | png
  | jpeg
deriving DecidableEq, Repr

/-- One `page.drawImage(embed, { x, y, width, height })`. -/
structure Stamp where
  kind : ImageKind
  data : String
  x : JsNum
  y : JsNum
  width : JsNum
  height : JsNum
deriving DecidableEq, Repr

/-- A page of a PDF document: what it held when first uploaded and the images drawn on it
since, oldest first. -/
structure Page where
  content : String
  stamps : List Stamp
deriving DecidableEq, Repr

/-- Contents of a file: a document `PDFDocument.load` parses into its pages, or bytes on
which `PDFDocument.load` throws the given error. -/
inductive FileContent where
  | pdf (pages : List Page)
  | corrupt (err : JsError)
deriving DecidableEq, Repr

/-- The file system: absolute path and contents of every file. -/
abbrev Disk := List (String × FileContent)

/-- The call `fs.existsSync`. -/
def existsSync (d : Disk) (p : String) : Bool :=
  d.any (fun e => e.1 == p)

/-- The call `fs.readFileSync` on an existing file. -/
def readFileSync (d : Disk) (p : String) : Option FileContent :=
  (d.find? (fun e => e.1 == p)).map (fun e => e.2)

/-- The call `fs.unlinkSync`. -/
def unlinkSync (d : Disk) (p : String) : Disk :=
  d.filter (fun e => e.1 != p)

/-- The call `fs.writeFileSync`: creates the file or replaces its contents. -/
def writeFileSync (d : Disk) (p : String) (c : FileContent) : Disk :=
  (p, c) :: unlinkSync d p

/-- Port of `safeUnlink`: deletes the file when the path is non-empty and the file exists. -/
def safeUnlink (d : Disk) (absPath : String) : Disk :=
  if absPath != "" && existsSync d absPath then unlinkSync d absPath else d

/-- Port of `absUploadFromPublic`. -/
def absUploadFromPublic (L : Lib) (cfg : Config) (publicPath : Option String) :
    Except JsError String :=
  match L.decodeURIComponent (jsRemoveFirst (orEmpty publicPath) "/uploads/") with
  | .error e => .error e
  | .ok filename => .ok (L.join cfg.UPLOADS_DIR (L.basename filename))

/-- Port of `absStorageFromPublic`. -/
def absStorageFromPublic (L : Lib) (cfg : Config) (publicPath : Option String) :
    Except JsError String :=
  match L.decodeURIComponent (jsRemoveFirst (orEmpty publicPath) "/storage/") with
  | .error e => .error e
  | .ok filename => .ok (L.join cfg.STORAGE_DIR (L.basename filename))

/-! ## Tables -/

/-- A row of table `contracts`. -/
structure ContractRow where
  id : Nat
  owner_id : Nat
  contract_code : String
  title : String
  vendor : String
  status : String
deriving DecidableEq, Repr

/-- A row of table `contract_files` (the columns the routes read and write). -/
structure ContractFileRow where
  contract_id : Nat
  upload_path : Option String
  signed_path : Option String
deriving DecidableEq, Repr

/-- A row of table `approvals` (the columns the routes read and write). -/
structure ApprovalRow where
  id : Nat
  contract_id : Nat
  approver_id : Nat
  status : String
  notes : Option String
  signed_path : Option String
  signed_at : Option Nat
deriving DecidableEq, Repr

/-- The database and the file system.  `users` holds the ids of table `users`;
`nextApprovalId` is the AUTO_INCREMENT counter of `approvals.id`. -/
structure State where
  users : List Nat
  contracts : List ContractRow
  contract_files : List ContractFileRow
  approvals : List ApprovalRow
  nextApprovalId : Nat
  disk : Disk
deriving DecidableEq, Repr

/-- The query `SELECT upload_path, signed_path FROM contract_files WHERE contract_id = ? LIMIT 1`. -/
def selectContractFile (s : State) (contractId : Nat) : Option ContractFileRow :=
  s.contract_files.find? (fun r => r.contract_id == contractId)

/-- Port of `getContractPdfSourceAbs`: `.ok none` is the returned `null`, `.error` a throw. -/
def getContractPdfSourceAbs (L : Lib) (cfg : Config) (s : State) (contractId : Nat) :
    Except JsError (Option String) :=
  match selectContractFile s contractId with
  | none => .ok none
  | some row =>
    if truthy row.signed_path then
      (absStorageFromPublic L cfg row.signed_path).map some
    else if truthy row.upload_path then
      (absUploadFromPublic L cfg row.upload_path).map some
    else .ok none

/-! ## Responses -/

/-- What a handler sends: the HTTP status and the fields of the JSON body the routes use
(`message` or `error` text, error detail, error code, `approval_id`, and the path reported as
`upload_path`, `signed_path` or `approval_signed_path`). -/
structure Response where
  status : Nat
  message : String
  error : Option String
  code : Option String
  approval_id : Option Nat
  path : Option String
deriving DecidableEq, Repr

/-- A body that carries a message only. -/
def Response.plain (status : Nat) (message : String) : Response :=
  { status := status, message := message, error := none, code := none,
    approval_id := none, path := none }

/-- Port of `handleMysqlError`. -/
def handleMysqlError (err : JsError) (fallbackMsg : String) : Response :=
  let code := err.code
  if code = "ER_DUP_ENTRY" then
    { status := 409, message := "Data sudah ada (duplicate).", error := some err.message,
      code := some code, approval_id := none, path := none }
  else if code = "ER_NO_REFERENCED_ROW_2" then
    { status := 400, message := "owner_id tidak valid (user belum ada di tabel users).",
      error := some err.message, code := some code, approval_id := none, path := none }
  else if code = "ER_NO_SUCH_TABLE" ∨ code = "ER_BAD_FIELD_ERROR" then
    { status := 500, message := "Struktur tabel/kolom di MySQL tidak sesuai.",
      error := some err.message, code := some code, approval_id := none, path := none }
  else
    { status := 500, message := fallbackMsg, error := some err.message, code := some code,
      approval_id := none, path := none }

/-! ## The sign payload and the compositor -/

/-- The body of a sign request.  `pageIndex` is `some` exactly when
`typeof pageIndex === "number"`; `x`, `y`, `width`, `height` are the values of `Number(x)` and
so on; `imageDataUrl` and `notes` are `none` when absent. -/
structure SignPayload where
  pageIndex : Option JsNum
  x : JsNum
  y : JsNum
  width : JsNum
  height : JsNum
  imageDataUrl : Option String
  notes : Option String
deriving DecidableEq, Repr

/-- Match `pat` (lower-case ASCII) at the head of `cs`, ignoring letter case; gives the
matched text and the rest. -/
def takeIgnoreCase : List Char → List Char → Option (List Char × List Char)
  | [], cs => some ([], cs)
  | _ :: _, [] => none
  | p :: ps, c :: cs =>
    if c.toLower == p then
      match takeIgnoreCase ps cs with
      | some (m, rest) => some (c :: m, rest)
      | none => none
    else none

/-- Line terminators, which `.` does not match. -/
def isLineTerminator (c : Char) : Bool :=
  c.toNat == 0x0A || c.toNat == 0x0D || c.toNat == 0x2028 || c.toNat == 0x2029

/-- One alternative of the media type in the data-URI pattern: `ty` then `;base64,` then
`(.*)$`.  Gives the groups `m[1]` and `m[3]`. -/
def matchWithType (ty : String) (cs : List Char) : Option (String × String) :=
  match takeIgnoreCase ty.data cs with
  | none => none
  | some (m1, rest) =>
    match takeIgnoreCase ";base64,".data rest with
    | none => none
    | some (_, payload) =>
      if payload.any isLineTerminator then none else some (String.mk m1, String.mk payload)

/-- The match `v.match(/^data:(image\/(png|jpeg));base64,(.*)$/i)`: groups `m[1]` and `m[3]`. -/
def matchImageDataUrl (v : String) : Option (String × String) :=
  match takeIgnoreCase "data:".data v.data with
  | none => none
  | some (_, rest) =>
    match matchWithType "image/png" rest with
    | some m => some m
    | none => matchWithType "image/jpeg" rest

/-- The method `toLowerCase` on the text of a matched media type. -/
def lowerAscii (v : String) : String :=
  String.mk (v.data.map Char.toLower)

/-- The element `pages[pageIndex]`, as an index into `pages`. -/
def pageAt (pages : List Page) : JsNum → Option Nat
  | .int i => if 0 ≤ i ∧ i.toNat < pages.length then some i.toNat else none
  | .other => none

/-- The expression `pages[pageIndex] || pages[0]`, as an index into `pages`; `none` when it is
`undefined`. -/
def selectPage (pages : List Page) (pageIndex : JsNum) : Option Nat :=
  match pageAt pages pageIndex with
  | some k => some k
  | none => if 0 < pages.length then some 0 else none

/-- The call `page.drawImage` on page `k`. -/
def drawImage (pages : List Page) (k : Nat) (st : Stamp) : List Page :=
  match pages[k]? with
  | some pg => pages.set k { pg with stamps := pg.stamps ++ [st] }
  | none => pages

/-- The error of calling `drawImage` on `undefined`. -/
def undefinedPageError : JsError :=
  { code := "", message := "Cannot read properties of undefined (reading 'drawImage')" }

/-- The compositor, the same statements in the owner and the approver sign route: load the
source, pick the page, match the data URI, embed the image, draw it.  `.error` is the
response of the early return or of the `catch` block. -/
def composeSigned (L : Lib) (src : FileContent) (pageIndex : JsNum) (p : SignPayload) :
    Except Response FileContent :=
  match src with
  | .corrupt e => .error (handleMysqlError e "Server error")
  | .pdf pages =>
    match matchImageDataUrl (orEmpty p.imageDataUrl) with
    | none => .error (Response.plain 400 "Format imageDataUrl harus PNG/JPEG base64.")
    | some (m1, m3) =>
      match (if lowerAscii m1 = "image/png" then L.embedPng m3 else L.embedJpg m3) with
      | .error e => .error (handleMysqlError e "Server error")
      | .ok _ =>
        match selectPage pages pageIndex with
        | none => .error (handleMysqlError undefinedPageError "Server error")
        | some k =>
          .ok (.pdf (drawImage pages k
            { kind := if lowerAscii m1 = "image/png" then .png else .jpeg, data := m3,
              x := p.x, y := p.y, width := p.width, height := p.height }))

/-! ## Table updates -/

/-- The statement `UPDATE contracts SET status = ? WHERE id = ?`. -/
def setContractStatus (cs : List ContractRow) (id : Nat) (st : String) : List ContractRow :=
  cs.map (fun c => if c.id = id then { c with status := st } else c)

/-- The query `SELECT id FROM contracts WHERE id = ? LIMIT 1` returns a row. -/
def contractExists (s : State) (id : Nat) : Bool :=
  s.contracts.any (fun c => c.id == id)

/-- The query `SELECT ... FROM approvals WHERE id = ? LIMIT 1`. -/
def selectApproval (s : State) (approvalId : Nat) : Option ApprovalRow :=
  s.approvals.find? (fun r => r.id == approvalId)

/-- The row of greater id among the best so far and the next row. -/
def laterOf (best : Option ApprovalRow) (r : ApprovalRow) : Option ApprovalRow :=
  match best with
  | none => some r
  | some b => if b.id < r.id then some r else some b

/-- The query `SELECT id, status FROM approvals WHERE contract_id = ? AND approver_id = ?
ORDER BY id DESC LIMIT 1`: the matching row of greatest id. -/
def latestApproval (rows : List ApprovalRow) (contractId approverId : Nat) :
    Option ApprovalRow :=
  (rows.filter (fun r => r.contract_id == contractId && r.approver_id == approverId)).foldl
    laterOf none

/-- The query `SELECT COUNT(1) FROM approvals WHERE contract_id = ? AND status = 'pending'`. -/
def pendingCount (rows : List ApprovalRow) (contractId : Nat) : Nat :=
  (rows.filter (fun r => r.contract_id == contractId && r.status == "pending")).length

/-! ## Upload -/

/-- The file part of a multipart upload request. -/
structure UploadedFile where
  originalname : String
  mimetype : String
  size : Nat
  content : FileContent
deriving DecidableEq, Repr

/-- Characters the class `[\w\-.]` accepts. -/
def isNameChar (c : Char) : Bool :=
  c.isAlphanum || c == '_' || c == '-' || c == '.'

/-- The replacement `replace(/[^\w\-.]+/g, "_")` on character lists; `inRun` tells that the
previous character was already replaced. -/
def sanitizeChars : Bool → List Char → List Char
  | _, [] => []
  | inRun, c :: cs =>
    if isNameChar c then c :: sanitizeChars false cs
    else if inRun then sanitizeChars true cs
    else '_' :: sanitizeChars true cs

/-- The `filename` callback of the multer storage, at time `now` (`Date.now()`). -/
def uploadFilename (now : Nat) (originalname : String) : String :=
  toString now ++ "-" ++ String.mk (sanitizeChars false originalname.data)

/-- Route `POST /api/contracts/:id/upload`.  The multer middleware runs first: it refuses a
file that is not `application/pdf`, and it reports `LIMIT_FILE_SIZE` as soon as the bytes it
has read reach `limits.fileSize`, so a file of exactly the limit is refused as well as a larger
one; otherwise it has stored the file under `UPLOADS_DIR` before the handler looks at the
contract. -/
def uploadContractPdf (L : Lib) (cfg : Config) (now : Nat) (s : State) (contractId : Nat)
    (file : Option UploadedFile) : Response × State :=
  match file with
  | none => (Response.plain 400 "File PDF wajib.", s)
  | some f =>
    if f.mimetype ≠ "application/pdf" then
      ({ Response.plain 400 "Upload error" with error := some "Only PDF files are allowed" }, s)
    else if cfg.MAX_FILE_SIZE_MB * 1024 * 1024 ≤ f.size then
      (Response.plain 413
        ("File terlalu besar. Max " ++ toString cfg.MAX_FILE_SIZE_MB ++ "MB."), s)
    else
      let filename := uploadFilename now f.originalname
      let s1 := { s with disk := writeFileSync s.disk (L.join cfg.UPLOADS_DIR filename) f.content }
      if ¬ contractExists s1 contractId then
        (Response.plain 404 "Contract tidak ditemukan.", s1)
      else
        let upload_path := "/uploads/" ++ L.encodeURIComponent filename
        let done (s2 : State) : Response × State :=
          ({ Response.plain 200 "Upload berhasil ✅" with path := some upload_path },
            { s2 with contracts := setContractStatus s2.contracts contractId "in_progress" })
        match selectContractFile s1 contractId with
        | some ex =>
          let setPath (s2 : State) : State :=
            { s2 with contract_files := s2.contract_files.map (fun r =>
                if r.contract_id = contractId then { r with upload_path := some upload_path }
                else r) }
          if truthy ex.upload_path then
            match absUploadFromPublic L cfg ex.upload_path with
            | .error e => (handleMysqlError e "Server error", s1)
            | .ok old => done (setPath { s1 with disk := safeUnlink s1.disk old })
          else done (setPath s1)
        | none =>
          done { s1 with contract_files := s1.contract_files ++
            [{ contract_id := contractId, upload_path := some upload_path, signed_path := none }] }

/-! ## Owner sign -/

/-- The `outName` of the owner sign route. -/
def contractOutName (contractId now : Nat) : String :=
  "contract-" ++ toString contractId ++ "-signed-" ++ toString now ++ ".pdf"

/-- The source of the owner sign route: the `contract_files` row it selects and the absolute
path it reads, or the response of the early return (no row, no `upload_path`) or of the
`catch` block. -/
def ownerSignSource (L : Lib) (cfg : Config) (s : State) (contractId : Nat) :
    Except Response (ContractFileRow × String) :=
  match selectContractFile s contractId with
  | none => .error (Response.plain 404 "PDF belum diupload untuk contract ini.")
  | some row =>
    if ¬ truthy row.upload_path then
      .error (Response.plain 404 "PDF belum diupload untuk contract ini.")
    else
      match absUploadFromPublic L cfg row.upload_path with
      | .error e => .error (handleMysqlError e "Server error")
      | .ok srcAbs => .ok (row, srcAbs)

/-- Route `POST /api/contracts/:id/sign`. -/
def signContract (L : Lib) (cfg : Config) (now : Nat) (s : State) (contractId : Nat)
    (p : SignPayload) : Response × State :=
  match p.pageIndex with
  | none => (Response.plain 400 "Payload tidak lengkap.", s)
  | some pageIndex =>
    if ¬ truthy p.imageDataUrl then (Response.plain 400 "Payload tidak lengkap.", s)
    else
      match ownerSignSource L cfg s contractId with
      | .error r => (r, s)
      | .ok (row, srcAbs) =>
        match readFileSync s.disk srcAbs with
        | none => (Response.plain 404 "File PDF sumber tidak ditemukan.", s)
        | some pdfBytes =>
          match composeSigned L pdfBytes pageIndex p with
          | .error r => (r, s)
          | .ok outBytes =>
            let outName := contractOutName contractId now
            let outAbs := L.join cfg.STORAGE_DIR outName
            let s1 := { s with disk := writeFileSync s.disk outAbs outBytes }
            let signed_path := "/storage/" ++ L.encodeURIComponent outName
            let record (s2 : State) : Response × State :=
              ({ Response.plain 200 "TTD berhasil ✅" with path := some signed_path },
                { s2 with
                  contract_files := s2.contract_files.map (fun r =>
                    if r.contract_id = contractId then
                      { r with signed_path := some signed_path }
                    else r)
                  contracts := setContractStatus s2.contracts contractId "active_contract" })
            if truthy row.signed_path then
              match absStorageFromPublic L cfg row.signed_path with
              | .error e => (handleMysqlError e "Server error", s1)
              | .ok old => record { s1 with disk := safeUnlink s1.disk old }
            else record s1

/-! ## Approval flow -/

/-- The `outName` of the approver sign route. -/
def approvalOutName (approvalId contractId now : Nat) : String :=
  "approval-" ++ toString approvalId ++ "-contract-" ++ toString contractId ++ "-signed-" ++
    toString now ++ ".pdf"

/-- The statements after the pending check of `request-approval`: insert a pending row, set
the contract to `pending_approval`, answer 201 with the new id.  Columns the INSERT does not
name are NULL. -/
def insertApproval (s : State) (contractId approverId : Nat) : Response × State :=
  ({ Response.plain 201 "Request approval dibuat ✅" with approval_id := some s.nextApprovalId },
    { s with
      approvals := s.approvals ++
        [{ id := s.nextApprovalId, contract_id := contractId, approver_id := approverId,
           status := "pending", notes := none, signed_path := none, signed_at := none }]
      nextApprovalId := s.nextApprovalId + 1
      contracts := setContractStatus s.contracts contractId "pending_approval" })

/-- Route `POST /api/contracts/:id/request-approval`.  The two ids are the values of
`Number(...)`; `0` also stands for `NaN`. -/
def requestApproval (s : State) (contractId approverId : Nat) : Response × State :=
  if contractId = 0 ∨ approverId = 0 then
    (Response.plain 400 "contractId dan approver_id wajib.", s)
  else if ¬ contractExists s contractId then
    (Response.plain 404 "Contract tidak ditemukan.", s)
  else if ¬ s.users.contains approverId then
    (Response.plain 400 "approver_id tidak valid.", s)
  else
    match latestApproval s.approvals contractId approverId with
    | some ex =>
      if ex.status = "pending" then
        ({ Response.plain 200 "Approval request sudah ada." with approval_id := some ex.id }, s)
      else insertApproval s contractId approverId
    | none => insertApproval s contractId approverId

/-- Route `POST /api/approvals/:approvalId/sign`, at time `now` (`Date.now()` and `NOW()`). -/
def signApproval (L : Lib) (cfg : Config) (now : Nat) (s : State) (approvalId : Nat)
    (p : SignPayload) : Response × State :=
  if approvalId = 0 then (Response.plain 400 "Invalid approvalId", s)
  else
    match p.pageIndex with
    | none => (Response.plain 400 "Payload tidak lengkap.", s)
    | some pageIndex =>
      if ¬ truthy p.imageDataUrl then (Response.plain 400 "Payload tidak lengkap.", s)
      else
        match selectApproval s approvalId with
        | none => (Response.plain 404 "Approval tidak ditemukan.", s)
        | some a =>
          if a.status = "rejected" then (Response.plain 400 "Approval sudah rejected.", s)
          else
            let contractId := a.contract_id
            match getContractPdfSourceAbs L cfg s contractId with
            | .error e => (handleMysqlError e "Server error", s)
            | .ok none =>
              (Response.plain 404 "PDF sumber tidak ditemukan. Upload PDF dulu.", s)
            | .ok (some srcAbs) =>
              if srcAbs = "" then
                (Response.plain 404 "PDF sumber tidak ditemukan. Upload PDF dulu.", s)
              else
                match readFileSync s.disk srcAbs with
                | none => (Response.plain 404 "PDF sumber tidak ditemukan. Upload PDF dulu.", s)
                | some pdfBytes =>
                  match composeSigned L pdfBytes pageIndex p with
                  | .error r => (r, s)
                  | .ok outBytes =>
                    let outName := approvalOutName approvalId contractId now
                    let outAbs := L.join cfg.STORAGE_DIR outName
                    let disk1 := writeFileSync s.disk outAbs outBytes
                    let approval_signed_path := "/storage/" ++ L.encodeURIComponent outName
                    let approvals1 := s.approvals.map (fun r =>
                      if r.id = approvalId then
                        { r with status := "approved", notes := trimOrNull p.notes,
                                 signed_path := some approval_signed_path,
                                 signed_at := some now }
                      else r)
                    ({ Response.plain 200 "TTD approval berhasil ✅" with
                        path := some approval_signed_path },
                      { s with
                        disk := disk1
                        approvals := approvals1
                        contracts :=
                          if pendingCount approvals1 contractId = 0 then
                            setContractStatus s.contracts contractId "active_contract"
                          else s.contracts })

/-- Route `POST /api/approvals/:approvalId/reject`. -/
def rejectApproval (s : State) (approvalId : Nat) (notes : Option String) :
    Response × State :=
  if approvalId = 0 then (Response.plain 400 "Invalid approvalId", s)
  else
    match selectApproval s approvalId with
    | none => (Response.plain 404 "Approval tidak ditemukan.", s)
    | some a =>
      (Response.plain 200 "Approval rejected ✅",
        { s with
          approvals := s.approvals.map (fun r =>
            if r.id = approvalId then
              { r with status := "rejected", notes := trimOrNull notes }
            else r)
          contracts := setContractStatus s.contracts a.contract_id "in_progress" })

/-! ## The filename-addressed sign route -/

/-- The `catch` block of `POST /api/pdf/sign`. -/
def legacySignError (e : JsError) : Response :=
  { status := 500, message := "Failed to save signed PDF", error := some e.message,
    code := none, approval_id := none, path := none }

/-- The compositor statements of `POST /api/pdf/sign`, which are those of `composeSigned` with
this route's own responses. -/
def composeLegacy (L : Lib) (src : FileContent) (pageIndex : JsNum) (p : SignPayload) :
    Except Response FileContent :=
  match src with
  | .corrupt e => .error (legacySignError e)
  | .pdf pages =>
    match matchImageDataUrl (orEmpty p.imageDataUrl) with
    | none => .error (Response.plain 400 "Unsupported image format")
    | some (m1, m3) =>
      match (if lowerAscii m1 = "image/png" then L.embedPng m3 else L.embedJpg m3) with
      | .error e => .error (legacySignError e)
      | .ok _ =>
        match selectPage pages pageIndex with
        | none => .error (legacySignError undefinedPageError)
        | some k =>
          .ok (.pdf (drawImage pages k
            { kind := if lowerAscii m1 = "image/png" then .png else .jpeg, data := m3,
              x := p.x, y := p.y, width := p.width, height := p.height }))

/-- The `outName` of `POST /api/pdf/sign`. -/
def legacyOutName (L : Lib) (filename : String) (now : Nat) : String :=
  L.basenameNoExt filename ++ "-signed-" ++ toString now ++ ".pdf"

/-- Route `POST /api/pdf/sign`; `filename` is the body field of that name.  The answer's
`message` is its `error` text and is empty on success. -/
def signPdfLegacy (L : Lib) (cfg : Config) (now : Nat) (s : State) (filename : Option String)
    (p : SignPayload) : Response × State :=
  if ¬ truthy filename then (Response.plain 400 "Bad payload", s)
  else
    match p.pageIndex with
    | none => (Response.plain 400 "Bad payload", s)
    | some pageIndex =>
      if ¬ truthy p.imageDataUrl then (Response.plain 400 "Bad payload", s)
      else
        let src := L.join cfg.UPLOADS_DIR (L.basename (orEmpty filename))
        match readFileSync s.disk src with
        | none => (Response.plain 404 "Source PDF not found", s)
        | some bytes =>
          match composeLegacy L bytes pageIndex p with
          | .error r => (r, s)
          | .ok out =>
            let outName := legacyOutName L (orEmpty filename) now
            let outPath := L.join cfg.STORAGE_DIR outName
            ({ Response.plain 200 "" with
                path := some ("/storage/" ++ L.encodeURIComponent outName) },
              { s with disk := writeFileSync s.disk outPath out })

/-! ## Request sequences -/

/-- One request to a route that changes contract or approval state, with the clock reading
at which it is handled. -/
inductive Request where
  | requestApproval (contractId approverId : Nat)
  | signApproval (now : Nat) (approvalId : Nat) (p : SignPayload)
  | rejectApproval (approvalId : Nat) (notes : Option String)
  | upload (now : Nat) (contractId : Nat) (file : Option UploadedFile)
  | signContract (now : Nat) (contractId : Nat) (p : SignPayload)
deriving DecidableEq, Repr

/-- Handle one request. -/
def handle (L : Lib) (cfg : Config) (s : State) : Request → Response × State
  | .requestApproval c u => requestApproval s c u
  | .signApproval now a p => signApproval L cfg now s a p
  | .rejectApproval a notes => rejectApproval s a notes
  | .upload now c file => uploadContractPdf L cfg now s c file
  | .signContract now c p => signContract L cfg now s c p

/-- The state after a sequence of requests handled one at a time. -/
def run (L : Lib) (cfg : Config) (s : State) : List Request → State
  | [] => s
  | r :: rs => run L cfg (handle L cfg s r).2 rs

/-! ## Conditions on a sign request -/

/-- The contract's source document resolves: `getContractPdfSourceAbs` gives the path of a file
on disk that `PDFDocument.load` parses into at least one page. -/
def sourceResolvable (L : Lib) (cfg : Config) (s : State) (contractId : Nat) : Bool :=
  match getContractPdfSourceAbs L cfg s contractId with
  | .ok (some srcAbs) =>
    srcAbs != "" &&
      (match readFileSync s.disk srcAbs with
       | some (.pdf pages) => !pages.isEmpty
       | _ => false)
  | _ => false

/-- The payload's `imageDataUrl` is a PNG or JPEG data URI whose bytes the embedder accepts. -/
def validImage (L : Lib) (p : SignPayload) : Bool :=
  match matchImageDataUrl (orEmpty p.imageDataUrl) with
  | none => false
  | some (m1, m3) =>
    match (if lowerAscii m1 = "image/png" then L.embedPng m3 else L.embedJpg m3) with
    | .ok _ => true
    | .error _ => false

/-- Status of the contract with the given id. -/
def contractStatus (s : State) (id : Nat) : Option String :=
  (s.contracts.find? (fun c => c.id == id)).map (fun c => c.status)

/-- Approvals of one (contract, approver) pair that are pending. -/
def pendingFor (s : State) (contractId approverId : Nat) : List ApprovalRow :=
  s.approvals.filter (fun r =>
    r.contract_id == contractId && r.approver_id == approverId && r.status == "pending")

/-! ## A concrete installation, for worked examples -/

/-- Directories of the worked examples. -/
def demoConfig : Config :=
  { UPLOADS_DIR := "/srv/uploads", STORAGE_DIR := "/srv/storage", MAX_FILE_SIZE_MB := 25 }

/-- Drop a final `.pdf` from a file name. -/
def dropPdfExt (v : String) : String :=
  if ".pdf".data.reverse.isPrefixOf v.data.reverse then
    String.mk (v.data.reverse.drop 4).reverse
  else v

/-- Library behaviour on the file names of the worked examples, which hold neither `%` nor
`/` and end in `.pdf`: on such names `decodeURIComponent`, `encodeURIComponent` and
`path.basename` return their argument, `path.basename(p, path.extname(p))` drops the final
`.pdf`, and `path.join` puts one `/` between directory and name.  The embedders accept
a payload that starts with the base64 text of the PNG (JPEG) signature. -/
def demoLib : Lib :=
  { decodeURIComponent := fun v =>
      if v.data.contains '%' then .error { code := "", message := "URI malformed" } else .ok v
    encodeURIComponent := fun v => v
    basename := fun v => v
    basenameNoExt := dropPdfExt
    join := fun dir name => dir ++ "/" ++ name
    embedPng := fun b =>
      if "iVBORw0KGgo".data.isPrefixOf b.data then .ok ()
      else .error { code := "", message := "The input is not a PNG file!" }
    embedJpg := fun b =>
      if "/9j/".data.isPrefixOf b.data then .ok ()
      else .error { code := "", message := "SOI not found in JPEG" } }

/-- A one-pixel PNG as a data URI. -/
def onePixelPng : String :=
  "data:image/png;base64,iVBORw0KGgoAAAANSUhEUgAAAAEAAAABCAYAAAAfFcSJAAAADUlEQVR42mNkYPhfDwAChwGA60e6kgAAAABJRU5ErkJggg=="

/-- A sign payload: page 0, rectangle (10, 20, 100, 40), the one-pixel PNG, no notes. -/
def demoPayload : SignPayload :=
  { pageIndex := some (.int 0), x := .int 10, y := .int 20, width := .int 100,
    height := .int 40, imageDataUrl := some onePixelPng, notes := none }

/-- Contract 7 with a one-page original on disk and no approvals; users 9 and 10 exist. -/
def demoUploaded : State :=
  { users := [1, 9, 10]
    contracts := [{ id := 7, owner_id := 1, contract_code := "C-7", title := "Lease",
                    vendor := "Acme", status := "in_progress" }]
    contract_files := [{ contract_id := 7, upload_path := some "/uploads/1000-a.pdf",
                         signed_path := none }]
    approvals := []
    nextApprovalId := 1
    disk := [("/srv/uploads/1000-a.pdf", .pdf [{ content := "page one", stamps := [] }])] }

/-- The state after approval of contract 7 was requested from approver 9 (approval 1, A) and
from approver 10 (approval 2, B). -/
def demoTwoPending : State :=
  run demoLib demoConfig demoUploaded [.requestApproval 7 9, .requestApproval 7 10]

/-- Approval A signed by approver 9 at time 2000, starting from `demoTwoPending`. -/
def demoASigned : State :=
  (signApproval demoLib demoConfig 2000 demoTwoPending 1 demoPayload).2

/-- Approval B signed by approver 10 at time 3000, after A. -/
def demoBothSigned : State :=
  (signApproval demoLib demoConfig 3000 demoASigned 2 demoPayload).2

/-- Contract 7 signed by its owner at time 2000, starting from `demoUploaded`. -/
def demoOwnerSigned : State :=
  (signContract demoLib demoConfig 2000 demoUploaded 7 demoPayload).2

/-- Approval B rejected by approver 10 with notes, after A signed. -/
def demoBRejected : State :=
  (rejectApproval demoASigned 2 (some "missing signature page")).2

/-- A state with a contract 8 whose file record holds no path, next to contract 7 signed by
its owner. -/
def demoEmptyRecord : State :=
  { demoOwnerSigned with
    contract_files := demoOwnerSigned.contract_files ++
      [{ contract_id := 8, upload_path := none, signed_path := some "" }] }

/-- A second sign payload: the same image at (50, 60). -/
def demoPayloadAgain : SignPayload :=
  { demoPayload with x := .int 50, y := .int 60 }

/-- A two-page replacement document, uploaded as `b.pdf`. -/
def demoReplacement : UploadedFile :=
  { originalname := "b.pdf", mimetype := "application/pdf", size := 2048,
    content := .pdf [{ content := "new page one", stamps := [] },
                     { content := "new page two", stamps := [] }] }

/-- A sign payload that asks for page 99. -/
def demoPayloadPage99 : SignPayload :=
  { demoPayload with pageIndex := some (.int 99) }

/-- A sign payload whose image is announced as GIF. -/
def demoPayloadGif : SignPayload :=
  { demoPayload with imageDataUrl := some "data:image/gif;base64,R0lGODlhAQABAAAAACw=" }

/-- A sign payload with the PNG prefix and an empty base64 part. -/
def demoPayloadEmptyPng : SignPayload :=
  { demoPayload with imageDataUrl := some "data:image/png;base64," }

/-- A sign payload with the JPEG prefix in capitals and bytes that are no JPEG. -/
def demoPayloadBadJpeg : SignPayload :=
  { demoPayload with imageDataUrl := some "DATA:IMAGE/JPEG;BASE64,bm90IGFuIGltYWdl" }

/-! ## The approval page: placing a signature (`src/public/approval.integration.js`)

JavaScript numbers are values of a type `α` with subtraction and division; the exact
statements take `α := ℚ`. -/

/-- The constant `SIG_W_PX`. -/
def SIG_W_PX : Nat := 170

/-- The constant `SIG_H_PX`. -/
def SIG_H_PX : Nat := 70

/-- An entry of `sigStack` and `redoStack`; `domEl` is the identity of the overlay image. -/
structure Placement (α : Type) where
  pageIndex : Nat
  pdfX : α
  pdfY : α
  pdfW : α
  pdfH : α
  domEl : Nat
deriving DecidableEq, Repr

/-- The module state of the approval page that placing a signature reads and writes:
`attached` lists the overlay images that are in the document, `nextEl` is the identity the
next `document.createElement` returns, `alerts` are the messages shown so far. -/
structure OverlayState (α : Type) where
  pngDataUrl : Option String
  penMode : Bool
  sigStack : List (Placement α)
  redoStack : List (Placement α)
  attached : List Nat
  nextEl : Nat
  alerts : List String
deriving DecidableEq, Repr

/-- A rendered page canvas: its pixel height and its parent element, if it has one. -/
structure PageCanvas (α : Type) where
  height : α
  parentElement : Option Nat
deriving DecidableEq, Repr

/-- A pdf.js viewport, of which the page reads the scale. -/
structure Viewport (α : Type) where
  scale : α
deriving DecidableEq, Repr

/-- Port of `placeSignatureOverlay`. -/
def placeSignatureOverlay {α : Type} [Sub α] [Div α] [NatCast α] (st : OverlayState α)
    (pageIndex : Nat) (canvas : PageCanvas α) (viewport : Viewport α) (clickX clickY : α) :
    OverlayState α :=
  if ¬ truthy st.pngDataUrl then
    { st with alerts := st.alerts ++ ["Pilih TTD PNG dulu (klik tombol 'TTD PNG')."] }
  else if ¬ st.penMode then
    { st with alerts := st.alerts ++
        ["Aktifkan mode pen (klik ikon ✍️) dulu sebelum menaruh TTD."] }
  else
    let scale := viewport.scale
    let pdfX := clickX / scale
    let pdfY := (canvas.height - clickY - (SIG_H_PX : α)) / scale
    let pdfW := (SIG_W_PX : α) / scale
    let pdfH := (SIG_H_PX : α) / scale
    match canvas.parentElement with
    | none => st
    | some _ =>
      { st with
        sigStack := st.sigStack ++
          [{ pageIndex := pageIndex, pdfX := pdfX, pdfY := pdfY, pdfW := pdfW, pdfH := pdfH,
             domEl := st.nextEl }]
        redoStack := []
        attached := st.attached ++ [st.nextEl]
        nextEl := st.nextEl + 1 }

/-- The scale `renderPdf` renders every page with. -/
def renderScale : ℚ := 5 / 4

/-- The click listener `renderPdf` puts on the canvas of page `i`: the one call site of
`placeSignatureOverlay`, with the viewport the page was rendered with. -/
def canvasClick (st : OverlayState ℚ) (i : Nat) (canvas : PageCanvas ℚ) (clickX clickY : ℚ) :
    OverlayState ℚ :=
  placeSignatureOverlay st i canvas { scale := renderScale } clickX clickY

/-- An approval page with a PNG chosen and pen mode on, nothing placed yet. -/
def demoOverlay : OverlayState ℚ :=
  { pngDataUrl := some onePixelPng, penMode := true, sigStack := [], redoStack := [],
    attached := [], nextEl := 0, alerts := [] }

/-- The canvas of a page 792 points high rendered at scale 1.25, inside its page wrapper. -/
def demoCanvas : PageCanvas ℚ :=
  { height := 990, parentElement := some 0 }

/-! ## The standalone signing page: place and save (`src/public/app.js`) -/

/-- The variable `currentScale`, the scale `renderPage` renders with. -/
def currentScale : ℚ := 3 / 2

/-- A bounding rectangle in canvas pixels. -/
structure Bounds where
  left : ℚ
  top : ℚ
  width : ℚ
  height : ℚ
deriving DecidableEq, Repr

/-- Port of `getDrawnBounds` on the bounding rectangles of the canvas objects.  The fold
starts at the first rectangle, which is what `Math.min(Infinity, _)` and
`Math.max(-Infinity, _)` give. -/
def getDrawnBounds (rects : List Bounds) : Option Bounds :=
  match rects with
  | [] => none
  | r :: rs =>
    let minX := rs.foldl (fun m o => min m o.left) r.left
    let minY := rs.foldl (fun m o => min m o.top) r.top
    let maxX := rs.foldl (fun m o => max m (o.left + o.width)) (r.left + r.width)
    let maxY := rs.foldl (fun m o => max m (o.top + o.height)) (r.top + r.height)
    some { left := minX, top := minY, width := maxX - minX, height := maxY - minY }

/-- The function `Math.round`: the nearest integer, halves upwards. -/
def jsRound (x : ℚ) : Int :=
  ⌊x + 1 / 2⌋

/-- The rectangle of a sign payload, in the units the client sends. -/
structure PayloadRect where
  x : Int
  y : Int
  width : Int
  height : Int
deriving DecidableEq, Repr

/-- The rectangle the click handler of `placeBtn` puts into the payload of `/api/pdf/sign`,
for the objects on the overlay canvas and the height of that canvas; `none` when there is no
object and the handler stops with an alert. -/
def placeButtonRect (rects : List Bounds) (pageHeight : ℚ) : Option PayloadRect :=
  match getDrawnBounds rects with
  | none => none
  | some b =>
    let pdfY := pageHeight - b.top - b.height
    some { x := jsRound b.left, y := jsRound pdfY, width := jsRound b.width,
           height := jsRound b.height }

/-! ## Contract records: status names, create, update, delete -/

/-- A request body (`req.body`) whose fields are strings, as the fields of a form-data body
are: its fields by name.  A field that is absent or `null` is not listed. -/
abbrev Body := List (String × String)

/-- Port of `pick`: the first of `keys` whose field is present and not blank. -/
def pick (obj : Body) : List String → Option String
  | [] => none
  | k :: ks =>
    match obj.lookup k with
    | some v => if jsTrim v ≠ "" then some v else pick obj ks
    | none => pick obj ks

/-- Port of `normalizeStatus`; `none` is `undefined`.  The method `toLowerCase` is taken on
ASCII letters, which decides the same comparisons: no other character lowers to a letter of
the five names. -/
def normalizeStatus (input : Option String) : String :=
  let s := lowerAscii (jsTrim (orEmpty input))
  if s = "pending approval" ∨ s = "pending_approval" then "pending_approval"
  else if s = "in progress" ∨ s = "in_progress" then "in_progress"
  else if s = "expiring soon" ∨ s = "expiring_soon" then "expiring_soon"
  else if s = "active contract" ∨ s = "active_contract" then "active_contract"
  else if s = "draft" then "draft"
  else "draft"

/-- Port of `statusLabel` on a status column value. -/
def statusLabel (enumVal : String) : String :=
  let v := lowerAscii enumVal
  if v = "pending_approval" then "Pending Approval"
  else if v = "in_progress" then "In Progress"
  else if v = "expiring_soon" then "Expiring Soon"
  else if v = "active_contract" then "Active Contract"
  else if v = "draft" then "Draft"
  else enumVal

/-- The object `mapContractRow` builds, which is also the body of the create answer. -/
structure ContractView where
  id : Nat
  title : String
  vendor : String
  contractId : String
  status : String
  upload_path : Option String
  signed_path : Option String
  owner_id : Nat
deriving DecidableEq, Repr

/-- Port of `mapContractRow` on a row of `contracts` left-joined with `contract_files`. -/
def mapContractRow (r : ContractRow) (cf : Option ContractFileRow) : ContractView :=
  { id := r.id, title := r.title, vendor := r.vendor, contractId := r.contract_code,
    status := statusLabel r.status,
    upload_path := cf.bind (fun f => f.upload_path),
    signed_path := cf.bind (fun f => f.signed_path),
    owner_id := r.owner_id }

/-- The answer of a contract route: HTTP status, `message`, error detail and code, and the
contract object when the body is one. -/
structure ContractAnswer where
  status : Nat
  message : String
  error : Option String
  code : Option String
  contract : Option ContractView
deriving DecidableEq, Repr

/-- An answer that carries a message only. -/
def ContractAnswer.plain (status : Nat) (message : String) : ContractAnswer :=
  { status := status, message := message, error := none, code := none, contract := none }

/-- The answer of the `catch` block, from `handleMysqlError`. -/
def ContractAnswer.ofError (e : JsError) : ContractAnswer :=
  { status := (handleMysqlError e "Server error").status,
    message := (handleMysqlError e "Server error").message,
    error := (handleMysqlError e "Server error").error,
    code := (handleMysqlError e "Server error").code,
    contract := none }

/-- Route `POST /api/contracts`.  `ownerId` is the value of `Number(owner_id)` for the picked
owner field, `0` also standing for `NaN`; `inserted` is what MySQL makes of the INSERT, the
new row's id or the error it throws (the table's constraints are not part of the sources). -/
def createContract (s : State) (body : Body) (ownerId : Nat) (inserted : Except JsError Nat) :
    ContractAnswer × State :=
  let title := pick body ["title", "contract_title"]
  let vendor := pick body ["vendor", "vendor_name"]
  let contractId := pick body ["contractId", "contract_id", "contract_code"]
  let status := pick body ["status"]
  match title, vendor, contractId with
  | some title, some vendor, some contractId =>
    if ownerId = 0 then
      (ContractAnswer.plain 400 "owner_id wajib. (User belum login / tidak dikirim)", s)
    else
      let t := jsTrim title
      let v := jsTrim vendor
      let code := jsTrim contractId
      let st := normalizeStatus status
      match inserted with
      | .error e => (ContractAnswer.ofError e, s)
      | .ok insertId =>
        ({ ContractAnswer.plain 201 "" with
            contract := some { id := insertId, title := t, vendor := v, contractId := code,
                               status := statusLabel st, upload_path := none,
                               signed_path := none, owner_id := ownerId } },
          { s with contracts := s.contracts ++
              [{ id := insertId, owner_id := ownerId, contract_code := code, title := t,
                 vendor := v, status := st }] })
  | _, _, _ => (ContractAnswer.plain 400 "title, vendor, contractId wajib diisi.", s)

/-- Route `PUT /api/contracts/:id`.  `updateError` is the error MySQL throws on the UPDATE, if
it throws one. -/
def updateContract (s : State) (id : Nat) (body : Body) (updateError : Option JsError) :
    ContractAnswer × State :=
  if id = 0 then (ContractAnswer.plain 400 "Invalid contract id", s)
  else
    let title := pick body ["title", "contract_title"]
    let vendor := pick body ["vendor", "vendor_name"]
    let contractId := pick body ["contractId", "contract_id", "contract_code"]
    let status := pick body ["status"]
    let t := jsTrim (orEmpty title)
    let v := jsTrim (orEmpty vendor)
    let code := jsTrim (orEmpty contractId)
    let st := normalizeStatus status
    match updateError with
    | some e => (ContractAnswer.ofError e, s)
    | none =>
      let s1 := { s with contracts := s.contracts.map (fun c =>
        if c.id = id then { c with title := t, vendor := v, contract_code := code, status := st }
        else c) }
      match s1.contracts.find? (fun c => c.id == id) with
      | none => (ContractAnswer.plain 404 "Contract tidak ditemukan.", s1)
      | some row =>
        ({ ContractAnswer.plain 200 "" with
            contract := some (mapContractRow row (selectContractFile s1 id)) }, s1)

/-- Route `DELETE /api/contracts/:id`.  `deleteError` is the error MySQL throws on
`DELETE FROM contracts`, if it throws one; `cascade` tells whether the schema deletes the
contract's approvals with it. -/
def deleteContract (L : Lib) (cfg : Config) (s : State) (contractId : Nat)
    (deleteError : Option JsError) (cascade : Bool) : ContractAnswer × State :=
  let unlinkUpload (d : Disk) (f : ContractFileRow) : Except JsError Disk :=
    if truthy f.upload_path then
      match absUploadFromPublic L cfg f.upload_path with
      | .error e => .error e
      | .ok p => .ok (safeUnlink d p)
    else .ok d
  let unlinkSigned (d : Disk) (f : ContractFileRow) : Except JsError Disk :=
    if truthy f.signed_path then
      match absStorageFromPublic L cfg f.signed_path with
      | .error e => .error e
      | .ok p => .ok (safeUnlink d p)
    else .ok d
  let afterFiles (d : Disk) : ContractAnswer × State :=
    let s1 := { s with
      disk := d
      contract_files := s.contract_files.filter (fun f => f.contract_id != contractId) }
    match deleteError with
    | some e => (ContractAnswer.ofError e, s1)
    | none =>
      if s.contracts.any (fun c => c.id == contractId) then
        (ContractAnswer.plain 200 "Contract berhasil dihapus ✅",
          { s1 with
            contracts := s.contracts.filter (fun c => c.id != contractId)
            approvals :=
              if cascade then s.approvals.filter (fun a => a.contract_id != contractId)
              else s.approvals })
      else (ContractAnswer.plain 404 "Contract tidak ditemukan.", s1)
  match selectContractFile s contractId with
  | none => afterFiles s.disk
  | some f =>
    match unlinkUpload s.disk f with
    | .error e => (ContractAnswer.ofError e, s)
    | .ok d1 =>
      match unlinkSigned d1 f with
      | .error e => (ContractAnswer.ofError e, { s with disk := d1 })
      | .ok d2 => afterFiles d2

/-- The closed set of contract statuses. -/
def contractStatuses : List String :=
  ["draft", "in_progress", "pending_approval", "expiring_soon", "active_contract"]

/-- The texts, trimmed and in lower case, that `normalizeStatus` maps to a status other than
`draft`. -/
def recognisedStatusTexts : List String :=
  ["pending approval", "pending_approval", "in progress", "in_progress",
   "expiring soon", "expiring_soon", "active contract", "active_contract"]

/-- A body that edits the title, vendor and code of a contract and names no status. -/
def demoEditBody : Body :=
  [("title", "Lease 2027"), ("vendor", "Acme"), ("contractId", "C-7")]

/-- A create body that asks for the status `Active Contract`. -/
def demoCreateActiveBody : Body :=
  [("title", "Supply"), ("vendor", "Globex"), ("contractId", "C-8"),
   ("status", "Active Contract")]

/-- An update body that keeps title, vendor and code and asks for `Pending Approval`. -/
def demoStatusBody : Body :=
  [("title", "Lease"), ("vendor", "Acme"), ("contractId", "C-7"),
   ("status", "Pending Approval")]

/-- The body names no status the server recognises: the field is absent, blank, or its
trimmed lower-case text is none of the recognised ones. -/
def noRecognisedStatus (body : Body) : Prop :=
  body.lookup "status" = none ∨
    ∃ v, body.lookup "status" = some v ∧
      (jsTrim v = "" ∨ lowerAscii (jsTrim v) ∉ recognisedStatusTexts)

/-- The text starts or ends with a character that `String.prototype.trim` strips. -/
def hasOuterSpace (v : String) : Bool :=
  v.data.head?.any isJsSpace || v.data.getLast?.any isJsSpace

/-- The notes stored on the approval with the given id. -/
def storedNotes (s : State) (approvalId : Nat) : Option (Option String) :=
  (selectApproval s approvalId).map (fun r => r.notes)

/-- A referential-constraint error as MySQL reports it. -/
def demoForeignKeyError : JsError :=
  { code := "ER_NO_REFERENCED_ROW_2",
    message := "Cannot add or update a child row: a foreign key constraint fails" }

/-- Approval of contract 7 requested from approver 9, then the owner signs at time 2000. -/
def demoRequestThenOwnerSign : List Request :=
  [.requestApproval 7 9, .signContract 2000 7 demoPayload]

/-- From A and B both pending: B (approval 2) rejects, then A (approval 1) signs. -/
def demoRejectThenSign : List Request :=
  [.rejectApproval 2 (some "missing signature page"), .signApproval 2000 1 demoPayload]

/-- The number a list of decimal digit characters writes, most significant digit first. -/
def digitsValue (l : List Char) : Nat :=
  l.foldl (fun acc c => 10 * acc + (c.toNat - 48)) 0

/-! ## The approval page: undo, redo and clear (`src/public/approval.integration.js`)

The top of a stack is the end of its list, as `push` and `pop` have it.  Every `domEl` is the
image element `placeSignatureOverlay` created, so `domEl?.remove()` always removes one and
`item.domEl` is truthy. -/

/-- Port of `undoSig`: pop the last placement, remove its overlay from the document, push it
on `redoStack`. -/
def undoSig {α : Type} (st : OverlayState α) : OverlayState α :=
  match st.sigStack.getLast? with
  | none => st
  | some last =>
    { st with
      sigStack := st.sigStack.dropLast
      attached := st.attached.filter (fun e => e != last.domEl)
      redoStack := st.redoStack ++ [last] }

/-- Port of `redoSig`; `item.domEl.isConnected === false` is `item.domEl ∉ st.attached`. -/
def redoSig {α : Type} (st : OverlayState α) : OverlayState α :=
  match st.redoStack.getLast? with
  | none => st
  | some item =>
    if item.domEl ∉ st.attached then
      { st with
        alerts := st.alerts ++
          ["Redo tidak tersedia setelah undo pada render ini. Silakan taruh ulang tanda tangan."]
        redoStack := [] }
    else
      { st with
        redoStack := st.redoStack.dropLast
        sigStack := st.sigStack ++ [item] }

/-- Port of `clearSignatureOverlays`: remove the overlay of every entry of both stacks from
the document and empty both stacks. -/
def clearSignatureOverlays {α : Type} (st : OverlayState α) : OverlayState α :=
  { st with
    attached := st.attached.filter (fun e =>
      !(st.sigStack.any (fun p => p.domEl == e)) && !(st.redoStack.any (fun p => p.domEl == e)))
    sigStack := []
    redoStack := [] }

/-- What the user does on the approval page that touches the overlay state: click a page,
undo, redo, clear, choose a PNG, toggle pen mode, or have the document rendered again. -/
inductive OverlayEvent (α : Type) where
  | place (pageIndex : Nat) (canvas : PageCanvas α) (viewport : Viewport α) (clickX clickY : α)
  | undo
  | redo
  | clear
  | choosePng (dataUrl : String)
  | togglePen
  | render

/-- The state after one event.  Choosing a PNG sets `pngDataUrl` and shows an alert; the pen
button flips `penMode` and shows an alert; `renderPdf` empties the page container, which
takes every overlay out of the document. -/
def overlayStep {α : Type} [Sub α] [Div α] [NatCast α] (st : OverlayState α) :
    OverlayEvent α → OverlayState α
  | .place pageIndex canvas viewport clickX clickY =>
    placeSignatureOverlay st pageIndex canvas viewport clickX clickY
  | .undo => undoSig st
  | .redo => redoSig st
  | .clear => clearSignatureOverlays st
  | .choosePng dataUrl =>
    { st with
      pngDataUrl := some dataUrl
      alerts := st.alerts ++
        ["TTD PNG siap ✅ Aktifkan pen (✍️) lalu klik di PDF untuk menaruh tanda tangan."] }
  | .togglePen =>
    { st with
      penMode := !st.penMode
      alerts := st.alerts ++ [if !st.penMode then "Mode pen aktif ✍️" else "Mode pen nonaktif"] }
  | .render => { st with attached := [] }

/-- States of the overlay module reached from one with both stacks empty. -/
inductive OverlayReachable {α : Type} [Sub α] [Div α] [NatCast α] : OverlayState α → Prop where
  | init (st : OverlayState α) (h1 : st.sigStack = []) (h2 : st.redoStack = []) :
      OverlayReachable st
  | step (st : OverlayState α) (e : OverlayEvent α) (h : OverlayReachable st) :
      OverlayReachable (overlayStep st e)

/-- Every entry of `redoStack` has an overlay element that is not in the document. -/
def RedoDetached {α : Type} (st : OverlayState α) : Prop :=
  ∀ p ∈ st.redoStack, p.domEl ∉ st.attached

/-- One signature placed on page 0 at click point (100, 200), then undone. -/
def demoUndone : OverlayState ℚ :=
  undoSig (canvasClick demoOverlay 0 demoCanvas 100 200)

/-! ## Reachable states and their invariant -/

/-- States reached from a state without approvals by requests handled one at a time. -/
inductive Reachable (L : Lib) (cfg : Config) : State → Prop where
  | init (s : State) (h : s.approvals = []) : Reachable L cfg s
  | step (s : State) (r : Request) (h : Reachable L cfg s) : Reachable L cfg (handle L cfg s r).2

/-- Relation between an approval row and a row inserted after it: the id grows, and the
earlier row of the same (contract, approver) pair is no longer pending. -/
def Ordered (a b : ApprovalRow) : Prop :=
  a.id < b.id ∧ (a.contract_id = b.contract_id → a.approver_id = b.approver_id →
    a.status ≠ "pending")

/-- Invariant of the approvals table: ids are below the AUTO_INCREMENT counter, every row
names an existing contract and user by a non-zero id, and rows are `Ordered` in insertion
order. -/
def Inv (s : State) : Prop :=
  (∀ r ∈ s.approvals, r.id < s.nextApprovalId) ∧
  (∀ r ∈ s.approvals, r.contract_id ≠ 0 ∧ r.approver_id ≠ 0 ∧
    contractExists s r.contract_id = true ∧ r.approver_id ∈ s.users) ∧
  s.approvals.Pairwise Ordered

/-! ## Auxiliary facts -/

theorem matchImageDataUrl_truthy {v : Option String} {m : String × String}
    (h : matchImageDataUrl (orEmpty v) = some m) : truthy v = true := by
  cases v with
  | none => simp [orEmpty, matchImageDataUrl, takeIgnoreCase] at h
  | some w =>
    by_cases hw : w = ""
    · subst hw
      simp [orEmpty, matchImageDataUrl, takeIgnoreCase] at h
    · simp [truthy, hw]

theorem validImage_spec {L : Lib} {p : SignPayload} (h : validImage L p = true) :
    truthy p.imageDataUrl = true ∧
    ∃ m1 m3, matchImageDataUrl (orEmpty p.imageDataUrl) = some (m1, m3) ∧
      (if lowerAscii m1 = "image/png" then L.embedPng m3 else L.embedJpg m3) = .ok () := by
  unfold validImage at h
  split at h
  · simp at h
  · rename_i m1 m3 hm
    refine ⟨matchImageDataUrl_truthy hm, m1, m3, hm, ?_⟩
    split at h
    · rename_i u hu
      rw [hu]
    · simp at h

theorem sourceResolvable_spec {L : Lib} {cfg : Config} {s : State} {c : Nat}
    (h : sourceResolvable L cfg s c = true) :
    ∃ srcAbs pages, getContractPdfSourceAbs L cfg s c = .ok (some srcAbs) ∧ srcAbs ≠ "" ∧
      readFileSync s.disk srcAbs = some (.pdf pages) ∧ pages ≠ [] := by
  unfold sourceResolvable at h
  split at h
  · rename_i srcAbs hsrc
    simp only [Bool.and_eq_true, bne_iff_ne, ne_eq] at h
    obtain ⟨hne, hrd⟩ := h
    split at hrd
    · rename_i pages hp
      refine ⟨srcAbs, pages, hsrc, hne, hp, ?_⟩
      intro hnil
      simp [hnil] at hrd
    · simp at hrd
  · simp at h

theorem selectPage_isSome {pages : List Page} (h : pages ≠ []) (idx : JsNum) :
    ∃ k, selectPage pages idx = some k ∧ k < pages.length := by
  have hlen : 0 < pages.length := List.length_pos.mpr h
  unfold selectPage
  cases hp : pageAt pages idx with
  | some k =>
    refine ⟨k, rfl, ?_⟩
    cases idx with
    | int i =>
      simp only [pageAt] at hp
      split at hp
      · rename_i hi
        cases hp
        exact hi.2
      · cases hp
    | other => simp [pageAt] at hp
  | none => exact ⟨0, by simp [hlen], hlen⟩

theorem composeSigned_ok {L : Lib} {p : SignPayload} {pages : List Page} (idx : JsNum)
    (himg : validImage L p = true) (hpages : pages ≠ []) :
    ∃ out, composeSigned L (.pdf pages) idx p = .ok out := by
  obtain ⟨_, m1, m3, hm, hemb⟩ := validImage_spec himg
  obtain ⟨k, hk, _⟩ := selectPage_isSome hpages idx
  simp only [composeSigned, hm, hemb, hk]
  exact ⟨_, rfl⟩

theorem selectApproval_map (s : State) (f : ApprovalRow → ApprovalRow) (id : Nat)
    (hf : ∀ r, (f r).id = r.id) :
    (s.approvals.map f).find? (fun r => r.id == id) = (selectApproval s id).map f := by
  have hp : ((fun r : ApprovalRow => r.id == id) ∘ f) = (fun r => r.id == id) := by
    funext r
    simp [hf]
  unfold selectApproval
  rw [List.find?_map, hp]

theorem selectApproval_id {s : State} {id : Nat} {a : ApprovalRow}
    (h : selectApproval s id = some a) : a.id = id := by
  have := List.find?_some h
  simpa using this

theorem selectApproval_mem {s : State} {id : Nat} {a : ApprovalRow}
    (h : selectApproval s id = some a) : a ∈ s.approvals :=
  List.mem_of_find?_eq_some h

/-- The approver sign route on a request that passes every check. -/
theorem signApproval_success (L : Lib) (cfg : Config) (now : Nat) (s : State)
    (approvalId : Nat) (p : SignPayload) (a : ApprovalRow) (pageIndex : JsNum)
    (hid : approvalId ≠ 0)
    (ha : selectApproval s approvalId = some a)
    (hst : a.status ≠ "rejected")
    (hsrc : sourceResolvable L cfg s a.contract_id = true)
    (hpi : p.pageIndex = some pageIndex)
    (himg : validImage L p = true) :
    ∃ disk1 : Disk,
      let path := "/storage/" ++ L.encodeURIComponent (approvalOutName approvalId a.contract_id now)
      signApproval L cfg now s approvalId p =
        ({ Response.plain 200 "TTD approval berhasil ✅" with path := some path },
         { s with
           disk := disk1
           approvals := s.approvals.map (fun r =>
             if r.id = approvalId then
               { r with status := "approved", notes := trimOrNull p.notes,
                        signed_path := some path, signed_at := some now }
             else r)
           contracts :=
             if pendingCount (s.approvals.map (fun r =>
                 if r.id = approvalId then
                   { r with status := "approved", notes := trimOrNull p.notes,
                            signed_path := some path, signed_at := some now }
                 else r)) a.contract_id = 0 then
               setContractStatus s.contracts a.contract_id "active_contract"
             else s.contracts }) := by
  obtain ⟨srcAbs, pages, hsrc1, hne, hrd, hpages⟩ := sourceResolvable_spec hsrc
  obtain ⟨htr, _⟩ := validImage_spec himg
  obtain ⟨out, hout⟩ := composeSigned_ok pageIndex himg hpages
  refine ⟨writeFileSync s.disk
    (L.join cfg.STORAGE_DIR (approvalOutName approvalId a.contract_id now)) out, ?_⟩
  simp only [signApproval, hid, if_false, hpi, htr, not_true_eq_false, ha, hst, hsrc1, hne, hrd,
    hout]

theorem contractStatus_set (cs : List ContractRow) (id c : Nat) (st : String) :
    ((setContractStatus cs id st).find? (fun x => x.id == c)).map (fun x => x.status) =
      if c = id then (cs.find? (fun x => x.id == c)).map (fun _ => st)
      else (cs.find? (fun x => x.id == c)).map (fun x => x.status) := by
  induction cs with
  | nil => simp [setContractStatus]
  | cons x xs ih =>
    simp only [setContractStatus, List.map_cons] at ih ⊢
    by_cases hx : x.id = id
    · by_cases hc : c = id
      · subst hc
        simp [hx, List.find?_cons]
      · have hxc : ¬ x.id = c := by omega
        simp only [hx, if_true, List.find?_cons, beq_iff_eq, hc, if_false]
        have : (id == c) = false := by simpa using fun h => hc h.symm
        simp only [this]
        simpa [hc] using ih
    · by_cases hxc : x.id = c
      · have hc : ¬ c = id := by omega
        simp [hx, hxc, hc, List.find?_cons]
      · simp only [hx, if_false, List.find?_cons, beq_iff_eq, hxc]
        have : (x.id == c) = false := by simpa using hxc
        simp only [this]
        exact ih

theorem contractExists_set (s : State) (id c : Nat) (st : String) :
    (setContractStatus s.contracts id st).any (fun x => x.id == c) = contractExists s c := by
  unfold contractExists setContractStatus
  rw [List.any_map]
  congr 1
  funext x
  by_cases hx : x.id = id <;> simp [hx]

/-! ## Approver sign -/

/-- C1: approver sign on an approval that is not rejected, whose contract has a resolvable
source and whose payload carries a valid PNG/JPEG data URI, answers 200, sets the approval to
`approved` and records the new signed path on it; the contract becomes `active_contract` when
no approval of the contract is pending afterwards and keeps its status otherwise. -/
theorem approver_sign_approves (L : Lib) (cfg : Config) (now : Nat) (s : State)
    (approvalId : Nat) (p : SignPayload) (a : ApprovalRow) (pageIndex : JsNum)
    (hid : approvalId ≠ 0)
    (ha : selectApproval s approvalId = some a)
    (hst : a.status ≠ "rejected")
    (hsrc : sourceResolvable L cfg s a.contract_id = true)
    (hpi : p.pageIndex = some pageIndex)
    (himg : validImage L p = true) :
    (signApproval L cfg now s approvalId p).1.status = 200 ∧
    (∃ path,
      (signApproval L cfg now s approvalId p).1.path = some path ∧
      selectApproval (signApproval L cfg now s approvalId p).2 approvalId =
        some { a with status := "approved", notes := trimOrNull p.notes,
                      signed_path := some path, signed_at := some now } ∧
      ∀ r ∈ (signApproval L cfg now s approvalId p).2.approvals, r.id = approvalId →
        r.status = "approved" ∧ r.signed_path = some path) ∧
    (signApproval L cfg now s approvalId p).2.contracts =
      (if pendingCount (signApproval L cfg now s approvalId p).2.approvals a.contract_id = 0
       then setContractStatus s.contracts a.contract_id "active_contract"
       else s.contracts) ∧
    contractStatus (signApproval L cfg now s approvalId p).2 a.contract_id =
      (if pendingCount (signApproval L cfg now s approvalId p).2.approvals a.contract_id = 0
       then (contractStatus s a.contract_id).map (fun _ => "active_contract")
       else contractStatus s a.contract_id) := by
  obtain ⟨disk1, h⟩ := signApproval_success L cfg now s approvalId p a pageIndex hid ha hst
    hsrc hpi himg
  simp only at h
  rw [h]
  refine ⟨rfl, ⟨_, rfl, ?_, ?_⟩, rfl, ?_⟩
  · show List.find? _ (List.map _ s.approvals) = _
    rw [selectApproval_map s _ approvalId (by intro r; split <;> rfl), ha]
    simp [selectApproval_id ha]
  · intro r hr hrid
    simp only [List.mem_map] at hr
    obtain ⟨r0, _, hr0⟩ := hr
    subst hr0
    split
    · exact ⟨rfl, rfl⟩
    · rename_i hne
      split at hrid
      · exact absurd hrid hne
      · exact absurd hrid hne
  · simp only [contractStatus]
    split
    · have := contractStatus_set s.contracts a.contract_id a.contract_id "active_contract"
      simpa using this
    · rfl

/-- C1, worked example: with approvals A and B of contract 7 both pending, A signs and the
contract stays `pending_approval`; then B signs and it becomes `active_contract`. -/
theorem approver_sign_approves_two_approvers :
    contractStatus demoTwoPending 7 = some "pending_approval" ∧
    ((signApproval demoLib demoConfig 2000 demoTwoPending 1 demoPayload).1.status = 200 ∧
      (selectApproval demoASigned 1).map (fun r => (r.status, r.signed_path)) =
        some ("approved", some "/storage/approval-1-contract-7-signed-2000.pdf") ∧
      contractStatus demoASigned 7 = some "pending_approval") ∧
    ((signApproval demoLib demoConfig 3000 demoASigned 2 demoPayload).1.status = 200 ∧
      (selectApproval demoBothSigned 2).map (fun r => (r.status, r.signed_path)) =
        some ("approved", some "/storage/approval-2-contract-7-signed-3000.pdf") ∧
      contractStatus demoBothSigned 7 = some "active_contract") :=
  ⟨by decide,
   ⟨(approver_sign_approves demoLib demoConfig 2000 demoTwoPending 1 demoPayload
      { id := 1, contract_id := 7, approver_id := 9, status := "pending", notes := none,
        signed_path := none, signed_at := none } (.int 0)
      (by decide) (by decide) (by decide) (by decide) (by decide) (by decide)).1,
    by decide, by decide⟩,
   ⟨(approver_sign_approves demoLib demoConfig 3000 demoASigned 2 demoPayload
      { id := 2, contract_id := 7, approver_id := 10, status := "pending", notes := none,
        signed_path := none, signed_at := none } (.int 0)
      (by decide) (by decide) (by decide) (by decide) (by decide) (by decide)).1,
    by decide, by decide⟩⟩

/-! ## The latest approval of a pair -/

theorem foldl_laterOf_spec (l : List ApprovalRow) :
    ∀ init : Option ApprovalRow,
      (l.foldl laterOf init = none → init = none ∧ l = []) ∧
      ∀ e, l.foldl laterOf init = some e →
        (e ∈ l ∨ init = some e) ∧ (∀ r ∈ l, r.id ≤ e.id) ∧ (∀ b, init = some b → b.id ≤ e.id) := by
  induction l with
  | nil =>
    intro init
    refine ⟨fun h => ⟨h, rfl⟩, fun e h => ⟨Or.inr h, by simp, ?_⟩⟩
    intro b hb
    simp only [List.foldl_nil] at h
    rw [h] at hb
    cases hb
    exact Nat.le_refl _
  | cons x xs ih =>
    intro init
    obtain ⟨ihn, ihs⟩ := ih (laterOf init x)
    simp only [List.foldl_cons]
    constructor
    · intro h
      have := (ihn h).1
      cases init with
      | none => simp [laterOf] at this
      | some b =>
        simp only [laterOf] at this
        split at this <;> cases this
    · intro e he
      obtain ⟨hmem, hle, hinit⟩ := ihs e he
      cases init with
      | none =>
        have hx : x.id ≤ e.id := hinit x rfl
        refine ⟨?_, ?_, by simp⟩
        · rcases hmem with h | h
          · exact Or.inl (List.mem_cons_of_mem _ h)
          · simp only [laterOf, Option.some.injEq] at h
            exact Or.inl (by simp [h])
        · intro r hr
          rcases List.mem_cons.mp hr with h | h
          · rw [h]; exact hx
          · exact hle r h
      | some b =>
        by_cases hb : b.id < x.id
        · have hl : laterOf (some b) x = some x := by simp [laterOf, hb]
          have hx : x.id ≤ e.id := hinit x hl
          refine ⟨?_, ?_, ?_⟩
          · rcases hmem with h | h
            · exact Or.inl (List.mem_cons_of_mem _ h)
            · rw [hl] at h
              simp only [Option.some.injEq] at h
              exact Or.inl (by simp [h])
          · intro r hr
            rcases List.mem_cons.mp hr with h | h
            · rw [h]; exact hx
            · exact hle r h
          · intro b0 hb0
            cases hb0
            omega
        · have hl : laterOf (some b) x = some b := by simp [laterOf, hb]
          have hbe : b.id ≤ e.id := hinit b hl
          refine ⟨?_, ?_, ?_⟩
          · rcases hmem with h | h
            · exact Or.inl (List.mem_cons_of_mem _ h)
            · rw [hl] at h
              exact Or.inr h
          · intro r hr
            rcases List.mem_cons.mp hr with h | h
            · rw [h]; omega
            · exact hle r h
          · intro b0 hb0
            cases hb0
            exact hbe

theorem latestApproval_none {rows : List ApprovalRow} {c u : Nat}
    (h : latestApproval rows c u = none) :
    ∀ r ∈ rows, ¬ (r.contract_id = c ∧ r.approver_id = u) := by
  have hnil := ((foldl_laterOf_spec _ none).1 h).2
  intro r hr hcu
  have : r ∈ rows.filter (fun r => r.contract_id == c && r.approver_id == u) := by
    simp [List.mem_filter, hr, hcu.1, hcu.2]
  rw [hnil] at this
  cases this

theorem latestApproval_some {rows : List ApprovalRow} {c u : Nat} {e : ApprovalRow}
    (h : latestApproval rows c u = some e) :
    e ∈ rows ∧ e.contract_id = c ∧ e.approver_id = u ∧
    ∀ r ∈ rows, r.contract_id = c → r.approver_id = u → r.id ≤ e.id := by
  obtain ⟨hmem, hle, _⟩ := (foldl_laterOf_spec _ none).2 e h
  have hmem1 : e ∈ rows.filter (fun r => r.contract_id == c && r.approver_id == u) := by
    rcases hmem with h1 | h1
    · exact h1
    · cases h1
  simp only [List.mem_filter, Bool.and_eq_true, beq_iff_eq] at hmem1
  refine ⟨hmem1.1, hmem1.2.1, hmem1.2.2, ?_⟩
  intro r hr hc hu
  apply hle
  simp [List.mem_filter, hr, hc, hu]

/-! ## The invariant is kept -/

theorem ordered_or_of_ne {l : List ApprovalRow} (hl : l.Pairwise Ordered) {a b : ApprovalRow}
    (ha : a ∈ l) (hb : b ∈ l) (hab : a ≠ b) : Ordered a b ∨ Ordered b a := by
  have hsym : Symmetric (fun x y : ApprovalRow => Ordered x y ∨ Ordered y x) :=
    fun _ _ h => h.symm
  have hl2 : l.Pairwise (fun x y => Ordered x y ∨ Ordered y x) :=
    hl.imp (fun h => Or.inl h)
  exact hl2.forall hsym ha hb hab

/-- Equal ids name the same row. -/
theorem eq_of_id_eq {l : List ApprovalRow} (hl : l.Pairwise Ordered) {a b : ApprovalRow}
    (ha : a ∈ l) (hb : b ∈ l) (hid : a.id = b.id) : a = b := by
  by_contra hab
  rcases ordered_or_of_ne hl ha hb hab with h | h
  · have := h.1
    omega
  · have := h.1
    omega

/-- A pending row of a pair is the latest row of the pair. -/
theorem latest_of_pending {l : List ApprovalRow} (hl : l.Pairwise Ordered) {a : ApprovalRow}
    (ha : a ∈ l) (hp : a.status = "pending") :
    latestApproval l a.contract_id a.approver_id = some a := by
  cases h : latestApproval l a.contract_id a.approver_id with
  | none => exact absurd ⟨rfl, rfl⟩ (latestApproval_none h a ha)
  | some e =>
    obtain ⟨he, hc, hu, hmax⟩ := latestApproval_some h
    by_cases hae : a = e
    · rw [hae]
    · exfalso
      rcases ordered_or_of_ne hl ha he hae with h1 | h1
      · exact h1.2 hc.symm hu.symm hp
      · have := h1.1
        have := hmax a ha rfl rfl
        omega

/-- When the latest row of a pair is absent or not pending, no row of the pair is pending. -/
theorem no_pending_of_latest {l : List ApprovalRow} (hl : l.Pairwise Ordered) {c u : Nat}
    (h : ∀ e, latestApproval l c u = some e → e.status ≠ "pending") :
    ∀ r ∈ l, r.contract_id = c → r.approver_id = u → r.status ≠ "pending" := by
  intro r hr hc hu hp
  have := latest_of_pending hl hr hp
  rw [hc, hu] at this
  exact h r this hp

theorem Inv_of_map {s t : State} (f : ApprovalRow → ApprovalRow)
    (hid : ∀ r, (f r).id = r.id) (hc : ∀ r, (f r).contract_id = r.contract_id)
    (hu : ∀ r, (f r).approver_id = r.approver_id)
    (hst : ∀ r, (f r).status = r.status ∨ (f r).status ≠ "pending")
    (happ : t.approvals = s.approvals.map f)
    (hnext : t.nextApprovalId = s.nextApprovalId)
    (husers : t.users = s.users)
    (hce : ∀ k, contractExists t k = contractExists s k)
    (h : Inv s) : Inv t := by
  obtain ⟨h1, h2, h3⟩ := h
  refine ⟨?_, ?_, ?_⟩
  · intro r hr
    rw [happ, List.mem_map] at hr
    obtain ⟨r0, hr0, rfl⟩ := hr
    rw [hid, hnext]
    exact h1 r0 hr0
  · intro r hr
    rw [happ, List.mem_map] at hr
    obtain ⟨r0, hr0, rfl⟩ := hr
    rw [hc, hu, hce, husers]
    exact h2 r0 hr0
  · rw [happ]
    apply List.Pairwise.map f _ h3
    intro a b hab
    refine ⟨by rw [hid, hid]; exact hab.1, ?_⟩
    rw [hc, hc, hu, hu]
    intro h4 h5
    rcases hst a with h6 | h6
    · rw [h6]
      exact hab.2 h4 h5
    · exact h6

theorem Inv_of_same {s t : State}
    (happ : t.approvals = s.approvals)
    (hnext : t.nextApprovalId = s.nextApprovalId)
    (husers : t.users = s.users)
    (hce : ∀ k, contractExists t k = contractExists s k)
    (h : Inv s) : Inv t :=
  Inv_of_map id (fun _ => rfl) (fun _ => rfl) (fun _ => rfl) (fun _ => Or.inl rfl)
    (by simpa using happ) hnext husers hce h

theorem Inv_insertApproval {s : State} {c u : Nat} (h : Inv s) (hc : c ≠ 0) (hu : u ≠ 0)
    (hex : contractExists s c = true) (hus : u ∈ s.users)
    (hnp : ∀ r ∈ s.approvals, r.contract_id = c → r.approver_id = u → r.status ≠ "pending") :
    Inv (insertApproval s c u).2 := by
  obtain ⟨h1, h2, h3⟩ := h
  have hce : ∀ k, contractExists (insertApproval s c u).2 k = contractExists s k :=
    fun k => contractExists_set s c k "pending_approval"
  refine ⟨?_, ?_, ?_⟩
  · intro r hr
    simp only [insertApproval, List.mem_append, List.mem_singleton] at hr ⊢
    rcases hr with hr | hr
    · have := h1 r hr
      omega
    · subst hr
      simp
  · intro r hr
    rw [hce]
    simp only [insertApproval, List.mem_append, List.mem_singleton] at hr ⊢
    rcases hr with hr | hr
    · exact h2 r hr
    · subst hr
      exact ⟨hc, hu, hex, hus⟩
  · simp only [insertApproval]
    rw [List.pairwise_append]
    refine ⟨h3, by simp, ?_⟩
    intro a ha b hb
    simp only [List.mem_singleton] at hb
    subst hb
    exact ⟨h1 a ha, fun h4 h5 => hnp a ha h4 h5⟩

theorem Inv_requestApproval {s : State} (c u : Nat) (h : Inv s) :
    Inv (requestApproval s c u).2 := by
  unfold requestApproval
  split
  · exact h
  · rename_i hz
    split
    · exact h
    · rename_i hex
      split
      · exact h
      · rename_i hus
        have hc : c ≠ 0 := fun h0 => hz (Or.inl h0)
        have hu : u ≠ 0 := fun h0 => hz (Or.inr h0)
        have hex1 : contractExists s c = true := by simpa using hex
        have hus1 : u ∈ s.users := by simpa using hus
        split
        · rename_i ex hlat
          split
          · exact h
          · rename_i hnp
            apply Inv_insertApproval h hc hu hex1 hus1
            apply no_pending_of_latest h.2.2
            intro e he
            rw [hlat] at he
            cases he
            exact hnp
        · rename_i hlat
          apply Inv_insertApproval h hc hu hex1 hus1
          apply no_pending_of_latest h.2.2
          intro e he
          rw [hlat] at he
          cases he

/-- The row update of the approver sign route. -/
theorem signApproval_shape (L : Lib) (cfg : Config) (now : Nat) (s : State) (approvalId : Nat)
    (p : SignPayload) :
    (signApproval L cfg now s approvalId p).2 = s ∨
    ∃ a, selectApproval s approvalId = some a ∧ a.status ≠ "rejected" ∧
      ∃ (path : String) (contracts1 : List ContractRow),
        (contracts1 = s.contracts ∨
          contracts1 = setContractStatus s.contracts a.contract_id "active_contract") ∧
        (signApproval L cfg now s approvalId p).2.approvals =
          s.approvals.map (fun r =>
            if r.id = approvalId then
              { r with status := "approved", notes := trimOrNull p.notes,
                       signed_path := some path, signed_at := some now }
            else r) ∧
        (signApproval L cfg now s approvalId p).2.contracts = contracts1 ∧
        (signApproval L cfg now s approvalId p).2.contract_files = s.contract_files ∧
        (signApproval L cfg now s approvalId p).2.users = s.users ∧
        (signApproval L cfg now s approvalId p).2.nextApprovalId = s.nextApprovalId := by
  simp only [signApproval]
  split
  · exact Or.inl rfl
  · split
    · exact Or.inl rfl
    · split
      · exact Or.inl rfl
      · split
        · exact Or.inl rfl
        · rename_i a ha
          split
          · exact Or.inl rfl
          · rename_i hst
            split
            · exact Or.inl rfl
            · exact Or.inl rfl
            · split
              · exact Or.inl rfl
              · split
                · exact Or.inl rfl
                · split
                  · exact Or.inl rfl
                  · refine Or.inr ⟨a, ha, hst, _, _, ?_, rfl, rfl, rfl, rfl, rfl⟩
                    simp only
                    split
                    · exact Or.inr rfl
                    · exact Or.inl rfl

/-- The row update of the approver reject route. -/
theorem rejectApproval_shape (s : State) (approvalId : Nat) (notes : Option String) :
    (rejectApproval s approvalId notes).2 = s ∨
    ∃ a, selectApproval s approvalId = some a ∧ approvalId ≠ 0 ∧
      (rejectApproval s approvalId notes) =
        (Response.plain 200 "Approval rejected ✅",
          { s with
            approvals := s.approvals.map (fun r =>
              if r.id = approvalId then
                { r with status := "rejected", notes := trimOrNull notes }
              else r)
            contracts := setContractStatus s.contracts a.contract_id "in_progress" }) := by
  unfold rejectApproval
  split
  · exact Or.inl rfl
  · rename_i hid
    split
    · exact Or.inl rfl
    · rename_i a ha
      exact Or.inr ⟨a, ha, hid, rfl⟩

/-- Upload leaves approvals, users and the set of contract ids as they are. -/
theorem uploadContractPdf_frame (L : Lib) (cfg : Config) (now : Nat) (s : State) (c : Nat)
    (file : Option UploadedFile) :
    (uploadContractPdf L cfg now s c file).2.approvals = s.approvals ∧
    (uploadContractPdf L cfg now s c file).2.nextApprovalId = s.nextApprovalId ∧
    (uploadContractPdf L cfg now s c file).2.users = s.users ∧
    ∀ k, contractExists (uploadContractPdf L cfg now s c file).2 k = contractExists s k := by
  simp only [uploadContractPdf]
  repeat' split
  all_goals
    refine ⟨rfl, rfl, rfl, fun k => ?_⟩
    first
      | rfl
      | exact contractExists_set s c k "in_progress"

/-- Owner sign leaves approvals, users and the set of contract ids as they are. -/
theorem signContract_frame (L : Lib) (cfg : Config) (now : Nat) (s : State) (c : Nat)
    (p : SignPayload) :
    (signContract L cfg now s c p).2.approvals = s.approvals ∧
    (signContract L cfg now s c p).2.nextApprovalId = s.nextApprovalId ∧
    (signContract L cfg now s c p).2.users = s.users ∧
    ∀ k, contractExists (signContract L cfg now s c p).2 k = contractExists s k := by
  simp only [signContract]
  repeat' split
  all_goals
    refine ⟨rfl, rfl, rfl, fun k => ?_⟩
    first
      | rfl
      | exact contractExists_set s c k "active_contract"

theorem Inv_handle (L : Lib) (cfg : Config) (s : State) (r : Request) (h : Inv s) :
    Inv (handle L cfg s r).2 := by
  cases r with
  | requestApproval c u => exact Inv_requestApproval c u h
  | signApproval now a p =>
    show Inv (signApproval L cfg now s a p).2
    rcases signApproval_shape L cfg now s a p with h1 | ⟨row, _, _, path, cs, hcs, happ, hc, _, hu, hn⟩
    · rw [h1]
      exact h
    · refine Inv_of_map _ ?_ ?_ ?_ ?_ happ hn hu ?_ h
      · intro r; split <;> rfl
      · intro r; split <;> rfl
      · intro r; split <;> rfl
      · intro r
        split
        · exact Or.inr (by simp)
        · exact Or.inl rfl
      · intro k
        unfold contractExists
        rw [hc]
        rcases hcs with h2 | h2
        · rw [h2]
        · rw [h2]
          exact contractExists_set s _ k _
  | rejectApproval a notes =>
    show Inv (rejectApproval s a notes).2
    rcases rejectApproval_shape s a notes with h1 | ⟨row, _, _, h1⟩
    · rw [h1]
      exact h
    · rw [h1]
      refine Inv_of_map _ ?_ ?_ ?_ ?_ rfl rfl rfl ?_ h
      · intro r; split <;> rfl
      · intro r; split <;> rfl
      · intro r; split <;> rfl
      · intro r
        split
        · exact Or.inr (by simp)
        · exact Or.inl rfl
      · intro k
        exact contractExists_set s _ k _
  | upload now c file =>
    obtain ⟨h1, h2, h3, h4⟩ := uploadContractPdf_frame L cfg now s c file
    exact Inv_of_same h1 h2 h3 h4 h
  | signContract now c p =>
    obtain ⟨h1, h2, h3, h4⟩ := signContract_frame L cfg now s c p
    exact Inv_of_same h1 h2 h3 h4 h

theorem Inv_of_reachable {L : Lib} {cfg : Config} {s : State} (h : Reachable L cfg s) :
    Inv s := by
  induction h with
  | init s h0 =>
    refine ⟨?_, ?_, ?_⟩ <;> simp [h0]
  | step s r _ ih => exact Inv_handle L cfg s r ih

theorem reachable_run {L : Lib} {cfg : Config} {s : State} (h : Reachable L cfg s)
    (rs : List Request) : Reachable L cfg (run L cfg s rs) := by
  induction rs generalizing s with
  | nil => exact h
  | cons r rs ih => exact ih (Reachable.step s r h)

/-! ## Approval invariants -/

/-- C2: in every state reachable from a state without approvals by request-approval,
approver-sign, approver-reject, upload and owner-sign requests handled one at a time, each
(contract, approver) pair has at most one pending approval. -/
theorem at_most_one_pending (L : Lib) (cfg : Config) (s : State) (h : Reachable L cfg s)
    (c u : Nat) : (pendingFor s c u).length ≤ 1 := by
  have hp : (pendingFor s c u).Pairwise Ordered := (Inv_of_reachable h).2.2.filter _
  have hall : ∀ r ∈ pendingFor s c u,
      r.contract_id = c ∧ r.approver_id = u ∧ r.status = "pending" := by
    intro r hr
    simp only [pendingFor, List.mem_filter, Bool.and_eq_true, beq_iff_eq] at hr
    exact ⟨hr.2.1.1, hr.2.1.2, hr.2.2⟩
  match hl : pendingFor s c u with
  | [] => simp
  | [_] => simp
  | x :: y :: rest =>
    exfalso
    rw [hl] at hp hall
    have hxy : Ordered x y := (List.pairwise_cons.mp hp).1 y (by simp)
    have hx := hall x (by simp)
    have hy := hall y (by simp)
    exact hxy.2 (by rw [hx.1, hy.1]) (by rw [hx.2.1, hy.2.1]) hx.2.2

/-- C2, worked example: after two requests for the pair (7, 9), a sign, a reject and a third
request, the pair has exactly one pending approval. -/
theorem at_most_one_pending_example :
    Reachable demoLib demoConfig
      (run demoLib demoConfig demoUploaded
        [.requestApproval 7 9, .requestApproval 7 9, .rejectApproval 1 none,
         .requestApproval 7 9, .requestApproval 7 9]) ∧
    (pendingFor (run demoLib demoConfig demoUploaded
        [.requestApproval 7 9, .requestApproval 7 9, .rejectApproval 1 none,
         .requestApproval 7 9, .requestApproval 7 9]) 7 9).length = 1 ∧
    (pendingFor (run demoLib demoConfig demoUploaded
        [.requestApproval 7 9, .requestApproval 7 9, .rejectApproval 1 none,
         .requestApproval 7 9, .requestApproval 7 9]) 7 9).length ≤ 1 :=
  ⟨reachable_run (Reachable.init demoUploaded rfl) _, by decide,
   at_most_one_pending demoLib demoConfig _
     (reachable_run (Reachable.init demoUploaded rfl) _) 7 9⟩

/-- The request-approval route on a pair whose pending row is `a`, in a state that satisfies
the invariant. -/
theorem requestApproval_pending {s : State} (hinv : Inv s) {a : ApprovalRow}
    (ha : a ∈ s.approvals) (hp : a.status = "pending") :
    requestApproval s a.contract_id a.approver_id =
      ({ Response.plain 200 "Approval request sudah ada." with approval_id := some a.id }, s) := by
  obtain ⟨hc, hu, hex, hus⟩ := hinv.2.1 a ha
  have hlat := latest_of_pending hinv.2.2 ha hp
  have hus1 : s.users.contains a.approver_id = true := by simpa using hus
  simp only [requestApproval, hc, hu, or_self, if_false, hex, not_true_eq_false, hus1, hlat, hp,
    if_true]

/-- C3: when a pending approval `a` exists for a (contract, approver) pair, request-approval
for that pair answers 200 with the id of `a` and leaves the whole state (every approval row,
every contract status) as it was, so a second request in a row gives the same answer. -/
theorem request_approval_idempotent (L : Lib) (cfg : Config) (s : State)
    (h : Reachable L cfg s) (a : ApprovalRow) (ha : a ∈ s.approvals)
    (hp : a.status = "pending") :
    (requestApproval s a.contract_id a.approver_id).1.status = 200 ∧
    (requestApproval s a.contract_id a.approver_id).1.approval_id = some a.id ∧
    (requestApproval s a.contract_id a.approver_id).2 = s ∧
    (requestApproval (requestApproval s a.contract_id a.approver_id).2
        a.contract_id a.approver_id).1.approval_id = some a.id ∧
    (requestApproval (requestApproval s a.contract_id a.approver_id).2
        a.contract_id a.approver_id).2 = s := by
  have h1 := requestApproval_pending (Inv_of_reachable h) ha hp
  rw [h1]
  refine ⟨rfl, rfl, rfl, ?_, ?_⟩
  · show (requestApproval s a.contract_id a.approver_id).1.approval_id = some a.id
    rw [h1]
  · show (requestApproval s a.contract_id a.approver_id).2 = s
    rw [h1]

/-- C3, worked example: approval 1 of the pair (7, 9) is pending in `demoTwoPending`; a
request for the pair returns id 1, twice in a row, and adds no row. -/
theorem request_approval_idempotent_example :
    (requestApproval demoTwoPending 7 9).1.approval_id = some 1 ∧
    (requestApproval (requestApproval demoTwoPending 7 9).2 7 9).1.approval_id = some 1 ∧
    (requestApproval (requestApproval demoTwoPending 7 9).2 7 9).2.approvals.length = 2 ∧
    (requestApproval demoTwoPending 7 9).2 = demoTwoPending :=
  have h := request_approval_idempotent demoLib demoConfig demoTwoPending
    (reachable_run (Reachable.init demoUploaded rfl) _)
    { id := 1, contract_id := 7, approver_id := 9, status := "pending", notes := none,
      signed_path := none, signed_at := none } (by decide) (by decide)
  ⟨h.2.1, h.2.2.2.1, by decide, h.2.2.1⟩

/-! ## Terminal approvals -/

theorem requestApproval_shape (s : State) (c u : Nat) :
    (requestApproval s c u).2 = s ∨
    ((requestApproval s c u) = insertApproval s c u ∧ c ≠ 0 ∧ u ≠ 0 ∧
      contractExists s c = true ∧ u ∈ s.users ∧
      ∀ e, latestApproval s.approvals c u = some e → e.status ≠ "pending") := by
  unfold requestApproval
  split
  · exact Or.inl rfl
  · rename_i hz
    split
    · exact Or.inl rfl
    · rename_i hex
      split
      · exact Or.inl rfl
      · rename_i hus
        have hc : c ≠ 0 := fun h0 => hz (Or.inl h0)
        have hu : u ≠ 0 := fun h0 => hz (Or.inr h0)
        have hex1 : contractExists s c = true := by simpa using hex
        have hus1 : u ∈ s.users := by simpa using hus
        split
        · rename_i ex hlat
          split
          · exact Or.inl rfl
          · rename_i hnp
            refine Or.inr ⟨rfl, hc, hu, hex1, hus1, ?_⟩
            intro e he
            rw [hlat] at he
            cases he
            exact hnp
        · rename_i hlat
          refine Or.inr ⟨rfl, hc, hu, hex1, hus1, ?_⟩
          intro e he
          rw [hlat] at he
          cases he

/-- One request against a state that holds the rejected row `a` at position `i`: the row
keeps every field but `notes`, and keeps `notes` too unless the request is a reject of `a`. -/
theorem rejected_step (L : Lib) (cfg : Config) (s : State) (hinv : Inv s) (i : Nat)
    (a : ApprovalRow) (ha : s.approvals[i]? = some a) (hst : a.status = "rejected")
    (r : Request) :
    ∃ notes, (handle L cfg s r).2.approvals[i]? = some { a with notes := notes } ∧
      ((∀ n, r ≠ .rejectApproval a.id n) → notes = a.notes) := by
  have hmem : a ∈ s.approvals := List.getElem?_mem ha
  have hlt : i < s.approvals.length := (List.getElem?_eq_some.mp ha).1
  cases r with
  | requestApproval c u =>
    refine ⟨a.notes, ?_, fun _ => rfl⟩
    show (requestApproval s c u).2.approvals[i]? = some a
    rcases requestApproval_shape s c u with h1 | ⟨h1, _⟩
    · rw [h1]
      exact ha
    · rw [h1]
      simp only [insertApproval]
      rw [List.getElem?_append_left hlt]
      exact ha
  | signApproval now id p =>
    refine ⟨a.notes, ?_, fun _ => rfl⟩
    show (signApproval L cfg now s id p).2.approvals[i]? = some a
    rcases signApproval_shape L cfg now s id p with h1 | ⟨a0, ha0, hst0, path, cs, _, happ, _⟩
    · rw [h1]
      exact ha
    · have hne : a.id ≠ id := by
        intro hid
        have h0 : a0 = a :=
          eq_of_id_eq hinv.2.2 (selectApproval_mem ha0) hmem
            (by rw [selectApproval_id ha0, hid])
        rw [h0] at hst0
        exact hst0 hst
      rw [happ, List.getElem?_map, ha]
      simp [hne]
  | rejectApproval id notes =>
    show ∃ n, (rejectApproval s id notes).2.approvals[i]? = some { a with notes := n } ∧ _
    rcases rejectApproval_shape s id notes with h1 | ⟨a0, _, _, h1⟩
    · refine ⟨a.notes, ?_, fun _ => rfl⟩
      rw [h1]
      exact ha
    · rw [h1]
      simp only [List.getElem?_map, ha, Option.map_some']
      by_cases hid : a.id = id
      · refine ⟨trimOrNull notes, ?_, ?_⟩
        · simp only [hid, if_true]
          rw [hst]
        · intro hne
          exact absurd (by rw [hid]) (hne notes)
      · refine ⟨a.notes, ?_, fun _ => rfl⟩
        simp [hid]
  | upload now c file =>
    refine ⟨a.notes, ?_, fun _ => rfl⟩
    show (uploadContractPdf L cfg now s c file).2.approvals[i]? = some a
    rw [(uploadContractPdf_frame L cfg now s c file).1]
    exact ha
  | signContract now c p =>
    refine ⟨a.notes, ?_, fun _ => rfl⟩
    show (signContract L cfg now s c p).2.approvals[i]? = some a
    rw [(signContract_frame L cfg now s c p).1]
    exact ha

/-- C4 as the code has it: a rejected approval is final.  From any reachable state, whatever
requests follow, the rejected row keeps its id, contract, approver, status `rejected`, signed
path and signing time; only a later reject aimed at it rewrites its notes, and without such a
reject the row is unchanged. -/
theorem rejected_approval_is_final (L : Lib) (cfg : Config) (s : State)
    (h : Reachable L cfg s) (i : Nat) (a : ApprovalRow) (ha : s.approvals[i]? = some a)
    (hst : a.status = "rejected") (rs : List Request) :
    ∃ notes, (run L cfg s rs).approvals[i]? = some { a with notes := notes } ∧
      ((∀ n, Request.rejectApproval a.id n ∉ rs) → notes = a.notes) := by
  induction rs generalizing s a with
  | nil => exact ⟨a.notes, ha, fun _ => rfl⟩
  | cons r rs ih =>
    obtain ⟨n1, h1, hn1⟩ := rejected_step L cfg s (Inv_of_reachable h) i a ha hst r
    obtain ⟨n2, h2, hn2⟩ := ih (handle L cfg s r).2 (Reachable.step s r h)
      { a with notes := n1 } h1 hst
    refine ⟨n2, h2, ?_⟩
    intro hno
    have e1 : n1 = a.notes := hn1 (fun n hr => hno n (by rw [hr]; exact List.mem_cons_self _ _))
    have e2 : n2 = n1 := hn2 (fun n hr => hno n (List.mem_cons_of_mem _ hr))
    rw [e2, e1]

/-- C4, worked example: the rejected approval B sits at position 1 of `demoBRejected`; a sign
request for B, a sign request for A and a new request for B's pair leave the row as it is. -/
theorem rejected_approval_is_final_example :
    (run demoLib demoConfig demoBRejected
      [.signApproval 4000 2 demoPayload, .signApproval 4100 1 demoPayload,
       .requestApproval 7 10]).approvals[1]? =
      some { id := 2, contract_id := 7, approver_id := 10, status := "rejected",
             notes := some "missing signature page", signed_path := none, signed_at := none } := by
  obtain ⟨notes, h1, h2⟩ := rejected_approval_is_final demoLib demoConfig demoBRejected
    (Reachable.step _ (.rejectApproval 2 (some "missing signature page"))
      (Reachable.step _ (.signApproval 2000 1 demoPayload)
        (reachable_run (Reachable.init demoUploaded rfl)
          [.requestApproval 7 9, .requestApproval 7 10])))
    1
    { id := 2, contract_id := 7, approver_id := 10, status := "rejected",
      notes := some "missing signature page", signed_path := none, signed_at := none }
    (by decide) (by decide)
    [.signApproval 4000 2 demoPayload, .signApproval 4100 1 demoPayload, .requestApproval 7 10]
  rw [h1, h2 (by intro n hn; simp at hn)]

/-- C4 fails as stated: approval A is `approved` in `demoASigned`, yet a reject request turns
it into `rejected` with new notes, and a second sign request replaces its signed path; a
reject request on the rejected approval B replaces its notes. -/
theorem terminal_approval_is_changed :
    (selectApproval demoASigned 1).map (fun r => (r.status, r.notes, r.signed_path)) =
      some ("approved", none, some "/storage/approval-1-contract-7-signed-2000.pdf") ∧
    (selectApproval (rejectApproval demoASigned 1 (some "late objection")).2 1).map
        (fun r => (r.status, r.notes, r.signed_path)) =
      some ("rejected", some "late objection",
        some "/storage/approval-1-contract-7-signed-2000.pdf") ∧
    (selectApproval (signApproval demoLib demoConfig 5000 demoASigned 1
          { demoPayload with notes := some "second look" }).2 1).map
        (fun r => (r.status, r.notes, r.signed_path)) =
      some ("approved", some "second look",
        some "/storage/approval-1-contract-7-signed-5000.pdf") ∧
    (selectApproval demoBRejected 2).map (fun r => (r.status, r.notes)) =
      some ("rejected", some "missing signature page") ∧
    (selectApproval (rejectApproval demoBRejected 2 (some "changed my mind")).2 2).map
        (fun r => (r.status, r.notes)) =
      some ("rejected", some "changed my mind") := by
  decide

/-! ## Approver reject -/

/-- C5: approver reject on an existing approval answers 200, sets that approval to `rejected`
and its contract to `in_progress`, and leaves every approval row with another id as it was,
position by position. -/
theorem approver_reject_effect (s : State) (approvalId : Nat) (notes : Option String)
    (a : ApprovalRow) (hid : approvalId ≠ 0) (ha : selectApproval s approvalId = some a) :
    (rejectApproval s approvalId notes).1.status = 200 ∧
    selectApproval (rejectApproval s approvalId notes).2 approvalId =
      some { a with status := "rejected", notes := trimOrNull notes } ∧
    (∀ r ∈ (rejectApproval s approvalId notes).2.approvals, r.id = approvalId →
      r.status = "rejected") ∧
    contractStatus (rejectApproval s approvalId notes).2 a.contract_id =
      (contractStatus s a.contract_id).map (fun _ => "in_progress") ∧
    (∀ c ∈ (rejectApproval s approvalId notes).2.contracts, c.id = a.contract_id →
      c.status = "in_progress") ∧
    (rejectApproval s approvalId notes).2.approvals.length = s.approvals.length ∧
    (∀ (i : Nat) (r : ApprovalRow), s.approvals[i]? = some r → r.id ≠ approvalId →
      (rejectApproval s approvalId notes).2.approvals[i]? = some r) := by
  have h : rejectApproval s approvalId notes =
      (Response.plain 200 "Approval rejected ✅",
        { s with
          approvals := s.approvals.map (fun r =>
            if r.id = approvalId then
              { r with status := "rejected", notes := trimOrNull notes }
            else r)
          contracts := setContractStatus s.contracts a.contract_id "in_progress" }) := by
    simp only [rejectApproval, hid, if_false, ha]
  rw [h]
  refine ⟨rfl, ?_, ?_, ?_, ?_, ?_, ?_⟩
  · show List.find? _ (List.map _ s.approvals) = _
    rw [selectApproval_map s _ approvalId (by intro r; split <;> rfl), ha]
    simp [selectApproval_id ha]
  · intro r hr hrid
    simp only [List.mem_map] at hr
    obtain ⟨r0, _, hr0⟩ := hr
    subst hr0
    split
    · rfl
    · rename_i hne
      split at hrid
      · exact absurd hrid hne
      · exact absurd hrid hne
  · have := contractStatus_set s.contracts a.contract_id a.contract_id "in_progress"
    simpa [contractStatus] using this
  · intro c hc hcid
    simp only [setContractStatus, List.mem_map] at hc
    obtain ⟨c0, _, hc0⟩ := hc
    subst hc0
    split
    · rfl
    · rename_i hne
      split at hcid
      · exact absurd hcid hne
      · exact absurd hcid hne
  · simp
  · intro i r hi hne
    simp only [List.getElem?_map, hi, Option.map_some', hne, if_false]

/-- C5, worked example: A has signed and B is pending; B rejects.  B is `rejected`, contract 7
is `in_progress`, and A still is `approved` with its signed path. -/
theorem approver_reject_effect_example :
    ((rejectApproval demoASigned 2 (some "missing signature page")).1.status = 200 ∧
      contractStatus demoASigned 7 = some "pending_approval" ∧
      contractStatus demoBRejected 7 = some "in_progress") ∧
    (selectApproval demoBRejected 2).map (fun r => r.status) = some "rejected" ∧
    demoBRejected.approvals[0]? = demoASigned.approvals[0]? ∧
    (selectApproval demoBRejected 1).map (fun r => (r.status, r.signed_path)) =
      some ("approved", some "/storage/approval-1-contract-7-signed-2000.pdf") :=
  ⟨⟨(approver_reject_effect demoASigned 2 (some "missing signature page")
      { id := 2, contract_id := 7, approver_id := 10, status := "pending", notes := none,
        signed_path := none, signed_at := none } (by decide) (by decide)).1,
    by decide, by decide⟩, by decide, by decide, by decide⟩

/-! ## Sign on a rejected approval -/

/-- C6: approver sign on a rejected approval, with a numeric `pageIndex` and a non-empty
`imageDataUrl`, answers 400 and leaves the whole state (the approval, the contract statuses,
the file references, the files) as it was, whatever else the payload holds. -/
theorem approver_sign_rejected_refused (L : Lib) (cfg : Config) (now : Nat) (s : State)
    (approvalId : Nat) (p : SignPayload) (a : ApprovalRow) (pageIndex : JsNum)
    (ha : selectApproval s approvalId = some a) (hst : a.status = "rejected")
    (hpi : p.pageIndex = some pageIndex) (himg : truthy p.imageDataUrl = true) :
    (signApproval L cfg now s approvalId p).1.status = 400 ∧
    (signApproval L cfg now s approvalId p).2 = s := by
  by_cases hid : approvalId = 0
  · simp only [signApproval, hid, if_true, Response.plain, and_self]
  · simp only [signApproval, hid, if_false, hpi, himg, not_true_eq_false, ha, hst, if_true,
      Response.plain, and_self]

/-- C6, worked example: the rejected approval B of `demoBRejected` cannot be signed. -/
theorem approver_sign_rejected_refused_example :
    (selectApproval demoBRejected 2).map (fun r => r.status) = some "rejected" ∧
    (signApproval demoLib demoConfig 4000 demoBRejected 2 demoPayload).1.status = 400 ∧
    (signApproval demoLib demoConfig 4000 demoBRejected 2 demoPayload).2 = demoBRejected :=
  ⟨by decide,
   approver_sign_rejected_refused demoLib demoConfig 4000 demoBRejected 2 demoPayload
     { id := 2, contract_id := 7, approver_id := 10, status := "rejected",
       notes := some "missing signature page", signed_path := none, signed_at := none }
     (.int 0) (by decide) (by decide) (by decide) (by decide)⟩

/-! ## A new request after a rejection -/

theorem contractStatus_of_exists {s : State} {c : Nat} (h : contractExists s c = true) :
    ∃ row, s.contracts.find? (fun x => x.id == c) = some row := by
  unfold contractExists at h
  rw [List.any_eq_true] at h
  obtain ⟨x, hx, hp⟩ := h
  have : (s.contracts.find? (fun x => x.id == c)).isSome = true :=
    List.find?_isSome.mpr ⟨x, hx, hp⟩
  exact Option.isSome_iff_exists.mp this

/-- C7: when the latest approval of a (contract, approver) pair is rejected, request-approval
for the pair answers 201 with an id no row has yet, appends one pending row with that id,
leaves the existing rows (the rejected one among them) as they are, and sets the contract to
`pending_approval`. -/
theorem request_after_rejection_creates_row (L : Lib) (cfg : Config) (s : State)
    (h : Reachable L cfg s) (c u : Nat) (ex : ApprovalRow)
    (hlat : latestApproval s.approvals c u = some ex) (hst : ex.status = "rejected") :
    (requestApproval s c u).1.status = 201 ∧
    (requestApproval s c u).1.approval_id = some s.nextApprovalId ∧
    (∀ r ∈ s.approvals, r.id ≠ s.nextApprovalId) ∧
    (requestApproval s c u).2.approvals =
      s.approvals ++
        [{ id := s.nextApprovalId, contract_id := c, approver_id := u, status := "pending",
           notes := none, signed_path := none, signed_at := none }] ∧
    ex ∈ (requestApproval s c u).2.approvals ∧
    contractStatus (requestApproval s c u).2 c = some "pending_approval" := by
  have hinv := Inv_of_reachable h
  obtain ⟨hmem, hc, hu, _⟩ := latestApproval_some hlat
  obtain ⟨hc0, hu0, hex, hus⟩ := hinv.2.1 ex hmem
  rw [hc] at hc0 hex
  rw [hu] at hu0 hus
  have hus1 : s.users.contains u = true := by simpa using hus
  have hnp : ex.status ≠ "pending" := by rw [hst]; decide
  have hreq : requestApproval s c u = insertApproval s c u := by
    simp only [requestApproval, hc0, hu0, or_self, if_false, hex, not_true_eq_false, hus1, hlat,
      hnp]
  rw [hreq]
  refine ⟨rfl, rfl, ?_, rfl, ?_, ?_⟩
  · intro r hr
    have := hinv.1 r hr
    omega
  · simp only [insertApproval, List.mem_append, List.mem_singleton]
    exact Or.inl hmem
  · obtain ⟨row, hrow⟩ := contractStatus_of_exists hex
    have := contractStatus_set s.contracts c c "pending_approval"
    simp only [if_true, hrow, Option.map_some'] at this
    simpa [contractStatus, insertApproval] using this

/-- C7, worked example: B was rejected in `demoBRejected`; a new request for the pair (7, 10)
creates approval 3, pending, keeps row B, and sets contract 7 to `pending_approval`. -/
theorem request_after_rejection_example :
    contractStatus demoBRejected 7 = some "in_progress" ∧
    (requestApproval demoBRejected 7 10).1.approval_id = some 3 ∧
    (requestApproval demoBRejected 7 10).2.approvals.map (fun r => (r.id, r.status)) =
      [(1, "approved"), (2, "rejected"), (3, "pending")] ∧
    contractStatus (requestApproval demoBRejected 7 10).2 7 = some "pending_approval" :=
  have h := request_after_rejection_creates_row demoLib demoConfig demoBRejected
    (Reachable.step _ (.rejectApproval 2 (some "missing signature page"))
      (Reachable.step _ (.signApproval 2000 1 demoPayload)
        (reachable_run (Reachable.init demoUploaded rfl)
          [.requestApproval 7 9, .requestApproval 7 10])))
    7 10
    { id := 2, contract_id := 7, approver_id := 10, status := "rejected",
      notes := some "missing signature page", signed_path := none, signed_at := none }
    (by decide) (by decide)
  ⟨by decide, h.2.1, by decide, h.2.2.2.2.2⟩

/-! ## Source resolution -/

/-- C8: `getContractPdfSourceAbs` returns `null` when the contract has no file record; with a
record it returns the signed artifact (`absStorageFromPublic` of `signed_path`) when
`signed_path` is set, otherwise the original upload (`absUploadFromPublic` of `upload_path`)
when `upload_path` is set, and otherwise `null`. -/
theorem source_resolution_order (L : Lib) (cfg : Config) (s : State) (c : Nat) :
    (selectContractFile s c = none → getContractPdfSourceAbs L cfg s c = .ok none) ∧
    (∀ row, selectContractFile s c = some row →
      (truthy row.signed_path = true →
        getContractPdfSourceAbs L cfg s c = (absStorageFromPublic L cfg row.signed_path).map some ∧
        getContractPdfSourceAbs L cfg s c ≠ .ok none) ∧
      (truthy row.signed_path = false → truthy row.upload_path = true →
        getContractPdfSourceAbs L cfg s c = (absUploadFromPublic L cfg row.upload_path).map some ∧
        getContractPdfSourceAbs L cfg s c ≠ .ok none) ∧
      (truthy row.signed_path = false → truthy row.upload_path = false →
        getContractPdfSourceAbs L cfg s c = .ok none)) := by
  refine ⟨?_, ?_⟩
  · intro h
    simp only [getContractPdfSourceAbs, h]
  · intro row h
    refine ⟨?_, ?_, ?_⟩
    · intro hs
      have e : getContractPdfSourceAbs L cfg s c =
          (absStorageFromPublic L cfg row.signed_path).map some := by
        simp only [getContractPdfSourceAbs, h, hs, if_true]
      refine ⟨e, ?_⟩
      rw [e]
      cases absStorageFromPublic L cfg row.signed_path <;> simp [Except.map]
    · intro hs hu
      have e : getContractPdfSourceAbs L cfg s c =
          (absUploadFromPublic L cfg row.upload_path).map some := by
        simp only [getContractPdfSourceAbs, h, hs, hu, if_true]
        simp
      refine ⟨e, ?_⟩
      rw [e]
      cases absUploadFromPublic L cfg row.upload_path <;> simp [Except.map]
    · intro hs hu
      simp [getContractPdfSourceAbs, h, hs, hu]

/-- C8, worked example: contract 7 resolves to its signed artifact once the owner has signed
and to its upload before; contract 8 (a record without paths) and contract 9 (no record)
resolve to `null`. -/
theorem source_resolution_example :
    getContractPdfSourceAbs demoLib demoConfig demoEmptyRecord 7 =
      .ok (some "/srv/storage/contract-7-signed-2000.pdf") ∧
    getContractPdfSourceAbs demoLib demoConfig demoUploaded 7 =
      .ok (some "/srv/uploads/1000-a.pdf") ∧
    getContractPdfSourceAbs demoLib demoConfig demoEmptyRecord 8 = .ok none ∧
    getContractPdfSourceAbs demoLib demoConfig demoEmptyRecord 9 = .ok none :=
  ⟨(((source_resolution_order demoLib demoConfig demoEmptyRecord 7).2
      { contract_id := 7, upload_path := some "/uploads/1000-a.pdf",
        signed_path := some "/storage/contract-7-signed-2000.pdf" } (by decide)).1
      (by decide)).1.trans rfl,
   (((source_resolution_order demoLib demoConfig demoUploaded 7).2
      { contract_id := 7, upload_path := some "/uploads/1000-a.pdf", signed_path := none }
      (by decide)).2.1 (by decide) (by decide)).1.trans rfl,
   ((source_resolution_order demoLib demoConfig demoEmptyRecord 8).2
      { contract_id := 8, upload_path := none, signed_path := some "" }
      (by decide)).2.2 (by decide) (by decide),
   (source_resolution_order demoLib demoConfig demoEmptyRecord 9).1 (by decide)⟩

/-! ## Owner sign -/

/-- The owner sign route on a request that passes every check. -/
theorem signContract_success (L : Lib) (cfg : Config) (now : Nat) (s : State) (c : Nat)
    (p : SignPayload) (pageIndex : JsNum) (row : ContractFileRow) (srcAbs : String)
    (pages : List Page)
    (hpi : p.pageIndex = some pageIndex)
    (himg : validImage L p = true)
    (hrow : selectContractFile s c = some row)
    (hup : truthy row.upload_path = true)
    (hsrc : absUploadFromPublic L cfg row.upload_path = .ok srcAbs)
    (hfile : readFileSync s.disk srcAbs = some (.pdf pages))
    (hpages : pages ≠ [])
    (hold : truthy row.signed_path = true →
      ∃ old, absStorageFromPublic L cfg row.signed_path = .ok old) :
    ∃ (out : FileContent) (disk1 : Disk),
      composeSigned L (.pdf pages) pageIndex p = .ok out ∧
      (disk1 = writeFileSync s.disk (L.join cfg.STORAGE_DIR (contractOutName c now)) out ∨
        ∃ old, absStorageFromPublic L cfg row.signed_path = .ok old ∧
          disk1 = safeUnlink
            (writeFileSync s.disk (L.join cfg.STORAGE_DIR (contractOutName c now)) out) old) ∧
      signContract L cfg now s c p =
        ({ Response.plain 200 "TTD berhasil ✅" with
            path := some ("/storage/" ++ L.encodeURIComponent (contractOutName c now)) },
         { s with
           disk := disk1
           contract_files := s.contract_files.map (fun r =>
             if r.contract_id = c then
               { r with
                 signed_path := some ("/storage/" ++ L.encodeURIComponent (contractOutName c now)) }
             else r)
           contracts := setContractStatus s.contracts c "active_contract" }) := by
  obtain ⟨htr, _⟩ := validImage_spec himg
  obtain ⟨out, hout⟩ := composeSigned_ok pageIndex himg hpages
  have hos : ownerSignSource L cfg s c = .ok (row, srcAbs) := by
    simp only [ownerSignSource, hrow, hup, not_true_eq_false, if_false, hsrc]
  by_cases hs : truthy row.signed_path = true
  · obtain ⟨old, hold1⟩ := hold hs
    refine ⟨out, _, hout, Or.inr ⟨old, hold1, rfl⟩, ?_⟩
    simp only [signContract, hpi, htr, not_true_eq_false, if_false, hos, hfile, hout, hs,
      if_true, hold1]
  · have hs1 : truthy row.signed_path = false := by simpa using hs
    refine ⟨out, _, hout, Or.inl rfl, ?_⟩
    simp only [signContract, hpi, htr, not_true_eq_false, if_false, hos, hfile, hout, hs1,
      Bool.false_eq_true]

/-- The owner sign route as coded, in general: for a contract whose file record has an
`upload_path`, the source the route reads is `absUploadFromPublic` of that path, whether or
not `signed_path` is set; the artifact it writes is the compositor's output on that file; and
this source is what `getContractPdfSourceAbs` returns when `signed_path` is not set. -/
theorem owner_sign_reads_upload (L : Lib) (cfg : Config) (now : Nat) (s : State) (c : Nat)
    (p : SignPayload) (pageIndex : JsNum) (row : ContractFileRow) (srcAbs : String)
    (pages : List Page)
    (hpi : p.pageIndex = some pageIndex)
    (himg : validImage L p = true)
    (hrow : selectContractFile s c = some row)
    (hup : truthy row.upload_path = true)
    (hsrc : absUploadFromPublic L cfg row.upload_path = .ok srcAbs)
    (hfile : readFileSync s.disk srcAbs = some (.pdf pages))
    (hpages : pages ≠ [])
    (hold : truthy row.signed_path = true →
      ∃ old, absStorageFromPublic L cfg row.signed_path = .ok old) :
    ownerSignSource L cfg s c = .ok (row, srcAbs) ∧
    (signContract L cfg now s c p).1.status = 200 ∧
    (∃ out, composeSigned L (.pdf pages) pageIndex p = .ok out ∧
      ((signContract L cfg now s c p).2.disk =
          writeFileSync s.disk (L.join cfg.STORAGE_DIR (contractOutName c now)) out ∨
        ∃ old, absStorageFromPublic L cfg row.signed_path = .ok old ∧
          (signContract L cfg now s c p).2.disk = safeUnlink
            (writeFileSync s.disk (L.join cfg.STORAGE_DIR (contractOutName c now)) out) old)) ∧
    (truthy row.signed_path = false →
      getContractPdfSourceAbs L cfg s c = .ok (some srcAbs)) := by
  obtain ⟨out, disk1, hout, hdisk, h⟩ := signContract_success L cfg now s c p pageIndex row
    srcAbs pages hpi himg hrow hup hsrc hfile hpages hold
  refine ⟨?_, ?_, ⟨out, hout, ?_⟩, ?_⟩
  · simp only [ownerSignSource, hrow, hup, not_true_eq_false, if_false, hsrc]
  · rw [h]
    rfl
  · rw [h]
    exact hdisk
  · intro hs
    simp [getContractPdfSourceAbs, hrow, hs, hup, hsrc, Except.map]

/-- The owner sign route as coded, worked example: contract 7 already has a signed artifact
(`demoOwnerSigned`); a second owner sign reads `/srv/uploads/1000-a.pdf` and answers 200. -/
theorem owner_sign_reads_upload_example :
    truthy (some "/storage/contract-7-signed-2000.pdf") = true ∧
    ownerSignSource demoLib demoConfig demoOwnerSigned 7 =
      .ok ({ contract_id := 7, upload_path := some "/uploads/1000-a.pdf",
             signed_path := some "/storage/contract-7-signed-2000.pdf" },
           "/srv/uploads/1000-a.pdf") ∧
    (signContract demoLib demoConfig 3000 demoOwnerSigned 7 demoPayloadAgain).1.status = 200 :=
  have h := owner_sign_reads_upload demoLib demoConfig 3000 demoOwnerSigned 7 demoPayloadAgain
    (.int 0)
    { contract_id := 7, upload_path := some "/uploads/1000-a.pdf",
      signed_path := some "/storage/contract-7-signed-2000.pdf" }
    "/srv/uploads/1000-a.pdf" [{ content := "page one", stamps := [] }]
    (by decide) (by decide) (by decide) (by decide) rfl (by decide) (by decide)
    (fun _ => ⟨"/srv/storage/contract-7-signed-2000.pdf", rfl⟩)
  ⟨by decide, h.1, h.2.1⟩

/-- C9 on the code: in `demoOwnerSigned` contract 7 has a signed artifact, which is what
`getContractPdfSourceAbs` resolves to and which carries the first stamp; a second owner sign
reads the original upload instead, so the artifact it writes carries the second stamp only.
The approver sign route, which resolves its source with `getContractPdfSourceAbs`, stamps the
signed artifact in the same state: its output carries both stamps. -/
theorem owner_sign_ignores_signed_artifact :
    (getContractPdfSourceAbs demoLib demoConfig demoOwnerSigned 7).toOption =
      some (some "/srv/storage/contract-7-signed-2000.pdf") ∧
    (ownerSignSource demoLib demoConfig demoOwnerSigned 7).toOption.map (fun x => x.2) =
      some "/srv/uploads/1000-a.pdf" ∧
    readFileSync demoOwnerSigned.disk "/srv/storage/contract-7-signed-2000.pdf" =
      some (.pdf [{ content := "page one", stamps :=
        [{ kind := .png,
           data := "iVBORw0KGgoAAAANSUhEUgAAAAEAAAABCAYAAAAfFcSJAAAADUlEQVR42mNkYPhfDwAChwGA60e6kgAAAABJRU5ErkJggg==",
           x := .int 10, y := .int 20, width := .int 100, height := .int 40 }] }]) ∧
    (signContract demoLib demoConfig 3000 demoOwnerSigned 7 demoPayloadAgain).1.status = 200 ∧
    readFileSync (signContract demoLib demoConfig 3000 demoOwnerSigned 7 demoPayloadAgain).2.disk
        "/srv/storage/contract-7-signed-3000.pdf" =
      some (.pdf [{ content := "page one", stamps :=
        [{ kind := .png,
           data := "iVBORw0KGgoAAAANSUhEUgAAAAEAAAABCAYAAAAfFcSJAAAADUlEQVR42mNkYPhfDwAChwGA60e6kgAAAABJRU5ErkJggg==",
           x := .int 50, y := .int 60, width := .int 100, height := .int 40 }] }]) ∧
    (signApproval demoLib demoConfig 3000 (requestApproval demoOwnerSigned 7 9).2 1
      demoPayloadAgain).1.status = 200 ∧
    readFileSync
        (signApproval demoLib demoConfig 3000 (requestApproval demoOwnerSigned 7 9).2 1
          demoPayloadAgain).2.disk
        "/srv/storage/approval-1-contract-7-signed-3000.pdf" =
      some (.pdf [{ content := "page one", stamps :=
        [{ kind := .png,
           data := "iVBORw0KGgoAAAANSUhEUgAAAAEAAAABCAYAAAAfFcSJAAAADUlEQVR42mNkYPhfDwAChwGA60e6kgAAAABJRU5ErkJggg==",
           x := .int 10, y := .int 20, width := .int 100, height := .int 40 },
         { kind := .png,
           data := "iVBORw0KGgoAAAANSUhEUgAAAAEAAAABCAYAAAAfFcSJAAAADUlEQVR42mNkYPhfDwAChwGA60e6kgAAAABJRU5ErkJggg==",
           x := .int 50, y := .int 60, width := .int 100, height := .int 40 }] }]) := by
  decide

/-! ## Upload and the signed path -/

theorem handleMysqlError_status_ne (e : JsError) (m : String) :
    (handleMysqlError e m).status ≠ 200 := by
  unfold handleMysqlError
  simp only
  split
  · simp
  · split
    · simp
    · split <;> simp

theorem find_file_map (l : List ContractFileRow) (c : Nat) (v : Option String) :
    ((l.map (fun r => if r.contract_id = c then { r with upload_path := v } else r)).find?
        (fun r => r.contract_id == c)).map (fun r => r.signed_path) =
      (l.find? (fun r => r.contract_id == c)).map (fun r => r.signed_path) := by
  induction l with
  | nil => rfl
  | cons x xs ih =>
    by_cases hx : x.contract_id = c
    · simp [List.find?_cons, hx]
    · simp only [List.map_cons, hx, if_false, List.find?_cons]
      have : (x.contract_id == c) = false := by simpa using hx
      simp only [this]
      exact ih

theorem find_file_append (l : List ContractFileRow) (c : Nat) (v : Option String)
    (h : l.find? (fun r => r.contract_id == c) = none) :
    ((l ++ [(⟨c, v, none⟩ : ContractFileRow)]).find?
        (fun r => r.contract_id == c)).map (fun r => r.signed_path) = some none := by
  rw [List.find?_append, h]
  simp

/-- The upload route as coded, in general: no statement of it writes `signed_path`.  After an
upload that answers 200 the contract has a file record whose `signed_path` is the one it had
before the upload, and `null` when the upload created the record. -/
theorem upload_keeps_signed_path (L : Lib) (cfg : Config) (now : Nat) (s : State) (c : Nat)
    (file : Option UploadedFile)
    (h200 : (uploadContractPdf L cfg now s c file).1.status = 200) :
    (selectContractFile (uploadContractPdf L cfg now s c file).2 c).map
        (fun r => r.signed_path) =
      some ((selectContractFile s c).bind (fun r => r.signed_path)) := by
  revert h200
  simp only [uploadContractPdf]
  repeat' split
  all_goals intro h200
  all_goals try (exact absurd h200 (handleMysqlError_status_ne _ _))
  all_goals try (simp [Response.plain] at h200; done)
  all_goals simp only [selectContractFile] at *
  all_goals
    first
      | (rw [find_file_map]; simp [*])
      | (rw [find_file_append _ _ _ (by assumption)]; simp [*])

/-- The upload route as coded, worked example: contract 7 has a signed artifact; a replacement
upload at time 6000 answers 200 and the old `signed_path` is still on the record. -/
theorem upload_keeps_signed_path_example :
    (uploadContractPdf demoLib demoConfig 6000 demoOwnerSigned 7 (some demoReplacement)).1.status
      = 200 ∧
    (selectContractFile
        (uploadContractPdf demoLib demoConfig 6000 demoOwnerSigned 7 (some demoReplacement)).2
        7).map (fun r => r.signed_path) =
      some ((selectContractFile demoOwnerSigned 7).bind (fun r => r.signed_path)) :=
  ⟨by decide,
   upload_keeps_signed_path demoLib demoConfig 6000 demoOwnerSigned 7 (some demoReplacement)
     (by decide)⟩

/-- C10 on the code: contract 7 has `signed_path` `/storage/contract-7-signed-2000.pdf`;
after a successful upload of a replacement original its `signed_path` is that same path, not
`null`, while `upload_path` names the new file and the status is back to `in_progress`.  The
superseded artifact is still on disk and is what `getContractPdfSourceAbs` resolves to, so the
page and approver sign keep using the signed copy of the replaced original. -/
theorem upload_leaves_signed_path_set :
    (selectContractFile demoOwnerSigned 7).map (fun r => (r.upload_path, r.signed_path)) =
      some (some "/uploads/1000-a.pdf", some "/storage/contract-7-signed-2000.pdf") ∧
    (uploadContractPdf demoLib demoConfig 6000 demoOwnerSigned 7 (some demoReplacement)).1.status
      = 200 ∧
    (selectContractFile
        (uploadContractPdf demoLib demoConfig 6000 demoOwnerSigned 7 (some demoReplacement)).2
        7).map (fun r => (r.upload_path, r.signed_path)) =
      some (some "/uploads/6000-b.pdf", some "/storage/contract-7-signed-2000.pdf") ∧
    (selectContractFile
        (uploadContractPdf demoLib demoConfig 6000 demoOwnerSigned 7 (some demoReplacement)).2
        7).map (fun r => r.signed_path) ≠ some none ∧
    contractStatus
        (uploadContractPdf demoLib demoConfig 6000 demoOwnerSigned 7 (some demoReplacement)).2
        7 = some "in_progress" ∧
    existsSync
        (uploadContractPdf demoLib demoConfig 6000 demoOwnerSigned 7
          (some demoReplacement)).2.disk "/srv/uploads/1000-a.pdf" = false ∧
    (getContractPdfSourceAbs demoLib demoConfig
        (uploadContractPdf demoLib demoConfig 6000 demoOwnerSigned 7 (some demoReplacement)).2
        7).toOption = some (some "/srv/storage/contract-7-signed-2000.pdf") := by
  decide

/-! ## Owner sign records the artifact -/

theorem selectContractFile_map (l : List ContractFileRow) (g : ContractFileRow → ContractFileRow)
    (c : Nat) (hg : ∀ r, (g r).contract_id = r.contract_id) :
    (l.map g).find? (fun r => r.contract_id == c) =
      (l.find? (fun r => r.contract_id == c)).map g := by
  have hp : ((fun r : ContractFileRow => r.contract_id == c) ∘ g) =
      (fun r => r.contract_id == c) := by
    funext r
    simp [hg]
  rw [List.find?_map, hp]

theorem selectContractFile_id {s : State} {c : Nat} {row : ContractFileRow}
    (h : selectContractFile s c = some row) : row.contract_id = c := by
  have := List.find?_some h
  simpa using this

/-- C11: for a contract whose file record names an uploaded original that is on disk and
parses, and for a valid sign payload, owner sign answers 200, writes the new artifact, sets the
record's `signed_path` to the new artifact's public path and the contract's status to
`active_contract`, and leaves `upload_path` as it was. -/
theorem owner_sign_records_artifact (L : Lib) (cfg : Config) (now : Nat) (s : State) (c : Nat)
    (p : SignPayload) (pageIndex : JsNum) (row : ContractFileRow) (srcAbs : String)
    (pages : List Page)
    (hpi : p.pageIndex = some pageIndex)
    (himg : validImage L p = true)
    (hrow : selectContractFile s c = some row)
    (hup : truthy row.upload_path = true)
    (hsrc : absUploadFromPublic L cfg row.upload_path = .ok srcAbs)
    (hfile : readFileSync s.disk srcAbs = some (.pdf pages))
    (hpages : pages ≠ [])
    (hold : truthy row.signed_path = true →
      ∃ old, absStorageFromPublic L cfg row.signed_path = .ok old) :
    (signContract L cfg now s c p).1.status = 200 ∧
    (signContract L cfg now s c p).1.path =
      some ("/storage/" ++ L.encodeURIComponent (contractOutName c now)) ∧
    selectContractFile (signContract L cfg now s c p).2 c =
      some { contract_id := c, upload_path := row.upload_path,
             signed_path := some ("/storage/" ++ L.encodeURIComponent (contractOutName c now)) } ∧
    (∀ r ∈ (signContract L cfg now s c p).2.contracts, r.id = c →
      r.status = "active_contract") ∧
    contractStatus (signContract L cfg now s c p).2 c =
      (contractStatus s c).map (fun _ => "active_contract") ∧
    (∃ out, composeSigned L (.pdf pages) pageIndex p = .ok out ∧
      ((signContract L cfg now s c p).2.disk =
          writeFileSync s.disk (L.join cfg.STORAGE_DIR (contractOutName c now)) out ∨
        ∃ old, absStorageFromPublic L cfg row.signed_path = .ok old ∧
          (signContract L cfg now s c p).2.disk = safeUnlink
            (writeFileSync s.disk (L.join cfg.STORAGE_DIR (contractOutName c now)) out) old)) := by
  obtain ⟨out, disk1, hout, hdisk, h⟩ := signContract_success L cfg now s c p pageIndex row
    srcAbs pages hpi himg hrow hup hsrc hfile hpages hold
  rw [h]
  refine ⟨rfl, rfl, ?_, ?_, ?_, ⟨out, hout, hdisk⟩⟩
  · show List.find? _ (List.map _ s.contract_files) = _
    rw [selectContractFile_map _ _ c (by intro r; split <;> rfl)]
    have hrow1 : List.find? (fun r => r.contract_id == c) s.contract_files = some row := hrow
    rw [hrow1]
    simp [selectContractFile_id hrow]
  · intro r hr hrid
    simp only [setContractStatus, List.mem_map] at hr
    obtain ⟨r0, _, hr0⟩ := hr
    subst hr0
    split
    · rfl
    · rename_i hne
      split at hrid
      · exact absurd hrid hne
      · exact absurd hrid hne
  · have := contractStatus_set s.contracts c c "active_contract"
    simpa [contractStatus] using this

/-- C11, worked example: contract 7 has a one-page upload and status `in_progress`; the owner
signs page 0 at (10, 20, 100, 40) with a PNG.  The answer carries the signed path, the record
has that `signed_path` and the old `upload_path`, and the status is `active_contract`. -/
theorem owner_sign_records_artifact_example :
    contractStatus demoUploaded 7 = some "in_progress" ∧
    (signContract demoLib demoConfig 2000 demoUploaded 7 demoPayload).1.status = 200 ∧
    (signContract demoLib demoConfig 2000 demoUploaded 7 demoPayload).1.path =
      some "/storage/contract-7-signed-2000.pdf" ∧
    selectContractFile demoOwnerSigned 7 =
      some { contract_id := 7, upload_path := some "/uploads/1000-a.pdf",
             signed_path := some "/storage/contract-7-signed-2000.pdf" } ∧
    contractStatus demoOwnerSigned 7 = some "active_contract" :=
  have h := owner_sign_records_artifact demoLib demoConfig 2000 demoUploaded 7 demoPayload
    (.int 0)
    { contract_id := 7, upload_path := some "/uploads/1000-a.pdf", signed_path := none }
    "/srv/uploads/1000-a.pdf" [{ content := "page one", stamps := [] }]
    (by decide) (by decide) (by decide) (by decide) rfl (by decide) (by decide)
    (fun h => absurd h (by decide))
  ⟨by decide, h.1, h.2.1, h.2.2.1, by decide⟩

/-! ## Upload -/

/-- The upload route on a PDF that multer accepts, for an existing contract. -/
theorem uploadContractPdf_success (L : Lib) (cfg : Config) (now : Nat) (s : State) (c : Nat)
    (f : UploadedFile)
    (hm : f.mimetype = "application/pdf")
    (hsz : f.size < cfg.MAX_FILE_SIZE_MB * 1024 * 1024)
    (hex : contractExists s c = true)
    (hold : ∀ row, selectContractFile s c = some row → truthy row.upload_path = true →
      ∃ old, absUploadFromPublic L cfg row.upload_path = .ok old) :
    ∃ disk1 : Disk,
      uploadContractPdf L cfg now s c (some f) =
        ({ Response.plain 200 "Upload berhasil ✅" with
            path := some ("/uploads/" ++ L.encodeURIComponent (uploadFilename now f.originalname)) },
         { s with
           disk := disk1
           contract_files :=
             match selectContractFile s c with
             | some _ =>
               s.contract_files.map (fun r =>
                 if r.contract_id = c then
                   { r with
                     upload_path := some ("/uploads/" ++
                       L.encodeURIComponent (uploadFilename now f.originalname)) }
                 else r)
             | none =>
               s.contract_files ++
                 [{ contract_id := c,
                    upload_path := some ("/uploads/" ++
                      L.encodeURIComponent (uploadFilename now f.originalname)),
                    signed_path := none }]
           contracts := setContractStatus s.contracts c "in_progress" }) := by
  have hsz1 : ¬ cfg.MAX_FILE_SIZE_MB * 1024 * 1024 ≤ f.size := by omega
  have hex1 : ∀ d : Disk, contractExists { s with disk := d } c = true := fun _ => hex
  have hsel : ∀ d : Disk, selectContractFile { s with disk := d } c = selectContractFile s c :=
    fun _ => rfl
  simp only [uploadContractPdf, hm, ne_eq, not_true_eq_false, if_false, hsz1, hex1, hsel]
  cases hrow : selectContractFile s c with
  | none => exact ⟨_, rfl⟩
  | some row =>
    simp only
    by_cases hup : truthy row.upload_path = true
    · obtain ⟨old, hold1⟩ := hold row hrow hup
      simp only [hup, if_true, hold1]
      exact ⟨_, rfl⟩
    · simp only [hup, if_false]
      exact ⟨_, rfl⟩

/-- An upload whose file is not a PDF or whose size reaches the limit is refused by multer
with 400 or 413 before the handler runs: nothing is stored and no table changes. -/
theorem uploadContractPdf_refused (L : Lib) (cfg : Config) (now : Nat) (s : State) (c : Nat)
    (f : UploadedFile)
    (h : f.mimetype ≠ "application/pdf" ∨ cfg.MAX_FILE_SIZE_MB * 1024 * 1024 ≤ f.size) :
    (uploadContractPdf L cfg now s c (some f)).2 = s ∧
    (f.mimetype ≠ "application/pdf" → (uploadContractPdf L cfg now s c (some f)).1.status = 400) ∧
    (f.mimetype = "application/pdf" → (uploadContractPdf L cfg now s c (some f)).1.status = 413) := by
  by_cases hm : f.mimetype = "application/pdf"
  · have hsz : cfg.MAX_FILE_SIZE_MB * 1024 * 1024 ≤ f.size := by
      rcases h with h | h
      · exact absurd hm h
      · exact h
    simp [uploadContractPdf, hm, hsz, Response.plain]
  · simp [uploadContractPdf, hm, Response.plain]

/-- C12: for an existing contract, whatever its status, an upload of a PDF that multer accepts
(type `application/pdf`, size below the limit) answers 200, sets the record's `upload_path` to
the new file's public path and the contract's status to `in_progress`; for a contract id that
does not exist the same upload answers 404 and leaves the `contracts`, `contract_files` and
`approvals` tables as they were. -/
theorem upload_resets_to_in_progress (L : Lib) (cfg : Config) (now : Nat) (s : State) (c : Nat)
    (f : UploadedFile)
    (hm : f.mimetype = "application/pdf")
    (hsz : f.size < cfg.MAX_FILE_SIZE_MB * 1024 * 1024)
    (hold : ∀ row, selectContractFile s c = some row → truthy row.upload_path = true →
      ∃ old, absUploadFromPublic L cfg row.upload_path = .ok old) :
    (contractExists s c = true →
      (uploadContractPdf L cfg now s c (some f)).1.status = 200 ∧
      (uploadContractPdf L cfg now s c (some f)).1.path =
        some ("/uploads/" ++ L.encodeURIComponent (uploadFilename now f.originalname)) ∧
      (selectContractFile (uploadContractPdf L cfg now s c (some f)).2 c).map
          (fun r => r.upload_path) =
        some (some ("/uploads/" ++ L.encodeURIComponent (uploadFilename now f.originalname))) ∧
      contractStatus (uploadContractPdf L cfg now s c (some f)).2 c = some "in_progress" ∧
      (∀ r ∈ (uploadContractPdf L cfg now s c (some f)).2.contracts, r.id = c →
        r.status = "in_progress")) ∧
    (contractExists s c = false →
      (uploadContractPdf L cfg now s c (some f)).1.status = 404 ∧
      (uploadContractPdf L cfg now s c (some f)).2.contracts = s.contracts ∧
      (uploadContractPdf L cfg now s c (some f)).2.contract_files = s.contract_files ∧
      (uploadContractPdf L cfg now s c (some f)).2.approvals = s.approvals) := by
  constructor
  · intro hex
    obtain ⟨disk1, h⟩ := uploadContractPdf_success L cfg now s c f hm hsz hex hold
    rw [h]
    refine ⟨rfl, rfl, ?_, ?_, ?_⟩
    · cases hrow : selectContractFile s c with
      | none =>
        have hrow1 : List.find? (fun r => r.contract_id == c) s.contract_files = none := hrow
        simp only [selectContractFile]
        rw [List.find?_append, hrow1]
        simp
      | some row =>
        simp only [selectContractFile]
        rw [selectContractFile_map _ _ c (by intro r; split <;> rfl)]
        have hrow1 : List.find? (fun r => r.contract_id == c) s.contract_files = some row :=
          hrow
        rw [hrow1]
        simp [selectContractFile_id hrow]
    · obtain ⟨crow, hcrow⟩ := contractStatus_of_exists hex
      have := contractStatus_set s.contracts c c "in_progress"
      simp only [if_true, hcrow, Option.map_some'] at this
      simpa [contractStatus] using this
    · intro r hr hrid
      simp only [setContractStatus, List.mem_map] at hr
      obtain ⟨r0, _, hr0⟩ := hr
      subst hr0
      split
      · rfl
      · rename_i hne
        split at hrid
        · exact absurd hrid hne
        · exact absurd hrid hne
  · intro hex
    have hsz1 : ¬ cfg.MAX_FILE_SIZE_MB * 1024 * 1024 ≤ f.size := by omega
    have hex1 : ∀ d : Disk, contractExists { s with disk := d } c = false := fun _ => hex
    simp only [uploadContractPdf, hm, ne_eq, not_true_eq_false, if_false, hsz1, hex1,
      Bool.false_eq_true, not_false_eq_true, if_true, Response.plain, and_self]

/-- The size limit of the worked examples: a replacement of exactly 25 MiB is refused with
413 and changes nothing; one byte less is accepted. -/
theorem uploadContractPdf_at_limit :
    (uploadContractPdf demoLib demoConfig 6000 demoOwnerSigned 7
      (some { demoReplacement with size := 26214400 })).1.status = 413 ∧
    (uploadContractPdf demoLib demoConfig 6000 demoOwnerSigned 7
      (some { demoReplacement with size := 26214400 })).2 = demoOwnerSigned ∧
    (uploadContractPdf demoLib demoConfig 6000 demoOwnerSigned 7
      (some { demoReplacement with size := 26214399 })).1.status = 200 := by
  decide

/-- C12, worked example: contract 7 is `active_contract` once A and B have signed, and
`pending_approval` while both are pending; a replacement upload at time 6000 answers 200 and
sets it to `in_progress` with the new `upload_path` in both cases.  For contract 99, which does
not exist, the same upload answers 404 and changes no table. -/
theorem upload_resets_to_in_progress_example :
    (contractStatus demoBothSigned 7 = some "active_contract" ∧
      contractStatus
        (uploadContractPdf demoLib demoConfig 6000 demoBothSigned 7 (some demoReplacement)).2 7 =
        some "in_progress") ∧
    (contractStatus demoTwoPending 7 = some "pending_approval" ∧
      (uploadContractPdf demoLib demoConfig 6000 demoTwoPending 7 (some demoReplacement)).1.path =
        some "/uploads/6000-b.pdf" ∧
      contractStatus
        (uploadContractPdf demoLib demoConfig 6000 demoTwoPending 7 (some demoReplacement)).2 7 =
        some "in_progress") ∧
    ((uploadContractPdf demoLib demoConfig 6000 demoTwoPending 99 (some demoReplacement)).1.status
        = 404 ∧
      (uploadContractPdf demoLib demoConfig 6000 demoTwoPending 99 (some demoReplacement)).2.contracts
        = demoTwoPending.contracts ∧
      (uploadContractPdf demoLib demoConfig 6000 demoTwoPending 99
        (some demoReplacement)).2.contract_files = demoTwoPending.contract_files) := by
  have hrec : ∀ (s : State) (c : Nat),
      selectContractFile s c = some { contract_id := 7, upload_path := some "/uploads/1000-a.pdf",
                                       signed_path := none } →
      ∀ row, selectContractFile s c = some row → truthy row.upload_path = true →
        ∃ old, absUploadFromPublic demoLib demoConfig row.upload_path = .ok old := by
    intro s c h0 row hrow _
    rw [h0] at hrow
    cases hrow
    exact ⟨_, rfl⟩
  have h1 := (upload_resets_to_in_progress demoLib demoConfig 6000 demoBothSigned 7
    demoReplacement (by decide) (by decide) (hrec _ _ (by decide))).1 (by decide)
  have h2 := (upload_resets_to_in_progress demoLib demoConfig 6000 demoTwoPending 7
    demoReplacement (by decide) (by decide) (hrec _ _ (by decide))).1 (by decide)
  have h3 := (upload_resets_to_in_progress demoLib demoConfig 6000 demoTwoPending 99
    demoReplacement (by decide) (by decide)
    (by
      intro row hrow
      have h0 : selectContractFile demoTwoPending 99 = none := by decide
      rw [h0] at hrow
      cases hrow)).2 (by decide)
  exact ⟨⟨by decide, h1.2.2.2.1⟩, ⟨by decide, h2.2.1, h2.2.2.2.1⟩, ⟨h3.1, h3.2.1, h3.2.2.1⟩⟩

/-! ## Approver sign and the contract's file record -/

/-- C13: approver sign never writes a contract's file record: for every request, the
`contract_files` table (each `upload_path` and `signed_path`) is the same after the request
as before it, and every approval row with another id keeps all its fields, so the new
artifact's path goes to the signed approval's own row only. -/
theorem approver_sign_keeps_file_records (L : Lib) (cfg : Config) (now : Nat) (s : State)
    (approvalId : Nat) (p : SignPayload) :
    (signApproval L cfg now s approvalId p).2.contract_files = s.contract_files ∧
    (∀ c, selectContractFile (signApproval L cfg now s approvalId p).2 c =
      selectContractFile s c) ∧
    (∀ (i : Nat) (r : ApprovalRow), s.approvals[i]? = some r → r.id ≠ approvalId →
      (signApproval L cfg now s approvalId p).2.approvals[i]? = some r) := by
  rcases signApproval_shape L cfg now s approvalId p with h | ⟨a, _, _, path, cs, _, happ, _, hcf, _⟩
  · rw [h]
    exact ⟨rfl, fun _ => rfl, fun _ _ hi _ => hi⟩
  · refine ⟨hcf, ?_, ?_⟩
    · intro c
      unfold selectContractFile
      rw [hcf]
    · intro i r hi hne
      rw [happ, List.getElem?_map, hi]
      simp [hne]

/-- C13, worked example: when A signs in `demoTwoPending`, the artifact path lands on approval
1; the file record of contract 7 and approval 2 are as before. -/
theorem approver_sign_keeps_file_records_example :
    (selectApproval demoASigned 1).map (fun r => r.signed_path) =
      some (some "/storage/approval-1-contract-7-signed-2000.pdf") ∧
    selectContractFile demoASigned 7 =
      some { contract_id := 7, upload_path := some "/uploads/1000-a.pdf", signed_path := none } ∧
    demoASigned.contract_files = demoTwoPending.contract_files ∧
    demoASigned.approvals[1]? = demoTwoPending.approvals[1]? :=
  ⟨by decide, by decide,
   (approver_sign_keeps_file_records demoLib demoConfig 2000 demoTwoPending 1 demoPayload).1,
   by decide⟩

/-! ## Page selection -/

theorem composeLegacy_ok {L : Lib} {p : SignPayload} {pages : List Page} (idx : JsNum)
    (himg : validImage L p = true) {k : Nat} (hk : selectPage pages idx = some k) :
    ∃ st, composeSigned L (.pdf pages) idx p = .ok (.pdf (drawImage pages k st)) ∧
      composeLegacy L (.pdf pages) idx p = .ok (.pdf (drawImage pages k st)) := by
  obtain ⟨_, m1, m3, hm, hemb⟩ := validImage_spec himg
  simp only [composeSigned, composeLegacy, hm, hemb, hk]
  exact ⟨_, rfl, rfl⟩

theorem drawImage_getElem (pages : List Page) (k : Nat) (st : Stamp) (pg : Page)
    (hk : pages[k]? = some pg) :
    (drawImage pages k st)[k]? = some { pg with stamps := pg.stamps ++ [st] } ∧
    ∀ j, j ≠ k → (drawImage pages k st)[j]? = pages[j]? := by
  have hlt : k < pages.length := (List.getElem?_eq_some.mp hk).1
  simp only [drawImage, hk]
  refine ⟨?_, ?_⟩
  · rw [List.getElem?_set_self hlt]
  · intro j hj
    rw [List.getElem?_set_ne (Ne.symm hj)]

/-- C18: on a document with at least one page, the page a sign route draws on is
`pages[pageIndex]` when `pageIndex` is an integer with `0 ≤ pageIndex < pages.length` and
`pages[0]` for every other number (too large, negative, fractional); the selection never
fails, and with a valid image the three routes' compositors return the document with the
stamp added to that page and every other page untouched. -/
theorem page_selection_falls_back (pages : List Page) (hne : pages ≠ []) :
    (∀ i : Int, 0 ≤ i → i.toNat < pages.length → selectPage pages (.int i) = some i.toNat) ∧
    (∀ i : Int, ¬ (0 ≤ i ∧ i.toNat < pages.length) → selectPage pages (.int i) = some 0) ∧
    selectPage pages .other = some 0 ∧
    (∀ idx : JsNum, ∃ k pg, selectPage pages idx = some k ∧ pages[k]? = some pg ∧
      ∀ (L : Lib) (p : SignPayload), validImage L p = true →
        ∃ st, composeSigned L (.pdf pages) idx p = .ok (.pdf (drawImage pages k st)) ∧
          composeLegacy L (.pdf pages) idx p = .ok (.pdf (drawImage pages k st)) ∧
          (drawImage pages k st)[k]? = some { pg with stamps := pg.stamps ++ [st] } ∧
          ∀ j, j ≠ k → (drawImage pages k st)[j]? = pages[j]?) := by
  have hlen : 0 < pages.length := List.length_pos.mpr hne
  refine ⟨?_, ?_, ?_, ?_⟩
  · intro i h0 h1
    simp [selectPage, pageAt, h0, h1]
  · intro i h
    simp [selectPage, pageAt, h, hlen]
  · simp [selectPage, pageAt, hlen]
  · intro idx
    obtain ⟨k, hk, hklt⟩ := selectPage_isSome hne idx
    refine ⟨k, pages[k], hk, List.getElem?_eq_getElem hklt, ?_⟩
    intro L p himg
    obtain ⟨st, h1, h2⟩ := composeLegacy_ok idx himg hk
    obtain ⟨h3, h4⟩ := drawImage_getElem pages k st pages[k] (List.getElem?_eq_getElem hklt)
    exact ⟨st, h1, h2, h3, h4⟩

/-- C18, worked example: `pageIndex` 99, -1 or a fraction on a one-page document selects page
0, and owner sign of contract 7 (one page) with `pageIndex` 99 answers 200 with the stamp on
page 0. -/
theorem page_selection_falls_back_example :
    selectPage [{ content := "page one", stamps := [] }] (.int 99) = some 0 ∧
    selectPage [{ content := "page one", stamps := [] }] (.int (-1)) = some 0 ∧
    selectPage [{ content := "page one", stamps := [] }] .other = some 0 ∧
    selectPage [{ content := "p1", stamps := [] }, { content := "p2", stamps := [] }] (.int 1) =
      some 1 ∧
    (signContract demoLib demoConfig 2000 demoUploaded 7 demoPayloadPage99).1.status = 200 ∧
    (readFileSync (signContract demoLib demoConfig 2000 demoUploaded 7 demoPayloadPage99).2.disk
        "/srv/storage/contract-7-signed-2000.pdf").map
      (fun c => match c with
        | .pdf pgs => pgs.map (fun pg => pg.stamps.length)
        | .corrupt _ => []) = some [1] :=
  ⟨(page_selection_falls_back [{ content := "page one", stamps := [] }] (by decide)).2.1 99
      (by decide),
   (page_selection_falls_back [{ content := "page one", stamps := [] }] (by decide)).2.1 (-1)
      (by decide),
   (page_selection_falls_back [{ content := "page one", stamps := [] }] (by decide)).2.2.1,
   by decide, by decide, by decide⟩

/-! ## Unsupported and undecodable images -/

/-- C19: when the source document is resolvable (on disk and parsed by pdf-lib) and the
non-empty `imageDataUrl` does not match the pattern for a PNG or JPEG data URI, each of the
three sign routes (filename-addressed, owner, approver) answers 400 and returns the state
unchanged: no contract status, file reference, approval or file is touched. -/
theorem unsupported_image_is_rejected (L : Lib) (cfg : Config) (now : Nat) (s : State)
    (p : SignPayload) (pageIndex : JsNum)
    (hpi : p.pageIndex = some pageIndex)
    (htr : truthy p.imageDataUrl = true)
    (hno : matchImageDataUrl (orEmpty p.imageDataUrl) = none)
    (filename : Option String) (pagesL : List Page)
    (hfn : truthy filename = true)
    (hsrcL : readFileSync s.disk (L.join cfg.UPLOADS_DIR (L.basename (orEmpty filename))) =
      some (.pdf pagesL))
    (c : Nat) (row : ContractFileRow) (srcO : String) (pagesO : List Page)
    (hsrcO : ownerSignSource L cfg s c = .ok (row, srcO))
    (hfileO : readFileSync s.disk srcO = some (.pdf pagesO))
    (approvalId : Nat) (a : ApprovalRow) (srcA : String) (pagesA : List Page)
    (ha : selectApproval s approvalId = some a)
    (hsrcA : getContractPdfSourceAbs L cfg s a.contract_id = .ok (some srcA))
    (hneA : srcA ≠ "")
    (hfileA : readFileSync s.disk srcA = some (.pdf pagesA)) :
    ((signPdfLegacy L cfg now s filename p).1.status = 400 ∧
      (signPdfLegacy L cfg now s filename p).2 = s) ∧
    ((signContract L cfg now s c p).1.status = 400 ∧ (signContract L cfg now s c p).2 = s) ∧
    ((signApproval L cfg now s approvalId p).1.status = 400 ∧
      (signApproval L cfg now s approvalId p).2 = s) := by
  refine ⟨?_, ?_, ?_⟩
  · simp only [signPdfLegacy, hfn, not_true_eq_false, if_false, hpi, htr, hsrcL, composeLegacy,
      hno, Response.plain, and_self]
  · simp only [signContract, hpi, htr, not_true_eq_false, if_false, hsrcO, hfileO,
      composeSigned, hno, Response.plain, and_self]
  · by_cases hid : approvalId = 0
    · simp only [signApproval, hid, if_true, Response.plain, and_self]
    · by_cases hst : a.status = "rejected"
      · simp only [signApproval, hid, if_false, hpi, htr, not_true_eq_false, ha, hst, if_true,
          Response.plain, and_self]
      · simp only [signApproval, hid, if_false, hpi, htr, not_true_eq_false, ha, hst, hsrcA,
          hneA, hfileA, composeSigned, hno, Response.plain, and_self]

/-- C19, worked example: a GIF data URI is refused with 400 by the filename-addressed route
(file `1000-a.pdf`), by owner sign of contract 7 and by approver sign of approval 1, and the
state stays `demoTwoPending`; the PNG prefix written in capitals does match the pattern. -/
theorem unsupported_image_is_rejected_example :
    ((signPdfLegacy demoLib demoConfig 2000 demoTwoPending (some "1000-a.pdf")
        demoPayloadGif).1.status = 400 ∧
      (signPdfLegacy demoLib demoConfig 2000 demoTwoPending (some "1000-a.pdf")
        demoPayloadGif).2 = demoTwoPending) ∧
    ((signContract demoLib demoConfig 2000 demoTwoPending 7 demoPayloadGif).1.status = 400 ∧
      (signContract demoLib demoConfig 2000 demoTwoPending 7 demoPayloadGif).2 =
        demoTwoPending) ∧
    ((signApproval demoLib demoConfig 2000 demoTwoPending 1 demoPayloadGif).1.status = 400 ∧
      (signApproval demoLib demoConfig 2000 demoTwoPending 1 demoPayloadGif).2 =
        demoTwoPending) ∧
    (matchImageDataUrl "DATA:IMAGE/PNG;BASE64,iVBORw0KGgo=").isSome = true ∧
    (signPdfLegacy demoLib demoConfig 2000 demoTwoPending (some "1000-a.pdf")
        demoPayload).1.status = 200 :=
  have h := unsupported_image_is_rejected demoLib demoConfig 2000 demoTwoPending demoPayloadGif
    (.int 0) (by decide) (by decide) (by decide)
    (some "1000-a.pdf") [{ content := "page one", stamps := [] }] (by decide) (by decide)
    7 { contract_id := 7, upload_path := some "/uploads/1000-a.pdf", signed_path := none }
    "/srv/uploads/1000-a.pdf" [{ content := "page one", stamps := [] }] rfl (by decide)
    1 { id := 1, contract_id := 7, approver_id := 9, status := "pending", notes := none,
        signed_path := none, signed_at := none }
    "/srv/uploads/1000-a.pdf" [{ content := "page one", stamps := [] }]
    (by decide) rfl (by decide) (by decide)
  ⟨h.1, h.2.1, h.2.2, by decide, by decide⟩

/-- The status of `handleMysqlError` for an error that carries none of the MySQL codes the
function answers with 409 or 400. -/
theorem handleMysqlError_status_500 (e : JsError) (m : String)
    (h1 : e.code ≠ "ER_DUP_ENTRY") (h2 : e.code ≠ "ER_NO_REFERENCED_ROW_2") :
    (handleMysqlError e m).status = 500 := by
  unfold handleMysqlError
  simp only [h1, h2, if_false]
  split <;> rfl

/-- C20 as the code has it: when the data URI matches the pattern but the embedder throws on
its bytes, owner sign and approver sign answer through their `catch` block, that is with
`handleMysqlError` of the thrown error, whose status is 500 for an error without a MySQL code;
the state is returned unchanged. -/
theorem undecodable_image_is_server_error (L : Lib) (cfg : Config) (now : Nat) (s : State)
    (p : SignPayload) (pageIndex : JsNum) (m1 m3 : String) (e : JsError)
    (hpi : p.pageIndex = some pageIndex)
    (hm : matchImageDataUrl (orEmpty p.imageDataUrl) = some (m1, m3))
    (hemb : (if lowerAscii m1 = "image/png" then L.embedPng m3 else L.embedJpg m3) = .error e)
    (c : Nat) (row : ContractFileRow) (srcO : String) (pagesO : List Page)
    (hsrcO : ownerSignSource L cfg s c = .ok (row, srcO))
    (hfileO : readFileSync s.disk srcO = some (.pdf pagesO))
    (approvalId : Nat) (a : ApprovalRow) (srcA : String) (pagesA : List Page)
    (hid : approvalId ≠ 0)
    (ha : selectApproval s approvalId = some a)
    (hst : a.status ≠ "rejected")
    (hsrcA : getContractPdfSourceAbs L cfg s a.contract_id = .ok (some srcA))
    (hneA : srcA ≠ "")
    (hfileA : readFileSync s.disk srcA = some (.pdf pagesA)) :
    signContract L cfg now s c p = (handleMysqlError e "Server error", s) ∧
    signApproval L cfg now s approvalId p = (handleMysqlError e "Server error", s) ∧
    (e.code ≠ "ER_DUP_ENTRY" → e.code ≠ "ER_NO_REFERENCED_ROW_2" →
      (signContract L cfg now s c p).1.status = 500 ∧
      (signApproval L cfg now s approvalId p).1.status = 500) := by
  have htr := matchImageDataUrl_truthy hm
  have h1 : signContract L cfg now s c p = (handleMysqlError e "Server error", s) := by
    simp only [signContract, hpi, htr, not_true_eq_false, if_false, hsrcO, hfileO,
      composeSigned, hm, hemb]
  have h2 : signApproval L cfg now s approvalId p = (handleMysqlError e "Server error", s) := by
    simp only [signApproval, hid, if_false, hpi, htr, not_true_eq_false, ha, hst, hsrcA,
      hneA, hfileA, composeSigned, hm, hemb]
  refine ⟨h1, h2, ?_⟩
  intro hc1 hc2
  rw [h1, h2]
  exact ⟨handleMysqlError_status_500 e _ hc1 hc2, handleMysqlError_status_500 e _ hc1 hc2⟩

/-- C20, worked example: the PNG prefix with an empty base64 part, sent to owner sign of
contract 7 and to approver sign of approval 1 in `demoTwoPending`: both answer 500 and keep
the state. -/
theorem undecodable_image_is_server_error_example :
    (signContract demoLib demoConfig 2000 demoTwoPending 7 demoPayloadEmptyPng).1.status = 500 ∧
    (signApproval demoLib demoConfig 2000 demoTwoPending 1 demoPayloadEmptyPng).1.status = 500 ∧
    (signContract demoLib demoConfig 2000 demoTwoPending 7 demoPayloadEmptyPng).2 =
      demoTwoPending ∧
    (signApproval demoLib demoConfig 2000 demoTwoPending 1 demoPayloadEmptyPng).2 =
      demoTwoPending := by
  have h := undecodable_image_is_server_error demoLib demoConfig 2000 demoTwoPending
    demoPayloadEmptyPng (.int 0) "image/png" ""
    { code := "", message := "The input is not a PNG file!" }
    (by decide) (by decide) rfl
    7 { contract_id := 7, upload_path := some "/uploads/1000-a.pdf", signed_path := none }
    "/srv/uploads/1000-a.pdf" [{ content := "page one", stamps := [] }] rfl (by decide)
    1 { id := 1, contract_id := 7, approver_id := 9, status := "pending", notes := none,
        signed_path := none, signed_at := none }
    "/srv/uploads/1000-a.pdf" [{ content := "page one", stamps := [] }]
    (by decide) (by decide) (by decide) rfl (by decide) (by decide)
  obtain ⟨h1, h2, h3⟩ := h
  obtain ⟨h4, h5⟩ := h3 (by decide) (by decide)
  refine ⟨h4, h5, ?_, ?_⟩
  · rw [h1]
  · rw [h2]

/-- C20 fails as stated: an empty base64 part behind the PNG prefix, and bytes that are no
JPEG behind the JPEG prefix, make owner sign and approver sign answer 500, which is not a
client-error status. -/
theorem undecodable_image_answers_500 :
    (matchImageDataUrl "data:image/png;base64,").isSome = true ∧
    (signContract demoLib demoConfig 2000 demoTwoPending 7 demoPayloadEmptyPng).1.status = 500 ∧
    (signApproval demoLib demoConfig 2000 demoTwoPending 1 demoPayloadEmptyPng).1.status = 500 ∧
    (signContract demoLib demoConfig 2000 demoTwoPending 7 demoPayloadBadJpeg).1.status = 500 ∧
    (signApproval demoLib demoConfig 2000 demoTwoPending 1 demoPayloadBadJpeg).1.status = 500 ∧
    ¬ (400 ≤ (signContract demoLib demoConfig 2000 demoTwoPending 7
          demoPayloadEmptyPng).1.status ∧
        (signContract demoLib demoConfig 2000 demoTwoPending 7
          demoPayloadEmptyPng).1.status < 500) := by
  decide

/-! ## The coordinate mapper -/

/-- The placement `placeSignatureOverlay` pushes when its guards pass. -/
theorem placeSignatureOverlay_push {α : Type} [Sub α] [Div α] [NatCast α]
    (st : OverlayState α) (pageIndex : Nat) (canvas : PageCanvas α) (viewport : Viewport α)
    (clickX clickY : α) (hpng : truthy st.pngDataUrl = true) (hpen : st.penMode = true)
    (w : Nat) (hw : canvas.parentElement = some w) :
    placeSignatureOverlay st pageIndex canvas viewport clickX clickY =
      { st with
        sigStack := st.sigStack ++
          [{ pageIndex := pageIndex, pdfX := clickX / viewport.scale,
             pdfY := (canvas.height - clickY - (SIG_H_PX : α)) / viewport.scale,
             pdfW := (SIG_W_PX : α) / viewport.scale,
             pdfH := (SIG_H_PX : α) / viewport.scale, domEl := st.nextEl }]
        redoStack := []
        attached := st.attached ++ [st.nextEl]
        nextEl := st.nextEl + 1 } := by
  simp only [placeSignatureOverlay, hpng, hpen, not_true_eq_false, if_false, hw]

/-- C14: with a PNG chosen, pen mode on and the canvas inside its page wrapper,
`placeSignatureOverlay` records, for every scale (so for every scale > 0), canvas height and
click point, the placement `pdfX = clickX / scale`,
`pdfY = (canvasHeight - clickY - stampH) / scale`, `pdfW = stampW / scale`,
`pdfH = stampH / scale` with the fixed stamp size 170 by 70 pixels, in whatever arithmetic
the numbers live. -/
theorem placement_is_scaled_click {α : Type} [Sub α] [Div α] [NatCast α]
    (st : OverlayState α) (pageIndex : Nat) (canvas : PageCanvas α) (viewport : Viewport α)
    (clickX clickY : α) (hpng : truthy st.pngDataUrl = true) (hpen : st.penMode = true)
    (w : Nat) (hw : canvas.parentElement = some w) :
    SIG_W_PX = 170 ∧ SIG_H_PX = 70 ∧
    (placeSignatureOverlay st pageIndex canvas viewport clickX clickY).sigStack =
      st.sigStack ++
        [{ pageIndex := pageIndex, pdfX := clickX / viewport.scale,
           pdfY := (canvas.height - clickY - ((70 : Nat) : α)) / viewport.scale,
           pdfW := ((170 : Nat) : α) / viewport.scale,
           pdfH := ((70 : Nat) : α) / viewport.scale, domEl := st.nextEl }] := by
  rw [placeSignatureOverlay_push st pageIndex canvas viewport clickX clickY hpng hpen w hw]
  exact ⟨rfl, rfl, rfl⟩

/-- C14, worked example: a click at (100, 200) on a canvas 990 pixels high rendered at scale
1.25 records the placement x = 80, y = 576, width = 136, height = 56. -/
theorem placement_is_scaled_click_example :
    (placeSignatureOverlay demoOverlay 0 demoCanvas { scale := 5 / 4 } 100 200).sigStack =
      [{ pageIndex := 0, pdfX := 80, pdfY := 576, pdfW := 136, pdfH := 56, domEl := 0 }] := by
  have h := (placement_is_scaled_click demoOverlay 0 demoCanvas { scale := 5 / 4 } 100 200
    (by decide) (by decide) 0 rfl).2.2
  rw [h]
  simp only [demoOverlay, demoCanvas, List.nil_append]
  norm_num

/-- C15: for every scale > 0, canvas height > 0 and click point, the placement that
`placeSignatureOverlay` records satisfies, in exact (rational) arithmetic,
`pdfY + pdfH = (canvasHeight - clickY) / scale`. -/
theorem placement_top_edge_is_flipped_click (st : OverlayState ℚ) (pageIndex : Nat)
    (canvas : PageCanvas ℚ) (viewport : Viewport ℚ) (clickX clickY : ℚ)
    (hscale : 0 < viewport.scale) (_hheight : 0 < canvas.height)
    (hpng : truthy st.pngDataUrl = true) (hpen : st.penMode = true)
    (w : Nat) (hw : canvas.parentElement = some w) :
    ∃ pl, (placeSignatureOverlay st pageIndex canvas viewport clickX clickY).sigStack =
        st.sigStack ++ [pl] ∧
      pl.pdfY + pl.pdfH = (canvas.height - clickY) / viewport.scale := by
  rw [placeSignatureOverlay_push st pageIndex canvas viewport clickX clickY hpng hpen w hw]
  refine ⟨_, rfl, ?_⟩
  have hne : viewport.scale ≠ 0 := ne_of_gt hscale
  simp only [SIG_H_PX]
  field_simp

/-- C15, worked example: for the click at (100, 200) on the canvas 990 pixels high at scale
1.25, the recorded `pdfY + pdfH` is 632, which is (990 - 200) / 1.25. -/
theorem placement_top_edge_example :
    (∃ pl, (placeSignatureOverlay demoOverlay 0 demoCanvas { scale := 5 / 4 } 100 200).sigStack =
        demoOverlay.sigStack ++ [pl] ∧
      pl.pdfY + pl.pdfH = (demoCanvas.height - 200) / (5 / 4)) ∧
    ((990 : ℚ) - 200) / (5 / 4) = 632 :=
  ⟨placement_top_edge_is_flipped_click demoOverlay 0 demoCanvas { scale := 5 / 4 } 100 200
      (by norm_num) (by norm_num [demoCanvas]) (by decide) (by decide) 0 rfl,
   by norm_num⟩

/-! ## The standalone page sends pixels -/

theorem jsRound_intCast (n : Int) : jsRound (n : ℚ) = n := by
  unfold jsRound
  rw [Int.floor_eq_iff]
  constructor
  · linarith
  · linarith

/-- C16 on the code: for one drawn object with bounding box left 150, top 75, width 300,
height 60 on a canvas 1188 pixels high (a page 792 points high at `currentScale` 1.5), the
place button sends x = 150, y = 1053, width = 300, height = 60, the pixel values; the
rectangle in PDF points would be x = 100, y = 702, width = 200, height = 40. -/
theorem place_button_sends_pixels :
    placeButtonRect [{ left := 150, top := 75, width := 300, height := 60 }] 1188 =
      some { x := 150, y := 1053, width := 300, height := 60 } ∧
    currentScale = 3 / 2 ∧
    (150 : ℚ) / currentScale = 100 ∧
    ((1188 : ℚ) - 75 - 60) / currentScale = 702 ∧
    (300 : ℚ) / currentScale = 200 ∧
    (60 : ℚ) / currentScale = 40 := by
  have h1 := jsRound_intCast 150
  have h2 := jsRound_intCast 1053
  have h3 := jsRound_intCast 300
  have h4 := jsRound_intCast 60
  norm_num at h1 h2 h3 h4
  refine ⟨?_, rfl, ?_, ?_, ?_, ?_⟩
  · simp only [placeButtonRect, getDrawnBounds, List.foldl_nil]
    norm_num [h1, h2, h3, h4]
  all_goals norm_num [currentScale]

/-! ## The scale is not checked -/

/-- C17 as the code has it: `placeSignatureOverlay` neither rejects nor clamps the scale.  For
every negative scale, when its guards pass, it records the placement computed by dividing by
that scale, so the recorded width and height are negative; its one call site, the canvas
click listener, passes the scale 1.25 the page was rendered with. -/
theorem scale_is_not_checked (st : OverlayState ℚ) (pageIndex : Nat) (canvas : PageCanvas ℚ)
    (viewport : Viewport ℚ) (clickX clickY : ℚ) (hscale : viewport.scale < 0)
    (hpng : truthy st.pngDataUrl = true) (hpen : st.penMode = true)
    (w : Nat) (hw : canvas.parentElement = some w) :
    (∃ pl, (placeSignatureOverlay st pageIndex canvas viewport clickX clickY).sigStack =
        st.sigStack ++ [pl] ∧
      pl.pdfX = clickX / viewport.scale ∧
      pl.pdfY = (canvas.height - clickY - 70) / viewport.scale ∧
      pl.pdfW = 170 / viewport.scale ∧ pl.pdfH = 70 / viewport.scale ∧
      pl.pdfW < 0 ∧ pl.pdfH < 0) ∧
    canvasClick st pageIndex canvas clickX clickY =
      placeSignatureOverlay st pageIndex canvas { scale := 5 / 4 } clickX clickY ∧
    (0 : ℚ) < renderScale := by
  rw [placeSignatureOverlay_push st pageIndex canvas viewport clickX clickY hpng hpen w hw]
  refine ⟨⟨_, rfl, rfl, ?_, ?_, ?_, ?_, ?_⟩, rfl, by norm_num [renderScale]⟩
  · simp [SIG_H_PX]
  · simp [SIG_W_PX]
  · simp [SIG_H_PX]
  · simp only [SIG_W_PX]
    exact div_neg_of_pos_of_neg (by norm_num) hscale
  · simp only [SIG_H_PX]
    exact div_neg_of_pos_of_neg (by norm_num) hscale

/-- C17, worked example: at scale -1 the click at (100, 200) is recorded with width -170 and
height -70. -/
theorem scale_is_not_checked_example :
    ∃ pl, (placeSignatureOverlay demoOverlay 0 demoCanvas { scale := -1 } 100 200).sigStack =
        demoOverlay.sigStack ++ [pl] ∧
      pl.pdfW < 0 ∧ pl.pdfH < 0 := by
  obtain ⟨⟨pl, h1, _, _, _, _, h2, h3⟩, _⟩ := scale_is_not_checked demoOverlay 0 demoCanvas
    { scale := -1 } 100 200 (by norm_num) (by decide) (by decide) 0 rfl
  exact ⟨pl, h1, h2, h3⟩

/-- C17 fails as stated: at scale -1, which is not positive, `placeSignatureOverlay` records a
placement, and its width -170 is the result of dividing by -1: no positive scale gives it. -/
theorem negative_scale_is_used :
    (placeSignatureOverlay demoOverlay 0 demoCanvas { scale := -1 } 100 200).sigStack =
      [{ pageIndex := 0, pdfX := -100, pdfY := -720, pdfW := -170, pdfH := -70, domEl := 0 }] ∧
    (∀ k : ℚ, 0 < k → (170 : ℚ) / k ≠ -170) := by
  constructor
  · rw [placeSignatureOverlay_push demoOverlay 0 demoCanvas { scale := -1 } 100 200
      (by decide) (by decide) 0 rfl]
    simp only [demoOverlay, demoCanvas, List.nil_append, SIG_W_PX, SIG_H_PX]
    norm_num
  · intro k hk h
    have hpos : (0 : ℚ) < 170 / k := div_pos (by norm_num) hk
    rw [h] at hpos
    norm_num at hpos

/-! ## Status names -/

theorem normalizeStatus_of_text (input : Option String) :
    normalizeStatus input =
      (if lowerAscii (jsTrim (orEmpty input)) = "pending approval" ∨
          lowerAscii (jsTrim (orEmpty input)) = "pending_approval" then "pending_approval"
       else if lowerAscii (jsTrim (orEmpty input)) = "in progress" ∨
          lowerAscii (jsTrim (orEmpty input)) = "in_progress" then "in_progress"
       else if lowerAscii (jsTrim (orEmpty input)) = "expiring soon" ∨
          lowerAscii (jsTrim (orEmpty input)) = "expiring_soon" then "expiring_soon"
       else if lowerAscii (jsTrim (orEmpty input)) = "active contract" ∨
          lowerAscii (jsTrim (orEmpty input)) = "active_contract" then "active_contract"
       else "draft") := by
  simp only [normalizeStatus]
  repeat' split
  all_goals rfl

theorem normalizeStatus_unrecognised (input : Option String)
    (h : lowerAscii (jsTrim (orEmpty input)) ∉ recognisedStatusTexts) :
    normalizeStatus input = "draft" := by
  simp only [recognisedStatusTexts, List.mem_cons, List.mem_singleton, List.not_mem_nil,
    or_false, not_or] at h
  obtain ⟨h1, h2, h3, h4, h5, h6, h7, h8⟩ := h
  rw [normalizeStatus_of_text]
  simp only [h1, h2, h3, h4, h5, h6, h7, h8, or_self, if_false]

/-- C22: `normalizeStatus` maps every input into the closed set of five statuses; its value
depends only on the trimmed, lower-cased text, so a spaced label and its underscore form give
the same status in any letter case and with any surrounding white space; every text it does
not recognise, the empty text and a missing input give `draft`. -/
theorem normalizeStatus_closed_set (input : Option String) :
    normalizeStatus input ∈ contractStatuses ∧
    (∀ other : Option String,
      lowerAscii (jsTrim (orEmpty other)) = lowerAscii (jsTrim (orEmpty input)) →
      normalizeStatus other = normalizeStatus input) ∧
    ((lowerAscii (jsTrim (orEmpty input)) = "pending approval" ∨
        lowerAscii (jsTrim (orEmpty input)) = "pending_approval") →
      normalizeStatus input = "pending_approval") ∧
    ((lowerAscii (jsTrim (orEmpty input)) = "in progress" ∨
        lowerAscii (jsTrim (orEmpty input)) = "in_progress") →
      normalizeStatus input = "in_progress") ∧
    ((lowerAscii (jsTrim (orEmpty input)) = "expiring soon" ∨
        lowerAscii (jsTrim (orEmpty input)) = "expiring_soon") →
      normalizeStatus input = "expiring_soon") ∧
    ((lowerAscii (jsTrim (orEmpty input)) = "active contract" ∨
        lowerAscii (jsTrim (orEmpty input)) = "active_contract") →
      normalizeStatus input = "active_contract") ∧
    (lowerAscii (jsTrim (orEmpty input)) ∉ recognisedStatusTexts →
      normalizeStatus input = "draft") ∧
    normalizeStatus none = "draft" ∧ normalizeStatus (some "") = "draft" := by
  refine ⟨?_, ?_, ?_, ?_, ?_, ?_, normalizeStatus_unrecognised input, by decide, by decide⟩
  · rw [normalizeStatus_of_text]
    repeat' split
    all_goals simp [contractStatuses]
  · intro other h
    rw [normalizeStatus_of_text, normalizeStatus_of_text, h]
  · intro h
    rw [normalizeStatus_of_text]
    simp only [h, if_true]
  · intro h
    rw [normalizeStatus_of_text]
    rcases h with h | h <;> simp [h]
  · intro h
    rw [normalizeStatus_of_text]
    rcases h with h | h <;> simp [h]
  · intro h
    rw [normalizeStatus_of_text]
    rcases h with h | h <;> simp [h]

/-- C22, worked example: `Pending Approval`, `pending_approval` and the same in capitals with
white space around give `pending_approval`; an unknown word, the empty text and a missing
input give `draft`. -/
theorem normalizeStatus_closed_set_example :
    normalizeStatus (some "Pending Approval") = "pending_approval" ∧
    normalizeStatus (some "pending_approval") = "pending_approval" ∧
    normalizeStatus (some "  PENDING_APPROVAL\n") = "pending_approval" ∧
    normalizeStatus (some " In Progress ") = "in_progress" ∧
    normalizeStatus (some "Expiring Soon") = "expiring_soon" ∧
    normalizeStatus (some "ACTIVE CONTRACT") = "active_contract" ∧
    normalizeStatus (some "archived") = "draft" ∧
    normalizeStatus (some "   ") = "draft" ∧
    normalizeStatus none = "draft" :=
  ⟨((normalizeStatus_closed_set (some "Pending Approval")).2.2.1) (Or.inl (by decide)),
   by decide, by decide, by decide, by decide, by decide,
   (normalizeStatus_closed_set (some "archived")).2.2.2.2.2.2.1 (by decide),
   by decide, by decide⟩

/-! ## Contract update -/

theorem find_contract_map (cs : List ContractRow) (c : Nat) (f : ContractRow → ContractRow)
    (hf : ∀ x, (f x).id = x.id) :
    (cs.map f).find? (fun x => x.id == c) = (cs.find? (fun x => x.id == c)).map f := by
  have hp : ((fun x : ContractRow => x.id == c) ∘ f) = (fun x : ContractRow => x.id == c) := by
    funext x
    simp only [Function.comp, hf]
  rw [List.find?_map, hp]

theorem pick_single (body : Body) (k : String) :
    pick body [k] =
      match body.lookup k with
      | some v => if jsTrim v ≠ "" then some v else none
      | none => none := by
  simp only [pick]

theorem normalizeStatus_pick_draft (body : Body) (h : noRecognisedStatus body) :
    normalizeStatus (pick body ["status"]) = "draft" := by
  rw [pick_single]
  rcases h with h | ⟨v, hv, h | h⟩
  · rw [h]
    decide
  · rw [hv]
    simp only [h, ne_eq, not_true_eq_false, if_false]
    decide
  · rw [hv]
    by_cases hb : jsTrim v = ""
    · simp only [hb, ne_eq, not_true_eq_false, if_false]
      decide
    · simp only [hb, ne_eq, not_false_eq_true, if_true]
      exact normalizeStatus_unrecognised (some v) h

theorem updateContract_contracts (s : State) (id : Nat) (body : Body) (hid : id ≠ 0) :
    (updateContract s id body none).2.contracts =
      s.contracts.map (fun c =>
        if c.id = id then
          { c with
            title := jsTrim (orEmpty (pick body ["title", "contract_title"]))
            vendor := jsTrim (orEmpty (pick body ["vendor", "vendor_name"]))
            contract_code :=
              jsTrim (orEmpty (pick body ["contractId", "contract_id", "contract_code"]))
            status := normalizeStatus (pick body ["status"]) }
        else c) := by
  simp only [updateContract, hid, if_false]
  split <;> rfl

theorem updateContract_status (s : State) (id : Nat) (body : Body) (hid : id ≠ 0) (c : Nat) :
    contractStatus (updateContract s id body none).2 c =
      if c = id then (contractStatus s c).map (fun _ => normalizeStatus (pick body ["status"]))
      else contractStatus s c := by
  simp only [contractStatus, updateContract_contracts s id body hid]
  rw [find_contract_map]
  · cases hf : s.contracts.find? (fun x => x.id == c) with
    | none => simp
    | some row =>
      have hrow : row.id = c := by simpa using List.find?_some hf
      by_cases hc : c = id
      · simp [hc, hrow ▸ hc]
      · have : ¬ row.id = id := by rw [hrow]; exact hc
        simp [hc, this]
  · intro x
    split <;> rfl

theorem updateContract_answer (s : State) (id : Nat) (body : Body) (hid : id ≠ 0)
    (hex : contractExists s id = true) :
    (updateContract s id body none).1.status = 200 ∧
    (updateContract s id body none).1.contract.map (fun v => v.status) =
      some (statusLabel (normalizeStatus (pick body ["status"]))) := by
  obtain ⟨row, hrow, hrid⟩ : ∃ row, s.contracts.find? (fun x => x.id == id) = some row ∧
      row.id = id := by
    cases hf : s.contracts.find? (fun x => x.id == id) with
    | none =>
      rw [List.find?_eq_none] at hf
      simp only [contractExists, List.any_eq_true] at hex
      obtain ⟨x, hx, hxid⟩ := hex
      exact absurd hxid (hf x hx)
    | some row => exact ⟨row, rfl, by simpa using List.find?_some hf⟩
  simp only [updateContract, hid, if_false]
  rw [find_contract_map _ _ _ (by intro x; split <;> rfl), hrow]
  simp [ContractAnswer.plain, mapContractRow, hrid]

/-- C29: a contract update with a valid id that MySQL accepts, whose body has no status
field, a blank one or an unrecognised one, sets the status of the contract with that id to
`draft`, whatever it was; for an existing contract the answer is 200 and shows `Draft`. -/
theorem update_without_status_sets_draft (s : State) (id : Nat) (body : Body) (hid : id ≠ 0)
    (hbody : noRecognisedStatus body) :
    (∀ c ∈ (updateContract s id body none).2.contracts, c.id = id → c.status = "draft") ∧
    contractStatus (updateContract s id body none).2 id =
      (contractStatus s id).map (fun _ => "draft") ∧
    (contractExists s id = true →
      (updateContract s id body none).1.status = 200 ∧
      contractStatus (updateContract s id body none).2 id = some "draft" ∧
      (updateContract s id body none).1.contract.map (fun v => v.status) = some "Draft") := by
  have hd := normalizeStatus_pick_draft body hbody
  have hst := updateContract_status s id body hid id
  rw [if_pos rfl, hd] at hst
  refine ⟨?_, hst, ?_⟩
  · intro c hc hcid
    rw [updateContract_contracts s id body hid, List.mem_map] at hc
    obtain ⟨x, _, hx⟩ := hc
    by_cases hxid : x.id = id
    · rw [if_pos hxid] at hx
      rw [← hx]
      exact hd
    · rw [if_neg hxid] at hx
      rw [← hx] at hcid
      exact absurd hcid hxid
  · intro hex
    obtain ⟨h200, hview⟩ := updateContract_answer s id body hid hex
    refine ⟨h200, ?_, ?_⟩
    · rw [hst]
      obtain ⟨st, hs⟩ := contractStatus_of_exists hex
      simp only [contractStatus, hs, Option.map_some']
    · rw [hview, hd]
      rfl

/-- C29, worked example: contract 7 is `active_contract` after its owner signed; an update
that edits title, vendor and code and names no status leaves it `draft`. -/
theorem update_without_status_sets_draft_example :
    contractStatus demoOwnerSigned 7 = some "active_contract" ∧
    contractStatus (updateContract demoOwnerSigned 7 demoEditBody none).2 7 = some "draft" ∧
    (updateContract demoOwnerSigned 7 demoEditBody none).1.status = 200 :=
  have h := (update_without_status_sets_draft demoOwnerSigned 7 demoEditBody (by decide)
    (Or.inl (by decide))).2.2 (by decide)
  ⟨by decide, h.2.1, h.1⟩

/-! ## What else writes a contract's status -/

theorem find_contract_filter (cs : List ContractRow) (c d : Nat) (hcd : c ≠ d) :
    (cs.filter (fun x => x.id != d)).find? (fun x => x.id == c) =
      cs.find? (fun x => x.id == c) := by
  induction cs with
  | nil => rfl
  | cons x xs ih =>
    by_cases hx : x.id = d
    · have hdc : (d == c) = false := by
        simp only [beq_eq_false_iff_ne, ne_eq]
        exact fun h => hcd h.symm
      simp only [List.filter_cons, hx, bne_self_eq_false, Bool.false_eq_true, if_false,
        List.find?_cons, hdc]
      exact ih
    · have hxd : (x.id != d) = true := by simpa using hx
      simp only [List.filter_cons, hxd, if_true, List.find?_cons]
      cases hxc : (x.id == c)
      · exact ih
      · rfl

theorem createContract_contracts (s : State) (body : Body) (ownerId : Nat)
    (inserted : Except JsError Nat) :
    ∃ extra, (createContract s body ownerId inserted).2.contracts = s.contracts ++ extra := by
  simp only [createContract]
  repeat' split
  all_goals first
    | exact ⟨[], (List.append_nil _).symm⟩
    | exact ⟨_, rfl⟩

theorem deleteContract_contracts (L : Lib) (cfg : Config) (s : State) (contractId : Nat)
    (deleteError : Option JsError) (cascade : Bool) :
    (deleteContract L cfg s contractId deleteError cascade).2.contracts = s.contracts ∨
    (deleteContract L cfg s contractId deleteError cascade).2.contracts =
      s.contracts.filter (fun x => x.id != contractId) := by
  simp only [deleteContract]
  repeat' split
  all_goals first
    | exact Or.inl rfl
    | exact Or.inr rfl

theorem signPdfLegacy_contracts (L : Lib) (cfg : Config) (now : Nat) (s : State)
    (filename : Option String) (p : SignPayload) :
    (signPdfLegacy L cfg now s filename p).2.contracts = s.contracts := by
  simp only [signPdfLegacy]
  repeat' split
  all_goals rfl

/-- C21 as the code has it: besides the five state-machine routes, the contract update also
writes the status.  An accepted update with a valid id sets the status of the contract with
that id to `normalizeStatus` of the body's status field and leaves every other contract's
status as it was; an update that is refused (id 0, MySQL error) changes nothing.  Creating a
contract, deleting another contract and the filename-addressed sign route leave the status of
an existing contract unchanged. -/
theorem status_written_by_update_only (L : Lib) (cfg : Config) (now : Nat) (s : State)
    (id c : Nat) (body : Body) :
    (id ≠ 0 →
      contractStatus (updateContract s id body none).2 c =
        if c = id then
          (contractStatus s c).map (fun _ => normalizeStatus (pick body ["status"]))
        else contractStatus s c) ∧
    (updateContract s 0 body none).2 = s ∧
    (∀ e, (updateContract s id body (some e)).2 = s) ∧
    (∀ ownerId inserted st, contractStatus s c = some st →
      contractStatus (createContract s body ownerId inserted).2 c = some st) ∧
    (∀ deleteError cascade, c ≠ id →
      contractStatus (deleteContract L cfg s id deleteError cascade).2 c =
        contractStatus s c) ∧
    (∀ filename p, contractStatus (signPdfLegacy L cfg now s filename p).2 c =
      contractStatus s c) := by
  refine ⟨fun hid => updateContract_status s id body hid c, ?_, ?_, ?_, ?_, ?_⟩
  · simp [updateContract]
  · intro e
    simp only [updateContract]
    split <;> rfl
  · intro ownerId inserted st hst
    obtain ⟨extra, hx⟩ := createContract_contracts s body ownerId inserted
    simp only [contractStatus, hx, List.find?_append] at hst ⊢
    cases hf : s.contracts.find? (fun x => x.id == c) with
    | none => simp [hf] at hst
    | some row =>
      rw [hf] at hst
      simpa using hst
  · intro deleteError cascade hcid
    rcases deleteContract_contracts L cfg s id deleteError cascade with h | h
    · simp only [contractStatus, h]
    · simp only [contractStatus, h, find_contract_filter _ _ _ hcid]
  · intro filename p
    simp only [contractStatus, signPdfLegacy_contracts]

/-- C21, worked example: an update of contract 7 in the uploaded state that names no status
makes it `draft`; a refused update, creating contract 8 and the filename-addressed sign route
leave contract 7 `in_progress`. -/
theorem status_written_by_update_only_example :
    contractStatus (updateContract demoUploaded 7 demoEditBody none).2 7 = some "draft" ∧
    contractStatus (createContract demoUploaded demoCreateActiveBody 1 (.ok 8)).2 7 =
      some "in_progress" ∧
    contractStatus (signPdfLegacy demoLib demoConfig 2000 demoUploaded (some "1000-a.pdf")
      demoPayload).2 7 = some "in_progress" :=
  have h := status_written_by_update_only demoLib demoConfig 2000 demoUploaded 7 7
    demoCreateActiveBody
  ⟨((status_written_by_update_only demoLib demoConfig 2000 demoUploaded 7 7 demoEditBody).1
      (by decide)).trans (by decide),
   h.2.2.2.1 1 (.ok 8) "in_progress" (by decide),
   (h.2.2.2.2.2 (some "1000-a.pdf") demoPayload).trans (by decide)⟩

/-- C21 refuted as stated: contract 7 is `active_contract` after its owner signed and has no
approval; an update whose body says `Pending Approval` is answered 200 and leaves the
contract `pending_approval`. -/
theorem update_overwrites_status :
    contractStatus demoOwnerSigned 7 = some "active_contract" ∧
    (updateContract demoOwnerSigned 7 demoStatusBody none).1.status = 200 ∧
    contractStatus (updateContract demoOwnerSigned 7 demoStatusBody none).2 7 =
      some "pending_approval" ∧
    (updateContract demoOwnerSigned 7 demoStatusBody none).2.approvals = [] := by
  decide

/-! ## Contract creation -/

/-- C23 as the code has it: a create request that names title, vendor and code, carries an
owner id and is accepted by MySQL is answered 201 and adds one contract whose status is
`normalizeStatus` of the body's status field; that is `draft` when the body names no status
the server recognises. -/
theorem create_status_from_body (s : State) (body : Body) (ownerId insertId : Nat)
    (title vendor code : String)
    (ht : pick body ["title", "contract_title"] = some title)
    (hv : pick body ["vendor", "vendor_name"] = some vendor)
    (hc : pick body ["contractId", "contract_id", "contract_code"] = some code)
    (ho : ownerId ≠ 0) :
    (createContract s body ownerId (.ok insertId)).1.status = 201 ∧
    (createContract s body ownerId (.ok insertId)).2.contracts =
      s.contracts ++
        [{ id := insertId, owner_id := ownerId, contract_code := jsTrim code,
           title := jsTrim title, vendor := jsTrim vendor,
           status := normalizeStatus (pick body ["status"]) }] ∧
    (contractExists s insertId = false →
      contractStatus (createContract s body ownerId (.ok insertId)).2 insertId =
        some (normalizeStatus (pick body ["status"]))) ∧
    (noRecognisedStatus body → contractExists s insertId = false →
      contractStatus (createContract s body ownerId (.ok insertId)).2 insertId =
        some "draft") := by
  have hcs : (createContract s body ownerId (.ok insertId)).2.contracts =
      s.contracts ++
        [{ id := insertId, owner_id := ownerId, contract_code := jsTrim code,
           title := jsTrim title, vendor := jsTrim vendor,
           status := normalizeStatus (pick body ["status"]) }] := by
    simp only [createContract, ht, hv, hc, ho, if_false]
  have hnew : contractExists s insertId = false →
      contractStatus (createContract s body ownerId (.ok insertId)).2 insertId =
        some (normalizeStatus (pick body ["status"])) := by
    intro hex
    have hnone : s.contracts.find? (fun x => x.id == insertId) = none := by
      rw [List.find?_eq_none]
      intro x hx hxid
      have : contractExists s insertId = true := by
        simp only [contractExists, List.any_eq_true]
        exact ⟨x, hx, hxid⟩
      rw [hex] at this
      exact Bool.noConfusion this
    simp [contractStatus, hcs, List.find?_append, hnone]
  refine ⟨?_, hcs, hnew, ?_⟩
  · simp only [createContract, ht, hv, hc, ho, if_false]
    rfl
  · intro hbody hex
    rw [hnew hex, normalizeStatus_pick_draft body hbody]

/-- C23, worked example: a create body without a status field gives a `draft` contract. -/
theorem create_status_from_body_example :
    (createContract demoUploaded demoEditBody 1 (.ok 8)).1.status = 201 ∧
    contractStatus (createContract demoUploaded demoEditBody 1 (.ok 8)).2 8 = some "draft" :=
  have h := create_status_from_body demoUploaded demoEditBody 1 8 "Lease 2027" "Acme" "C-7"
    (by decide) (by decide) (by decide) (by decide)
  ⟨h.1, h.2.2.2 (Or.inl (by decide)) (by decide)⟩

/-- C23 refuted as stated: a create body whose status field says `Active Contract` is
answered 201 and the new contract 8 has status `active_contract`. -/
theorem create_takes_status_from_body :
    (createContract demoUploaded demoCreateActiveBody 1 (.ok 8)).1.status = 201 ∧
    contractStatus (createContract demoUploaded demoCreateActiveBody 1 (.ok 8)).2 8 =
      some "active_contract" := by
  decide

/-! ## Database errors -/

/-- C26 as the code has it: `handleMysqlError` always puts the error message and code in the
body; a schema mismatch (`ER_NO_SUCH_TABLE`, `ER_BAD_FIELD_ERROR`) is answered 500, a
referential-constraint violation (`ER_NO_REFERENCED_ROW_2`) is answered 400, a duplicate 409
and every other error 500. -/
theorem integrity_error_answer (err : JsError) (fallbackMsg : String) :
    (handleMysqlError err fallbackMsg).error = some err.message ∧
    (handleMysqlError err fallbackMsg).code = some err.code ∧
    ((err.code = "ER_NO_SUCH_TABLE" ∨ err.code = "ER_BAD_FIELD_ERROR") →
      (handleMysqlError err fallbackMsg).status = 500) ∧
    (err.code = "ER_NO_REFERENCED_ROW_2" → (handleMysqlError err fallbackMsg).status = 400) ∧
    (err.code = "ER_DUP_ENTRY" → (handleMysqlError err fallbackMsg).status = 409) ∧
    (err.code ≠ "ER_DUP_ENTRY" → err.code ≠ "ER_NO_REFERENCED_ROW_2" →
      (handleMysqlError err fallbackMsg).status = 500) := by
  refine ⟨?_, ?_, ?_, ?_, ?_, ?_⟩
  · simp only [handleMysqlError]
    repeat' split
    all_goals rfl
  · simp only [handleMysqlError]
    repeat' split
    all_goals rfl
  · intro h
    rcases h with h | h <;> simp [handleMysqlError, h]
  · intro h
    simp [handleMysqlError, h]
  · intro h
    simp [handleMysqlError, h]
  · intro h1 h2
    simp only [handleMysqlError, h1, h2, if_false]
    split <;> rfl

/-- C26, worked example: a missing table is answered 500 with message and code, a failed
foreign key 400 with message and code. -/
theorem integrity_error_answer_example :
    (handleMysqlError { code := "ER_NO_SUCH_TABLE", message := "Table approvals missing" }
      "Server error").status = 500 ∧
    (handleMysqlError demoForeignKeyError "Server error").status = 400 ∧
    (handleMysqlError demoForeignKeyError "Server error").error =
      some demoForeignKeyError.message :=
  ⟨(integrity_error_answer { code := "ER_NO_SUCH_TABLE", message := "Table approvals missing" }
      "Server error").2.2.1 (Or.inl rfl),
   (integrity_error_answer demoForeignKeyError "Server error").2.2.2.1 rfl,
   (integrity_error_answer demoForeignKeyError "Server error").1⟩

/-- C26 refuted as stated: for a referential-constraint violation the status is 400, which
is not in 500..599; creating a contract for an owner MySQL does not know is answered so. -/
theorem foreign_key_error_answers_400 :
    (handleMysqlError demoForeignKeyError "Server error").status = 400 ∧
    ¬ (500 ≤ (handleMysqlError demoForeignKeyError "Server error").status ∧
       (handleMysqlError demoForeignKeyError "Server error").status ≤ 599) ∧
    (createContract demoUploaded demoEditBody 77 (.error demoForeignKeyError)).1.status =
      400 := by
  decide

/-! ## Notes of a rejection -/

theorem dropWhile_of_head (p : Char → Bool) (l : List Char) (h : l.head?.any p = false) :
    l.dropWhile p = l := by
  cases l with
  | nil => rfl
  | cons c cs =>
    have hc : p c = false := by simpa using h
    simp only [List.dropWhile_cons, hc, Bool.false_eq_true, if_false]

theorem jsTrim_of_no_outer_space (v : String) (h : hasOuterSpace v = false) : jsTrim v = v := by
  simp only [hasOuterSpace, Bool.or_eq_false_iff] at h
  have h2 : v.data.reverse.head?.any isJsSpace = false := by
    rw [List.head?_reverse]
    exact h.2
  simp only [jsTrim, dropWhile_of_head _ _ h.1, dropWhile_of_head _ _ h2, List.reverse_reverse]

/-- C24 as the code has it: an approver reject with a valid id on an existing approval stores
`String(notes || "").trim() || null` on it.  Notes that are not empty and neither start nor
end with white space are stored character for character; otherwise the white space around
them is dropped, and notes that are missing, empty or all white space are stored as NULL. -/
theorem reject_stores_trimmed_notes (s : State) (approvalId : Nat) (notes : Option String)
    (a : ApprovalRow) (hid : approvalId ≠ 0) (ha : selectApproval s approvalId = some a) :
    (rejectApproval s approvalId notes).1.status = 200 ∧
    storedNotes (rejectApproval s approvalId notes).2 approvalId = some (trimOrNull notes) ∧
    (∀ r ∈ (rejectApproval s approvalId notes).2.approvals, r.id = approvalId →
      r.notes = trimOrNull notes) ∧
    (∀ v, notes = some v → v ≠ "" → hasOuterSpace v = false → trimOrNull notes = some v) ∧
    (∀ v, notes = some v → jsTrim v ≠ "" → trimOrNull notes = some (jsTrim v)) ∧
    (∀ v, notes = some v → jsTrim v = "" → trimOrNull notes = none) ∧
    trimOrNull none = none := by
  have hrun : rejectApproval s approvalId notes =
      (Response.plain 200 "Approval rejected ✅",
        { s with
          approvals := s.approvals.map (fun r =>
            if r.id = approvalId then
              { r with status := "rejected", notes := trimOrNull notes }
            else r)
          contracts := setContractStatus s.contracts a.contract_id "in_progress" }) := by
    simp only [rejectApproval, hid, if_false, ha]
  have haid : a.id = approvalId := selectApproval_id ha
  refine ⟨?_, ?_, ?_, ?_, ?_, ?_, by decide⟩
  · rw [hrun]
    rfl
  · have hmap := selectApproval_map s (fun r =>
      if r.id = approvalId then { r with status := "rejected", notes := trimOrNull notes }
      else r) approvalId (by intro x; dsimp only; split <;> rfl)
    rw [hrun]
    simp only [storedNotes, selectApproval]
    rw [hmap, ha]
    simp [haid]
  · intro r hr hrid
    rw [hrun] at hr
    simp only [List.mem_map] at hr
    obtain ⟨x, _, hx⟩ := hr
    by_cases hxid : x.id = approvalId
    · rw [if_pos hxid] at hx
      rw [← hx]
    · rw [if_neg hxid] at hx
      rw [← hx] at hrid
      exact absurd hrid hxid
  · intro v hv hne hsp
    subst hv
    simp only [trimOrNull, orEmpty, jsTrim_of_no_outer_space v hsp, hne, if_false]
  · intro v hv hne
    subst hv
    simp only [trimOrNull, orEmpty, hne, if_false]
  · intro v hv he
    subst hv
    simp only [trimOrNull, orEmpty, he, if_true]

/-- C24, worked example: B's notes `missing signature page` are stored as sent. -/
theorem reject_stores_trimmed_notes_example :
    storedNotes (rejectApproval demoASigned 2 (some "missing signature page")).2 2 =
      some (some "missing signature page") :=
  have h := reject_stores_trimmed_notes demoASigned 2 (some "missing signature page")
    { id := 2, contract_id := 7, approver_id := 10, status := "pending", notes := none,
      signed_path := none, signed_at := none } (by decide) (by decide)
  h.2.1.trans (congrArg some (h.2.2.2.1 "missing signature page" rfl (by decide) (by decide)))

/-- C24 refuted as stated: notes sent with white space around them are stored without it,
and notes that are all white space are stored as NULL. -/
theorem reject_notes_are_trimmed :
    storedNotes (rejectApproval demoASigned 2 (some " missing page\n")).2 2 =
      some (some "missing page") ∧
    storedNotes (rejectApproval demoASigned 2 (some "   ")).2 2 = some none := by
  decide

/-! ## Activation next to pending and rejected approvals -/

theorem signContract_ignores_approvals (L : Lib) (cfg : Config) (now : Nat) (s : State)
    (c : Nat) (p : SignPayload) (rows : List ApprovalRow) :
    (signContract L cfg now { s with approvals := rows } c p).1 =
      (signContract L cfg now s c p).1 ∧
    (signContract L cfg now { s with approvals := rows } c p).2.contracts =
      (signContract L cfg now s c p).2.contracts ∧
    (signContract L cfg now { s with approvals := rows } c p).2.approvals = rows := by
  simp only [signContract, ownerSignSource, selectContractFile]
  repeat' split
  all_goals exact ⟨rfl, rfl, rfl⟩

/-- C27: owner sign does not consult approvals: its answer and the contract statuses it
leaves are the same whatever the approvals table holds, and it leaves that table as it is.
So the state after request-approval for approver 9 and then owner sign is reachable, has
contract 7 at `active_contract`, and approval 1 of contract 7 is still pending. -/
theorem owner_sign_activates_with_pending_approval :
    (∀ (L : Lib) (cfg : Config) (now : Nat) (s : State) (c : Nat) (p : SignPayload)
        (rows : List ApprovalRow),
      (signContract L cfg now { s with approvals := rows } c p).1 =
        (signContract L cfg now s c p).1 ∧
      (signContract L cfg now { s with approvals := rows } c p).2.contracts =
        (signContract L cfg now s c p).2.contracts ∧
      (signContract L cfg now { s with approvals := rows } c p).2.approvals = rows) ∧
    Reachable demoLib demoConfig (run demoLib demoConfig demoUploaded demoRequestThenOwnerSign) ∧
    contractStatus (run demoLib demoConfig demoUploaded demoRequestThenOwnerSign) 7 =
      some "active_contract" ∧
    (run demoLib demoConfig demoUploaded demoRequestThenOwnerSign).approvals =
      [{ id := 1, contract_id := 7, approver_id := 9, status := "pending", notes := none,
         signed_path := none, signed_at := none }] ∧
    pendingCount (run demoLib demoConfig demoUploaded demoRequestThenOwnerSign).approvals 7 =
      1 :=
  ⟨signContract_ignores_approvals,
   reachable_run (Reachable.init demoUploaded rfl) demoRequestThenOwnerSign,
   by decide, by decide, by decide⟩

/-- C28: from A (approval 1) and B (approval 2) both pending on contract 7, B rejects and
then A signs: the state is reachable, no approval of the contract is pending, the contract is
`active_contract`, A is approved and B is rejected. -/
theorem activation_after_rejection :
    pendingCount demoTwoPending.approvals 7 = 2 ∧
    Reachable demoLib demoConfig (run demoLib demoConfig demoTwoPending demoRejectThenSign) ∧
    contractStatus (rejectApproval demoTwoPending 2 (some "missing signature page")).2 7 =
      some "in_progress" ∧
    pendingCount (run demoLib demoConfig demoTwoPending demoRejectThenSign).approvals 7 = 0 ∧
    contractStatus (run demoLib demoConfig demoTwoPending demoRejectThenSign) 7 =
      some "active_contract" ∧
    (selectApproval (run demoLib demoConfig demoTwoPending demoRejectThenSign) 1).map
      (fun r => r.status) = some "approved" ∧
    (selectApproval (run demoLib demoConfig demoTwoPending demoRejectThenSign) 2).map
      (fun r => r.status) = some "rejected" :=
  ⟨by decide,
   reachable_run (reachable_run (Reachable.init demoUploaded rfl)
     [.requestApproval 7 9, .requestApproval 7 10]) demoRejectThenSign,
   by decide, by decide, by decide, by decide, by decide⟩

/-! ## Output names -/

theorem digitChar_value : ∀ k, k < 10 → (Nat.digitChar k).toNat - 48 = k := by decide

theorem digitChar_ne_dash : ∀ k, k < 10 → Nat.digitChar k ≠ '-' := by decide

theorem toDigitsCore_acc (fuel : Nat) : ∀ (n : Nat) (ds : List Char),
    Nat.toDigitsCore 10 fuel n ds = Nat.toDigitsCore 10 fuel n [] ++ ds := by
  induction fuel with
  | zero => intro n ds; rfl
  | succ fuel ih =>
    intro n ds
    simp only [Nat.toDigitsCore]
    by_cases h : n / 10 = 0
    · simp only [h, if_true, List.singleton_append]
    · simp only [h, if_false]
      rw [ih (n / 10) (Nat.digitChar (n % 10) :: ds), ih (n / 10) [Nat.digitChar (n % 10)]]
      simp

theorem toDigitsCore_value (fuel : Nat) : ∀ n, n < fuel →
    digitsValue (Nat.toDigitsCore 10 fuel n []) = n := by
  induction fuel with
  | zero => intro n h; omega
  | succ fuel ih =>
    intro n hn
    simp only [Nat.toDigitsCore]
    have hd := digitChar_value (n % 10) (Nat.mod_lt n (by decide))
    by_cases h : n / 10 = 0
    · simp only [h, if_true, digitsValue, List.foldl_cons, List.foldl_nil, hd]
      omega
    · simp only [h, if_false]
      rw [toDigitsCore_acc]
      have hrec := ih (n / 10) (by omega)
      simp only [digitsValue, List.foldl_append, List.foldl_cons, List.foldl_nil] at hrec ⊢
      rw [hrec, hd]
      omega

theorem toDigitsCore_no_dash (fuel : Nat) : ∀ (n : Nat) (ds : List Char), '-' ∉ ds →
    '-' ∉ Nat.toDigitsCore 10 fuel n ds := by
  induction fuel with
  | zero => intro n ds h; exact h
  | succ fuel ih =>
    intro n ds hds
    have hd := digitChar_ne_dash (n % 10) (Nat.mod_lt n (by decide))
    have hcons : '-' ∉ Nat.digitChar (n % 10) :: ds := by
      simp only [List.mem_cons, not_or]
      exact ⟨fun h => hd h.symm, hds⟩
    simp only [Nat.toDigitsCore]
    split
    · exact hcons
    · exact ih _ _ hcons

theorem toString_data (n : Nat) : (toString n).data = Nat.toDigits 10 n := rfl

theorem toString_no_dash (n : Nat) : '-' ∉ (toString n).data := by
  rw [toString_data]
  exact toDigitsCore_no_dash _ _ _ (List.not_mem_nil _)

theorem toString_nat_inj {n m : Nat} (h : (toString n).data = (toString m).data) : n = m := by
  rw [toString_data, toString_data] at h
  have hn := toDigitsCore_value (n + 1) n (Nat.lt_succ_self n)
  have hm := toDigitsCore_value (m + 1) m (Nat.lt_succ_self m)
  unfold Nat.toDigits at h
  rw [h] at hn
  exact hn.symm.trans hm

theorem split_at_first {x : Char} : ∀ (a a' b b' : List Char), x ∉ a → x ∉ a' →
    a ++ x :: b = a' ++ x :: b' → a = a' ∧ b = b' := by
  intro a
  induction a with
  | nil =>
    intro a' b b' _ ha' h
    cases a' with
    | nil => exact ⟨rfl, by simpa using h⟩
    | cons y ys =>
      simp only [List.nil_append, List.cons_append, List.cons.injEq] at h
      exact absurd (h.1 ▸ List.mem_cons_self _ _) ha'
  | cons z zs ih =>
    intro a' b b' ha ha' h
    cases a' with
    | nil =>
      simp only [List.nil_append, List.cons_append, List.cons.injEq] at h
      exact absurd (h.1 ▸ List.mem_cons_self _ _) ha
    | cons y ys =>
      simp only [List.cons_append, List.cons.injEq] at h
      have hz : x ∉ zs := fun hx => ha (List.mem_cons_of_mem _ hx)
      have hy : x ∉ ys := fun hx => ha' (List.mem_cons_of_mem _ hx)
      obtain ⟨h1, h2⟩ := ih ys b b' hz hy h.2
      exact ⟨by rw [h.1, h1], h2⟩

theorem split_at_last {x : Char} (a a' b b' : List Char) (hb : x ∉ b) (hb' : x ∉ b')
    (h : a ++ x :: b = a' ++ x :: b') : a = a' ∧ b = b' := by
  have hr : b.reverse ++ x :: a.reverse = b'.reverse ++ x :: a'.reverse := by
    have := congrArg List.reverse h
    simpa using this
  obtain ⟨h1, h2⟩ := split_at_first b.reverse b'.reverse a.reverse a'.reverse
    (by simpa using hb) (by simpa using hb') hr
  exact ⟨List.reverse_injective h2, List.reverse_injective h1⟩

theorem signed_name_split (X Y : List Char) (n m : Nat)
    (h : X ++ "-signed-".data ++ (toString n).data ++ ".pdf".data =
      Y ++ "-signed-".data ++ (toString m).data ++ ".pdf".data) : X = Y ∧ n = m := by
  have h1 := List.append_cancel_right h
  have hs : "-signed-".data = "-signed".data ++ ['-'] := rfl
  rw [hs] at h1
  have h2 : (X ++ "-signed".data) ++ '-' :: (toString n).data =
      (Y ++ "-signed".data) ++ '-' :: (toString m).data := by
    simpa using h1
  obtain ⟨h3, h4⟩ := split_at_last _ _ _ _ (toString_no_dash n) (toString_no_dash m) h2
  exact ⟨List.append_cancel_right h3, toString_nat_inj h4⟩

theorem contractOutName_data (c n : Nat) :
    (contractOutName c n).data =
      ("contract-".data ++ (toString c).data) ++ "-signed-".data ++ (toString n).data ++
        ".pdf".data := by
  simp only [contractOutName, String.data_append]

theorem approvalOutName_data (a c n : Nat) :
    (approvalOutName a c n).data =
      ("approval-".data ++ (toString a).data ++ "-contract-".data ++ (toString c).data) ++
        "-signed-".data ++ (toString n).data ++ ".pdf".data := by
  simp only [approvalOutName, String.data_append]

theorem legacyOutName_data (L : Lib) (f : String) (n : Nat) :
    (legacyOutName L f n).data =
      (L.basenameNoExt f).data ++ "-signed-".data ++ (toString n).data ++ ".pdf".data := by
  simp only [legacyOutName, String.data_append]

theorem contractOutName_inj {c n c' n' : Nat}
    (h : contractOutName c n = contractOutName c' n') : c = c' ∧ n = n' := by
  have hd := congrArg String.data h
  rw [contractOutName_data, contractOutName_data] at hd
  obtain ⟨hx, hn⟩ := signed_name_split _ _ _ _ hd
  exact ⟨toString_nat_inj (List.append_cancel_left hx), hn⟩

theorem approvalOutName_inj {a c n a' c' n' : Nat}
    (h : approvalOutName a c n = approvalOutName a' c' n') : a = a' ∧ c = c' ∧ n = n' := by
  have hd := congrArg String.data h
  rw [approvalOutName_data, approvalOutName_data] at hd
  obtain ⟨hx, hn⟩ := signed_name_split _ _ _ _ hd
  have hx1 : (toString a).data ++ '-' :: ("contract-".data ++ (toString c).data) =
      (toString a').data ++ '-' :: ("contract-".data ++ (toString c').data) := by
    have key : ∀ T U : List Char, "approval-".data ++ T ++ "-contract-".data ++ U =
        "approval-".data ++ (T ++ '-' :: ("contract-".data ++ U)) := by
      intro T U
      simp
    rw [key, key] at hx
    exact List.append_cancel_left hx
  obtain ⟨ha, hc⟩ := split_at_first _ _ _ _ (toString_no_dash a) (toString_no_dash a') hx1
  exact ⟨toString_nat_inj ha, toString_nat_inj (List.append_cancel_left hc), hn⟩

theorem legacyOutName_inj {L : Lib} {f f' : String} {n n' : Nat}
    (h : legacyOutName L f n = legacyOutName L f' n') :
    L.basenameNoExt f = L.basenameNoExt f' ∧ n = n' := by
  have hd := congrArg String.data h
  rw [legacyOutName_data, legacyOutName_data] at hd
  obtain ⟨hx, hn⟩ := signed_name_split _ _ _ _ hd
  exact ⟨String.ext hx, hn⟩

/-- C25 as the code has it: within a route two output names are equal exactly when the
millisecond timestamp and the identifiers (contract id; approval and contract id; file name
stem) are equal, so runs at different timestamps or for different identifiers never share a
name, and runs for the same identifiers in the same millisecond always do.  An owner name
never equals an approver name, and a name of the filename-addressed route can equal one of
the other routes only at the same timestamp. -/
theorem output_names_equal_iff (L : Lib) :
    (∀ c n c' n', contractOutName c n = contractOutName c' n' ↔ c = c' ∧ n = n') ∧
    (∀ a c n a' c' n',
      approvalOutName a c n = approvalOutName a' c' n' ↔ a = a' ∧ c = c' ∧ n = n') ∧
    (∀ f n f' n',
      legacyOutName L f n = legacyOutName L f' n' ↔
        L.basenameNoExt f = L.basenameNoExt f' ∧ n = n') ∧
    (∀ c n a c' n', contractOutName c n ≠ approvalOutName a c' n') ∧
    (∀ f n c n', legacyOutName L f n = contractOutName c n' → n = n') ∧
    (∀ f n a c n', legacyOutName L f n = approvalOutName a c n' → n = n') := by
  refine ⟨?_, ?_, ?_, ?_, ?_, ?_⟩
  · intro c n c' n'
    constructor
    · exact contractOutName_inj
    · rintro ⟨rfl, rfl⟩
      rfl
  · intro a c n a' c' n'
    constructor
    · exact approvalOutName_inj
    · rintro ⟨rfl, rfl, rfl⟩
      rfl
  · intro f n f' n'
    constructor
    · exact legacyOutName_inj
    · rintro ⟨hf, rfl⟩
      simp only [legacyOutName, hf]
  · intro c n a c' n' h
    have hd := congrArg String.data h
    rw [contractOutName_data, approvalOutName_data] at hd
    simp at hd
  · intro f n c n' h
    have hd := congrArg String.data h
    rw [legacyOutName_data, contractOutName_data] at hd
    exact (signed_name_split _ _ _ _ hd).2
  · intro f n a c n' h
    have hd := congrArg String.data h
    rw [legacyOutName_data, approvalOutName_data] at hd
    exact (signed_name_split _ _ _ _ hd).2

/-- C25, worked example: owner sign of contract 7 at times 2000 and 2001 gives two names, and
so do approver signs of approvals 1 and 2 at the same time. -/
theorem output_names_equal_iff_example :
    contractOutName 7 2000 ≠ contractOutName 7 2001 ∧
    approvalOutName 1 7 2000 ≠ approvalOutName 2 7 2000 ∧
    contractOutName 7 2000 = "contract-7-signed-2000.pdf" :=
  ⟨fun h => absurd (((output_names_equal_iff demoLib).1 7 2000 7 2001).mp h).2 (by decide),
   fun h => absurd (((output_names_equal_iff demoLib).2.1 1 7 2000 2 7 2000).mp h).1
     (by decide),
   by decide⟩

/-- C25 refuted as stated: two owner signs of contract 7 handled in the same millisecond,
with different payloads, are both answered 200 with the same output path; the second run
writes that file and then unlinks it as the previous artifact, so the recorded path names no
file.  The filename-addressed route gives the same name for a file called `contract-7.pdf`. -/
theorem same_millisecond_same_name :
    demoPayload ≠ demoPayloadAgain ∧
    (signContract demoLib demoConfig 2000 demoUploaded 7 demoPayload).1.status = 200 ∧
    (signContract demoLib demoConfig 2000 demoOwnerSigned 7 demoPayloadAgain).1.status = 200 ∧
    (signContract demoLib demoConfig 2000 demoUploaded 7 demoPayload).1.path =
      some "/storage/contract-7-signed-2000.pdf" ∧
    (signContract demoLib demoConfig 2000 demoOwnerSigned 7 demoPayloadAgain).1.path =
      some "/storage/contract-7-signed-2000.pdf" ∧
    existsSync demoOwnerSigned.disk "/srv/storage/contract-7-signed-2000.pdf" = true ∧
    existsSync (signContract demoLib demoConfig 2000 demoOwnerSigned 7 demoPayloadAgain).2.disk
      "/srv/storage/contract-7-signed-2000.pdf" = false ∧
    legacyOutName demoLib "contract-7.pdf" 2000 = contractOutName 7 2000 := by
  decide

/-! ## Undo and redo on the approval page -/

theorem RedoDetached_step {α : Type} [Sub α] [Div α] [NatCast α] (st : OverlayState α)
    (e : OverlayEvent α) (hinv : RedoDetached st) : RedoDetached (overlayStep st e) := by
  cases e with
  | place pageIndex canvas viewport clickX clickY =>
    simp only [overlayStep, placeSignatureOverlay]
    repeat' split
    all_goals first
      | exact hinv
      | (intro p hp; exact absurd hp (List.not_mem_nil p))
  | undo =>
    simp only [overlayStep, undoSig]
    split
    · exact hinv
    · rename_i last _
      intro p hp
      simp only [List.mem_append, List.mem_singleton] at hp
      simp only [List.mem_filter, bne_iff_ne, ne_eq, not_and, not_not]
      rcases hp with hp | hp
      · intro hmem
        exact absurd hmem (hinv p hp)
      · intro _
        rw [hp]
  | redo =>
    simp only [overlayStep, redoSig]
    split
    · exact hinv
    · split
      · intro p hp
        exact absurd hp (List.not_mem_nil p)
      · intro p hp
        exact hinv p (List.mem_of_mem_dropLast hp)
  | clear =>
    intro p hp
    exact absurd hp (List.not_mem_nil p)
  | choosePng dataUrl => exact hinv
  | togglePen => exact hinv
  | render =>
    intro p _
    exact List.not_mem_nil _

theorem RedoDetached_of_reachable {α : Type} [Sub α] [Div α] [NatCast α]
    {st : OverlayState α} (h : OverlayReachable st) : RedoDetached st := by
  induction h with
  | init st _ h2 =>
    intro p hp
    rw [h2] at hp
    exact absurd hp (List.not_mem_nil p)
  | step st e _ ih => exact RedoDetached_step st e ih

theorem redoSig_of_detached {α : Type} (st : OverlayState α) (hinv : RedoDetached st) :
    (redoSig st).sigStack = st.sigStack ∧ (redoSig st).redoStack = [] ∧
    (redoSig st).attached = st.attached := by
  cases hlast : st.redoStack.getLast? with
  | none =>
    have hnil := List.getLast?_eq_none_iff.mp hlast
    have hr : redoSig st = st := by
      simp only [redoSig, hlast]
    rw [hr]
    exact ⟨rfl, hnil, rfl⟩
  | some item =>
    have hdet : item.domEl ∉ st.attached := hinv item (List.mem_of_mem_getLast? hlast)
    have hr : redoSig st =
        { st with
          alerts := st.alerts ++
            ["Redo tidak tersedia setelah undo pada render ini. Silakan taruh ulang tanda tangan."]
          redoStack := [] } := by
      simp only [redoSig, hlast, hdet, not_false_eq_true, if_true]
    rw [hr]
    exact ⟨rfl, rfl, rfl⟩

/-- C30: in every state of the approval page reached from one with empty stacks by placing,
undo, redo and clear (and by choosing a PNG, toggling pen mode and rendering again), every
entry of `redoStack` has an overlay element that is not in the document; so `redoSig` leaves
`sigStack` and the document as they are and leaves `redoStack` empty, and a placement (PNG
chosen, pen mode on, canvas inside its wrapper) empties `redoStack`. -/
theorem redo_never_restores {α : Type} [Sub α] [Div α] [NatCast α] (st : OverlayState α)
    (h : OverlayReachable st) :
    RedoDetached st ∧
    (redoSig st).sigStack = st.sigStack ∧
    (redoSig st).redoStack = [] ∧
    (redoSig st).attached = st.attached ∧
    (∀ pageIndex canvas viewport clickX clickY w,
      truthy st.pngDataUrl = true → st.penMode = true → canvas.parentElement = some w →
      (placeSignatureOverlay st pageIndex canvas viewport clickX clickY).redoStack = [] ∧
      (placeSignatureOverlay st pageIndex canvas viewport clickX clickY).sigStack.length =
        st.sigStack.length + 1) := by
  have hinv := RedoDetached_of_reachable h
  obtain ⟨h1, h2, h3⟩ := redoSig_of_detached st hinv
  refine ⟨hinv, h1, h2, h3, ?_⟩
  intro pageIndex canvas viewport clickX clickY w hpng hpen hw
  rw [placeSignatureOverlay_push st pageIndex canvas viewport clickX clickY hpng hpen w hw]
  exact ⟨rfl, by simp⟩

theorem demoUndone_reachable : OverlayReachable demoUndone :=
  OverlayReachable.step _ .undo
    (OverlayReachable.step _ (.place 0 demoCanvas { scale := renderScale } 100 200)
      (OverlayReachable.init demoOverlay rfl rfl))

theorem demoUndone_stacks : demoUndone.sigStack = [] ∧ demoUndone.redoStack.length = 1 := by
  have hplace := placeSignatureOverlay_push demoOverlay 0 demoCanvas { scale := renderScale }
    100 200 (by decide) (by decide) 0 rfl
  unfold demoUndone canvasClick
  rw [hplace]
  exact ⟨rfl, rfl⟩

/-- C30, worked example: after one placement and an undo the placement sits on `redoStack`
and `sigStack` is empty; redo then leaves `sigStack` empty and empties `redoStack`. -/
theorem redo_never_restores_example :
    demoUndone.redoStack.length = 1 ∧ demoUndone.sigStack = [] ∧
    (redoSig demoUndone).sigStack = [] ∧ (redoSig demoUndone).redoStack = [] :=
  have h := redo_never_restores demoUndone demoUndone_reachable
  ⟨demoUndone_stacks.2, demoUndone_stacks.1, h.2.1.trans demoUndone_stacks.1, h.2.2.1⟩

end SmartContract
